import Mathlib

/-!
# Masternode registry, payment scheduling and spork store

A shallow embedding of `src/masternode/masternodeman.cpp`, `src/masternode/spork.cpp`
and `src/masternode/spork.h`.

Conventions of the embedding:

* C++ `int` / `int64_t` values are `Int`; counts produced by loops are `Nat` and are
  cast where the source compares them with signed values.  No operation of the modelled
  functions relies on wrap-around.
* `uint256` hashes and scores are `Nat`.
* A `std::map<K, V>` is an association list with unique keys (`mapCount`, `mapFind`,
  `mapAssign`, `mapInsert`); a `std::vector` is a `List`.
* A returned `CMasternode*` is modelled by `Option CMasternode` holding the value of the
  entry pointed to (`none` for `nullptr`).
* Member functions that tick entries through `CMasternode::Check` return the registry
  vector they leave behind next to their result.
* Code that lives outside the three source files (the entry's state machine, hashing,
  signatures, the chain, the payment oracle) is collected in `Env`.
-/

/-! ## Data model -/

/-- Reference to a transaction output: `COutPoint` (transaction hash and output index). -/
structure COutPoint where
  hash : Nat
  n : Nat
deriving DecidableEq, Repr

/-- Transaction input `CTxIn`.  `operator==` on `CTxIn` compares all three fields, while the
registry lookup `Find(const CTxIn&)` compares `prevout` only. -/
structure CTxIn where
  prevout : COutPoint
  scriptSig : List Nat
  nSequence : Nat
deriving DecidableEq, Repr

/-- Activity states of an entry, as listed by the data model of the specification. -/
inductive MasternodeState where
  | MASTERNODE_PRE_ENABLED
  | MASTERNODE_ENABLED
  | MASTERNODE_EXPIRED
  | MASTERNODE_REMOVE
  | MASTERNODE_VIN_SPENT
  | MASTERNODE_POSE_BAN
deriving DecidableEq, Repr

/-- Masternode ping `CMasternodePing`: collateral input, block hash, signed time, signature. -/
structure CMasternodePing where
  vin : CTxIn
  blockHash : Nat
  sigTime : Int
  vchSig : List Nat
deriving DecidableEq, Repr

/-- Registry entry `CMasternode`, with the members the three source files read or write. -/
structure CMasternode where
  vin : CTxIn
  addr : Nat
  pubKeyCollateralAddress : Nat
  pubKeyMasternode : Nat
  sig : List Nat
  activeState : MasternodeState
  sigTime : Int
  lastPing : CMasternodePing
  protocolVersion : Int
deriving DecidableEq, Repr

/-- Masternode broadcast `CMasternodeBroadcast` (wire message `mnb`). -/
structure CMasternodeBroadcast where
  vin : CTxIn
  addr : Nat
  pubKeyCollateralAddress : Nat
  pubKeyMasternode : Nat
  sig : List Nat
  sigTime : Int
  protocolVersion : Int
  lastPing : CMasternodePing
deriving DecidableEq, Repr

/-- Modelled from the spec: `CMasternode::IsEnabled` is declared in `masternode.h`, which is
not among the source files; an entry is enabled when its `active_state` is `ENABLED`. -/
def CMasternode.IsEnabled (mn : CMasternode) : Bool :=
  decide (mn.activeState = MasternodeState.MASTERNODE_ENABLED)

/-- The collaborators of the registry whose code is outside the three source files.  Each
field stands for the call of the same name in the source. -/
structure Env where
  /-- `GetTime()`. -/
  GetTime : Int
  /-- `GetAdjustedTime()`. -/
  GetAdjustedTime : Int
  /-- `CMasternode::Check()`: the state-machine tick of one entry. -/
  Check : CMasternode → CMasternode
  /-- `masternodePayments.GetMinMasternodePaymentsProto()`. -/
  GetMinMasternodePaymentsProto : Int
  /-- `ActiveProtocol()`. -/
  ActiveProtocol : Int
  /-- `masternodePayments.IsScheduled(mn, nBlockHeight)`. -/
  IsScheduled : CMasternode → Int → Bool
  /-- `CMasternode::GetMasternodeInputAge()`: confirmations of the collateral. -/
  GetMasternodeInputAge : CMasternode → Int
  /-- `CMasternode::SecondsSincePayment()`. -/
  SecondsSincePayment : CMasternode → Int
  /-- `UintToArith256(mn.CalculateScore(mod, nBlockHeight))`, a 256-bit number. -/
  CalculateScore : CMasternode → Int → Int → Nat
  /-- `arith_uint256::GetCompact(false)`, widened to `int64_t`. -/
  GetCompact : Nat → Int
  /-- `GetBlockHash(hash, nBlockHeight)`: `none` when the call returns `false`. -/
  GetBlockHash : Int → Option Nat
  /-- The converting constructor `CMasternode(const CMasternodeBroadcast&)`. -/
  fromBroadcast : CMasternodeBroadcast → CMasternode
  /-- `CMasternode::UpdateFromNewBroadcast(mnb, connman)`, as the entry it leaves behind. -/
  UpdateFromNewBroadcast : CMasternode → CMasternodeBroadcast → CMasternode
  /-- `CMasternodeBroadcast::GetHash()`. -/
  mnbHash : CMasternodeBroadcast → Nat
  /-- `CMasternodePing::GetHash()`. -/
  mnpHash : CMasternodePing → Nat
  /-- `MASTERNODE_REMOVAL_SECONDS`. -/
  MASTERNODE_REMOVAL_SECONDS : Int
  /-- `MASTERNODE_MIN_MNP_SECONDS`. -/
  MASTERNODE_MIN_MNP_SECONDS : Int
  /-- `MASTERNODES_DSEG_SECONDS`. -/
  MASTERNODES_DSEG_SECONDS : Int
  /-- Whether `::ChainActive().Tip()` is non-null. -/
  hasTip : Bool
  /-- `CSporkMessage::GetHash()`, a hash of `nSporkID`, `nValue` and `nTimeSigned`. -/
  sporkHash : Int → Int → Int → Nat
  /-- `masternodeSigner.GetKeysFromSecret(strSignKey, key, pubkey)`: the key pair, or `none`
  when the call returns `false`. -/
  GetKeysFromSecret : String → Option (Nat × Nat)
  /-- `masternodeSigner.SignMessage(strMessage, strError, vchSig, key)`: the signature, or
  `none` when the call returns `false`. -/
  SignMessage : String → Nat → Option (List Nat)
  /-- `masternodeSigner.VerifyMessage(pubkey, vchSig, strMessage, strError)`. -/
  VerifyMessage : Nat → List Nat → String → Bool
  /-- `CPubKey(ParseHex(Params().SporkKey()))`: the configured spork public key. -/
  SporkKey : Nat
  /-- The order in which `std::sort` leaves elements with equal keys, which the C++ standard
  does not specify: for the key sequence of the vector being sorted, whether the element at
  position `i` is placed before the element at position `j` when their keys are equal (the
  comparators of the source read nothing but the key). -/
  sortTie : List Int → Nat → Nat → Bool

/-! ## `std::map` as an association list -/

/-- `m.count(k)` for a `std::map`. -/
def mapCount {K V : Type} [DecidableEq K] (m : List (K × V)) (k : K) : Bool :=
  m.any fun e => decide (e.1 = k)

/-- `m.find(k)`, as the mapped value. -/
def mapFind {K V : Type} [DecidableEq K] (m : List (K × V)) (k : K) : Option V :=
  (m.find? fun e => decide (e.1 = k)).map Prod.snd

/-- `m[k] = v`: overwrite the value of an existing key, otherwise add the pair. -/
def mapAssign {K V : Type} [DecidableEq K] (m : List (K × V)) (k : K) (v : V) : List (K × V) :=
  if mapCount m k then m.map fun e => if e.1 = k then (k, v) else e else m ++ [(k, v)]

/-- `m.insert(std::make_pair(k, v))`: no effect when the key is present. -/
def mapInsert {K V : Type} [DecidableEq K] (m : List (K × V)) (k : K) (v : V) : List (K × V) :=
  if mapCount m k then m else m ++ [(k, v)]

/-- The erase loops of the source: walk the map and erase every element satisfying `p`. -/
def mapEraseIf {K V : Type} (m : List (K × V)) (p : K × V → Bool) : List (K × V) :=
  m.filter fun e => !p e

/-! ## The spork store (`spork.h`, `spork.cpp`) -/

namespace Spork

def SPORK_START : Int := 10001
def SPORK_5_MAX_VALUE : Int := 10004
def SPORK_7_MASTERNODE_SCANNING : Int := 10006
def SPORK_8_MASTERNODE_PAYMENT_ENFORCEMENT : Int := 10007
def SPORK_9_MASTERNODE_BUDGET_ENFORCEMENT : Int := 10008
def SPORK_10_MASTERNODE_PAY_UPDATED_NODES : Int := 10009
def SPORK_13_ENABLE_SUPERBLOCKS : Int := 10012
def SPORK_15_NEW_PROTOCOL_ENFORCEMENT_2 : Int := 10014
def SPORK_16_CLIENT_COMPAT_MODE : Int := 10015
def SPORK_END : Int := 10016

def SPORK_5_MAX_VALUE_DEFAULT : Int := 1000
def SPORK_7_MASTERNODE_SCANNING_DEFAULT : Int := 978307200
def SPORK_8_MASTERNODE_PAYMENT_ENFORCEMENT_DEFAULT : Int := 4070908800
def SPORK_9_MASTERNODE_BUDGET_ENFORCEMENT_DEFAULT : Int := 4070908800
def SPORK_10_MASTERNODE_PAY_UPDATED_NODES_DEFAULT : Int := 4070908800
def SPORK_13_ENABLE_SUPERBLOCKS_DEFAULT : Int := 4070908800
def SPORK_15_NEW_PROTOCOL_ENFORCEMENT_2_DEFAULT : Int := 4070908800
def SPORK_16_CLIENT_COMPAT_MODE_DEFAULT : Int := 4070908800

end Spork

/-- Spork message `CSporkMessage`. -/
structure CSporkMessage where
  vchSig : List Nat
  nSporkID : Int
  nValue : Int
  nTimeSigned : Int
deriving DecidableEq, Repr

namespace CSporkMessage

/-- The string signed and verified: the decimal renderings of `nSporkID`, `nValue` and
`nTimeSigned`, concatenated (`boost::lexical_cast<std::string>`). -/
def strMessage (m : CSporkMessage) : String :=
  toString m.nSporkID ++ toString m.nValue ++ toString m.nTimeSigned

/-- `CSporkMessage::GetHash()`. -/
def GetHash (env : Env) (m : CSporkMessage) : Nat :=
  env.sporkHash m.nSporkID m.nValue m.nTimeSigned

/-- `CSporkMessage::Sign(strSignKey)`: `none` when it returns `false`, otherwise the message
carrying the fresh signature. -/
def Sign (env : Env) (m : CSporkMessage) (strSignKey : String) : Option CSporkMessage :=
  match env.GetKeysFromSecret strSignKey with
  | none => none
  | some (key, pubkey) =>
    match env.SignMessage m.strMessage key with
    | none => none
    | some vchSig =>
      if !env.VerifyMessage pubkey vchSig m.strMessage then none
      else some { m with vchSig := vchSig }

/-- `CSporkMessage::CheckSignature()`. -/
def CheckSignature (env : Env) (m : CSporkMessage) : Bool :=
  if !env.VerifyMessage env.SporkKey m.vchSig m.strMessage then false else true

end CSporkMessage

/-- The members of `CSporkManager`, together with the global `mapSporks`. -/
structure CSporkManager where
  strMasterPrivKey : String
  mapSporksActive : List (Int × CSporkMessage)
  mapSporks : List (Nat × CSporkMessage)

/-- What a call of `ProcessSpork` or `UpdateSpork` leaves behind: the store, the inventory
hash handed to `Relay` (when the call relays), and the messages pushed to the peer. -/
structure SporkOutcome where
  sporkManager : CSporkManager
  relayed : Option Nat
  pushed : List CSporkMessage

namespace CSporkManager

/-- `CSporkManager::ProcessSpork` for a message `spork` read from `vRecv`.  The wire
commands are `NetMsgType::SPORK = "spork"` and `NetMsgType::GETSPORKS = "getsporks"`.  The
reply to `getsporks` walks the `std::map`, that is, the records by ascending id. -/
def ProcessSpork (env : Env) (self : CSporkManager) (strCommand : String)
    (spork : CSporkMessage) : SporkOutcome :=
  if strCommand = "spork" then
    let hash := spork.GetHash env
    if !env.hasTip then ⟨self, none, []⟩
    else
      match mapFind self.mapSporksActive spork.nSporkID with
      | some active =>
        if active.nTimeSigned ≥ spork.nTimeSigned then ⟨self, none, []⟩
        else if !spork.CheckSignature env then ⟨self, none, []⟩
        else
          ⟨{ self with
              mapSporks := mapAssign self.mapSporks hash spork
              mapSporksActive := mapAssign self.mapSporksActive spork.nSporkID spork },
            some hash, []⟩
      | none =>
        if !spork.CheckSignature env then ⟨self, none, []⟩
        else
          ⟨{ self with
              mapSporks := mapAssign self.mapSporks hash spork
              mapSporksActive := mapAssign self.mapSporksActive spork.nSporkID spork },
            some hash, []⟩
  else if strCommand = "getsporks" then
    ⟨self, none, (self.mapSporksActive.insertionSort fun a b => a.1 ≤ b.1).map Prod.snd⟩
  else ⟨self, none, []⟩

/-- `CSporkManager::UpdateSpork(nSporkID, nValue, connman)`: the returned flag and the
outcome. -/
def UpdateSpork (env : Env) (self : CSporkManager) (nSporkID nValue : Int) :
    Bool × SporkOutcome :=
  match CSporkMessage.Sign env ⟨[], nSporkID, nValue, env.GetAdjustedTime⟩
      self.strMasterPrivKey with
  | some spork =>
    (true,
      ⟨{ self with
          mapSporks := mapAssign self.mapSporks (spork.GetHash env) spork
          mapSporksActive := mapAssign self.mapSporksActive nSporkID spork },
        some (spork.GetHash env), []⟩)
  | none => (false, ⟨self, none, []⟩)

/-- `CSporkManager::GetSporkValue(nSporkID)`. -/
def GetSporkValue (self : CSporkManager) (nSporkID : Int) : Int :=
  match mapFind self.mapSporksActive nSporkID with
  | some m => m.nValue
  | none =>
    if nSporkID = Spork.SPORK_5_MAX_VALUE then Spork.SPORK_5_MAX_VALUE_DEFAULT
    else if nSporkID = Spork.SPORK_7_MASTERNODE_SCANNING then
      Spork.SPORK_7_MASTERNODE_SCANNING_DEFAULT
    else if nSporkID = Spork.SPORK_8_MASTERNODE_PAYMENT_ENFORCEMENT then
      Spork.SPORK_8_MASTERNODE_PAYMENT_ENFORCEMENT_DEFAULT
    else if nSporkID = Spork.SPORK_9_MASTERNODE_BUDGET_ENFORCEMENT then
      Spork.SPORK_9_MASTERNODE_BUDGET_ENFORCEMENT_DEFAULT
    else if nSporkID = Spork.SPORK_10_MASTERNODE_PAY_UPDATED_NODES then
      Spork.SPORK_10_MASTERNODE_PAY_UPDATED_NODES_DEFAULT
    else if nSporkID = Spork.SPORK_13_ENABLE_SUPERBLOCKS then
      Spork.SPORK_13_ENABLE_SUPERBLOCKS_DEFAULT
    else if nSporkID = Spork.SPORK_15_NEW_PROTOCOL_ENFORCEMENT_2 then
      Spork.SPORK_15_NEW_PROTOCOL_ENFORCEMENT_2_DEFAULT
    else if nSporkID = Spork.SPORK_16_CLIENT_COMPAT_MODE then
      Spork.SPORK_16_CLIENT_COMPAT_MODE_DEFAULT
    else -1

/-- `CSporkManager::IsSporkActive(nSporkID)`. -/
def IsSporkActive (env : Env) (self : CSporkManager) (nSporkID : Int) : Bool :=
  let r := self.GetSporkValue nSporkID
  if r = -1 then false else decide (r < env.GetTime)

end CSporkManager

/-- Conversion of an `int64_t` (or `size_t`) value to `int`: the value modulo `2^32`, read
as a 32-bit two's complement number. -/
def toInt32 (x : Int) : Int := (x + 2 ^ 31) % 2 ^ 32 - 2 ^ 31

/-- The value of an `int64_t`: the integer modulo `2^64`, read as a 64-bit two's complement
number.  It is the identity on the range of `int64_t`, and it is the result of an `int64_t`
subtraction that leaves that range on the two's complement machines the code runs on. -/
def toInt64 (x : Int) : Int := (x + 2 ^ 63) % 2 ^ 64 - 2 ^ 63

/-- The number of low bits a magnitude `m` has beyond 53 significant bits (`fuel` bounds the
number of halvings; `m` itself is enough). -/
def excessBits : Nat → Nat → Nat
  | 0, _ => 0
  | fuel + 1, m => if m < 2 ^ 53 then 0 else excessBits fuel (m / 2) + 1

/-- Rounding to IEEE 754 binary64 (`double`), round-to-nearest with ties to even, on
fixed-point images: the integer `x` stands for the real number `x / 2^51`, and the result is
the image of the nearest `double`.  A magnitude below `2^53` has at most 53 significant bits
and is a `double` already; a larger one keeps its 53 leading bits.  (The values met here stay
far from the overflow threshold of `double`.) -/
def roundBinary64 (x : Int) : Int :=
  let m := x.natAbs
  let k := excessBits m m
  let q := m / 2 ^ k
  let r := m % 2 ^ k
  let up : Bool := decide (2 ^ k < 2 * r) || (decide (2 * r = 2 ^ k) && decide (q % 2 = 1))
  let m1 := (if up then q + 1 else q) * 2 ^ k
  if x < 0 then -(m1 : Int) else (m1 : Int)

/-- The test `mn.sigTime + (nMnCount * 2.6 * 60) > GetAdjustedTime()` of
`GetNextMasternodeInQueueForPayment`, evaluated as C++ does: `nMnCount` (an `int`) converts
to `double` exactly, `2.6` is the `double` `5854679515581645 / 2^51`, each product and the
sum are rounded to `double`, and the two `int64_t` values `mn.sigTime` and
`GetAdjustedTime()` are converted to `double` before the sum and the comparison.  All
quantities are multiples of `2^-51` and are held as their fixed-point images. -/
def tooNew (sigTime : Int) (nMnCount : Nat) (adjustedTime : Int) : Bool :=
  let product := roundBinary64 (roundBinary64 ((nMnCount : Int) * 5854679515581645) * 60)
  let sum := roundBinary64 (roundBinary64 (toInt64 sigTime * 2 ^ 51) + product)
  decide (roundBinary64 (toInt64 adjustedTime * 2 ^ 51) < sum)

namespace CSporkManager

/-- `CSporkManager::GetSporkIDByName(strName)`.  The function returns `int`; the branch for
spork 16 returns the `int64_t` constant `SPORK_16_CLIENT_COMPAT_MODE_DEFAULT`, which is
narrowed to `int`. -/
def GetSporkIDByName (strName : String) : Int :=
  if strName = "SPORK_5_MAX_VALUE" then Spork.SPORK_5_MAX_VALUE
  else if strName = "SPORK_7_MASTERNODE_SCANNING" then Spork.SPORK_7_MASTERNODE_SCANNING
  else if strName = "SPORK_8_MASTERNODE_PAYMENT_ENFORCEMENT" then
    Spork.SPORK_8_MASTERNODE_PAYMENT_ENFORCEMENT
  else if strName = "SPORK_9_MASTERNODE_BUDGET_ENFORCEMENT" then
    Spork.SPORK_9_MASTERNODE_BUDGET_ENFORCEMENT
  else if strName = "SPORK_10_MASTERNODE_PAY_UPDATED_NODES" then
    Spork.SPORK_10_MASTERNODE_PAY_UPDATED_NODES
  else if strName = "SPORK_13_ENABLE_SUPERBLOCKS" then Spork.SPORK_13_ENABLE_SUPERBLOCKS
  else if strName = "SPORK_15_NEW_PROTOCOL_ENFORCEMENT_2" then
    Spork.SPORK_15_NEW_PROTOCOL_ENFORCEMENT_2
  else if strName = "SPORK_16_CLIENT_COMPAT_MODE" then
    toInt32 Spork.SPORK_16_CLIENT_COMPAT_MODE_DEFAULT
  else -1

/-- `CSporkManager::GetSporkNameByID(id)`. -/
def GetSporkNameByID (id : Int) : String :=
  if id = Spork.SPORK_5_MAX_VALUE then "SPORK_5_MAX_VALUE"
  else if id = Spork.SPORK_7_MASTERNODE_SCANNING then "SPORK_7_MASTERNODE_SCANNING"
  else if id = Spork.SPORK_8_MASTERNODE_PAYMENT_ENFORCEMENT then
    "SPORK_8_MASTERNODE_PAYMENT_ENFORCEMENT"
  else if id = Spork.SPORK_9_MASTERNODE_BUDGET_ENFORCEMENT then
    "SPORK_9_MASTERNODE_BUDGET_ENFORCEMENT"
  else if id = Spork.SPORK_10_MASTERNODE_PAY_UPDATED_NODES then
    "SPORK_10_MASTERNODE_PAY_UPDATED_NODES"
  else if id = Spork.SPORK_13_ENABLE_SUPERBLOCKS then "SPORK_13_ENABLE_SUPERBLOCKS"
  else if id = Spork.SPORK_15_NEW_PROTOCOL_ENFORCEMENT_2 then
    "SPORK_15_NEW_PROTOCOL_ENFORCEMENT_2"
  else if id = Spork.SPORK_16_CLIENT_COMPAT_MODE then "SPORK_16_CLIENT_COMPAT_MODE"
  else "Unknown"

end CSporkManager

/-- The number a string of decimal digits denotes, read from the left on top of `acc`
(each character counts as its distance from `'0'`). -/
def decimalValue (acc : Nat) (cs : List Char) : Nat :=
  cs.foldl (fun a c => 10 * a + (c.toNat - 48)) acc

/-- The integer a decimal rendering denotes: the digits after a leading `'-'` negated,
otherwise the digits themselves. -/
def readInt : List Char → Int
  | '-' :: rest => -(decimalValue 0 rest : Int)
  | cs => (decimalValue 0 cs : Int)

/-! ## The registry `CMasternodeMan` -/

/-- The members of `CMasternodeMan`. -/
structure CMasternodeMan where
  vMasternodes : List CMasternode
  mAskedUsForMasternodeList : List (Nat × Int)
  mWeAskedForMasternodeList : List (Nat × Int)
  mWeAskedForMasternodeListEntry : List (COutPoint × Int)
  mapSeenMasternodeBroadcast : List (Nat × CMasternodeBroadcast)
  mapSeenMasternodePing : List (Nat × CMasternodePing)
  nDsqCount : Int

namespace CMasternodeMan

/-- `CMasternodeMan::Find(const CTxIn& vin)`: the first entry whose `vin.prevout` equals
`vin.prevout`. -/
def Find (vMasternodes : List CMasternode) (vin : CTxIn) : Option CMasternode :=
  vMasternodes.find? fun mn => decide (mn.vin.prevout = vin.prevout)

/-- `CMasternodeMan::Add(CMasternode& mn)`: the returned flag and the registry afterwards. -/
def Add (self : CMasternodeMan) (mn : CMasternode) : Bool × CMasternodeMan :=
  if !mn.IsEnabled then (false, self)
  else
    match Find self.vMasternodes mn.vin with
    | none => (true, { self with vMasternodes := self.vMasternodes ++ [mn] })
    | some _ => (false, self)

/-- `CMasternodeMan::Check()`: tick every entry. -/
def Check (env : Env) (self : CMasternodeMan) : CMasternodeMan :=
  { self with vMasternodes := self.vMasternodes.map env.Check }

/-- The removal condition tested for every entry in the first loop of `CheckAndRemove`. -/
def isSwept (env : Env) (forceExpiredRemoval : Bool) (mn : CMasternode) : Bool :=
  decide (mn.activeState = MasternodeState.MASTERNODE_REMOVE) ||
  decide (mn.activeState = MasternodeState.MASTERNODE_VIN_SPENT) ||
  (forceExpiredRemoval && decide (mn.activeState = MasternodeState.MASTERNODE_EXPIRED)) ||
  decide (mn.protocolVersion < env.GetMinMasternodePaymentsProto)

/-- The first loop of `CheckAndRemove`: walk `vMasternodes`; for a swept entry erase the seen
broadcasts with its `vin` and its key in `mWeAskedForMasternodeListEntry`, then erase the
entry.  Returns the remaining entries and the two maps. -/
def sweepEntries (env : Env) (forceExpiredRemoval : Bool) :
    List CMasternode → List (Nat × CMasternodeBroadcast) → List (COutPoint × Int) →
    List CMasternode × List (Nat × CMasternodeBroadcast) × List (COutPoint × Int)
  | [], seen, asked => ([], seen, asked)
  | mn :: rest, seen, asked =>
    if isSwept env forceExpiredRemoval mn then
      sweepEntries env forceExpiredRemoval rest
        (mapEraseIf seen fun e => decide (e.2.vin = mn.vin))
        (mapEraseIf asked fun e => decide (e.1 = mn.vin.prevout))
    else
      let r := sweepEntries env forceExpiredRemoval rest seen asked
      (mn :: r.1, r.2.1, r.2.2)

/-- `CMasternodeMan::CheckAndRemove(forceExpiredRemoval)`.  The erasures it performs on
`masternodeSync.mapSeenSyncMNB`, a member of another object, are not part of this state. -/
def CheckAndRemove (env : Env) (self : CMasternodeMan) (forceExpiredRemoval : Bool) :
    CMasternodeMan :=
  let s := self.Check env
  let r := sweepEntries env forceExpiredRemoval s.vMasternodes s.mapSeenMasternodeBroadcast
    s.mWeAskedForMasternodeListEntry
  { vMasternodes := r.1
    mAskedUsForMasternodeList :=
      mapEraseIf s.mAskedUsForMasternodeList fun e => decide (e.2 < env.GetTime)
    mWeAskedForMasternodeList :=
      mapEraseIf s.mWeAskedForMasternodeList fun e => decide (e.2 < env.GetTime)
    mWeAskedForMasternodeListEntry := mapEraseIf r.2.2 fun e => decide (e.2 < env.GetTime)
    mapSeenMasternodeBroadcast :=
      mapEraseIf r.2.1 fun e =>
        decide (e.2.lastPing.sigTime < env.GetTime - env.MASTERNODE_REMOVAL_SECONDS * 2)
    mapSeenMasternodePing :=
      mapEraseIf s.mapSeenMasternodePing fun e =>
        decide (e.2.sigTime < env.GetTime - env.MASTERNODE_REMOVAL_SECONDS * 2)
    nDsqCount := s.nDsqCount }

/-- `CMasternodeMan::Clear()`. -/
def Clear (_self : CMasternodeMan) : CMasternodeMan :=
  { vMasternodes := []
    mAskedUsForMasternodeList := []
    mWeAskedForMasternodeList := []
    mWeAskedForMasternodeListEntry := []
    mapSeenMasternodeBroadcast := []
    mapSeenMasternodePing := []
    nDsqCount := 0 }

/-- `CMasternodeMan::Remove(CTxIn vin)`: erase the first entry whose `vin` equals `vin`
(`CTxIn::operator==`). -/
def Remove (self : CMasternodeMan) (vin : CTxIn) : CMasternodeMan :=
  { self with vMasternodes := self.vMasternodes.eraseP fun mn => decide (mn.vin = vin) }

/-- Apply `f` to the entry `Find` points to (the first one with the given `prevout`). -/
def updateFound (f : CMasternode → CMasternode) (vin : CTxIn) :
    List CMasternode → List CMasternode
  | [] => []
  | mn :: rest =>
    if mn.vin.prevout = vin.prevout then f mn :: rest else mn :: updateFound f vin rest

/-- `CMasternodeMan::UpdateMasternodeList(mnb, connman)`.  The notification
`masternodeSync.AddedMasternodeList` goes to another object and is not part of this state. -/
def UpdateMasternodeList (env : Env) (self : CMasternodeMan) (mnb : CMasternodeBroadcast) :
    CMasternodeMan :=
  let s : CMasternodeMan :=
    { self with
      mapSeenMasternodePing :=
        mapInsert self.mapSeenMasternodePing (env.mnpHash mnb.lastPing) mnb.lastPing
      mapSeenMasternodeBroadcast :=
        mapInsert self.mapSeenMasternodeBroadcast (env.mnbHash mnb) mnb }
  match Find s.vMasternodes mnb.vin with
  | none => (s.Add (env.fromBroadcast mnb)).2
  | some _ =>
    { s with
      vMasternodes :=
        updateFound (fun pmn => env.UpdateFromNewBroadcast pmn mnb) mnb.vin s.vMasternodes }

/-- The registry operations named by the uniqueness invariant. -/
inductive Op where
  | add (mn : CMasternode)
  | remove (vin : CTxIn)
  | updateMasternodeList (mnb : CMasternodeBroadcast)
  | checkAndRemove (forceExpiredRemoval : Bool)
  | clear

/-- Run one operation in the environment current at that moment. -/
def step (self : CMasternodeMan) (eo : Env × Op) : CMasternodeMan :=
  match eo.2 with
  | Op.add mn => (self.Add mn).2
  | Op.remove vin => self.Remove vin
  | Op.updateMasternodeList mnb => self.UpdateMasternodeList eo.1 mnb
  | Op.checkAndRemove forceExpiredRemoval => self.CheckAndRemove eo.1 forceExpiredRemoval
  | Op.clear => self.Clear

/-- Run a sequence of operations, each with its own environment (time and chain state move
between calls). -/
def run (self : CMasternodeMan) (ops : List (Env × Op)) : CMasternodeMan :=
  ops.foldl step self

/-- The registry of a freshly constructed `CMasternodeMan` (`nDsqCount = 0`, containers
empty). -/
def empty : CMasternodeMan :=
  { vMasternodes := []
    mAskedUsForMasternodeList := []
    mWeAskedForMasternodeList := []
    mWeAskedForMasternodeListEntry := []
    mapSeenMasternodeBroadcast := []
    mapSeenMasternodePing := []
    nDsqCount := 0 }

/-- Collateral uniqueness: no two entries of `vMasternodes` share `vin.prevout`. -/
def UniqueCollateral (self : CMasternodeMan) : Prop :=
  (self.vMasternodes.map fun mn => mn.vin.prevout).Nodup

/-- `MN_WINNER_MINIMUM_AGE`. -/
def MN_WINNER_MINIMUM_AGE : Int := 4000

/-- `CMasternodeMan::CountEnabled(protocolVersion)`: every entry is ticked, and the entries
with `protocolVersion` at least the bound that are enabled are counted.  Returns the count
and the ticked vector.  The argument `-1` stands for the default. -/
def CountEnabled (env : Env) (vMasternodes : List CMasternode) (protocolVersion : Int) :
    Nat × List CMasternode :=
  let pv := if protocolVersion = -1 then env.GetMinMasternodePaymentsProto else protocolVersion
  let ticked := vMasternodes.map env.Check
  ((ticked.filter fun mn => !(decide (mn.protocolVersion < pv) || !mn.IsEnabled)).length,
    ticked)

/-- The candidate filters of `GetNextMasternodeInQueueForPayment`, applied to an entry that
has just been ticked: `none` for `continue`, otherwise the pair pushed on
`vecMasternodeLastPaid`.  The too-new test is evaluated in double precision (`tooNew`). -/
def paymentCandidate (env : Env) (nBlockHeight : Int) (fFilterSigTime : Bool) (nMnCount : Nat)
    (mn : CMasternode) : Option (Int × CTxIn) :=
  if !mn.IsEnabled then none
  else if mn.protocolVersion < env.GetMinMasternodePaymentsProto then none
  else if env.IsScheduled mn nBlockHeight then none
  else if fFilterSigTime && tooNew mn.sigTime nMnCount env.GetAdjustedTime then none
  else if env.GetMasternodeInputAge mn < (nMnCount : Int) then none
  else some (env.SecondsSincePayment mn, mn.vin)

/-- `sort(v.rbegin(), v.rend(), cmp)` with `cmp` comparing the first components by `<`: the
vector ends up ordered high to low.  `std::sort` leaves the relative order of elements with
equal keys unspecified, so that order is taken from the oracle `tie` (the field `sortTie`
of the environment): an element goes before the elements with a smaller key and before the
elements with an equal key that `tie` puts after it.  Whatever `tie` is, the result is a
permutation of `v` ordered high to low (`sortHighToLow_perm`, `sortHighToLow_sorted`), and
every such permutation is the result for some `tie` (`sortHighToLow_complete`). -/
def sortHighToLow {α : Type} (tie : List Int → Nat → Nat → Bool) (v : List (Int × α)) :
    List (Int × α) :=
  (v.enum.insertionSort fun a b =>
    (decide (b.2.1 < a.2.1) ||
      (decide (b.2.1 = a.2.1) && tie (v.map Prod.fst) a.1 b.1)) = true).map Prod.snd

/-- The selection loop of `GetNextMasternodeInQueueForPayment` over the sorted candidates,
started with `nCountTenth`, `nHigh` and `pBestMasternode`.  The height `nBlockHeight - 100`
is an `int` difference. -/
def selectBest (env : Env) (vMasternodes : List CMasternode) (nBlockHeight : Int)
    (nTenthNetwork : Nat) :
    List (Int × CTxIn) → Nat → Nat → Option CMasternode → Option CMasternode
  | [], _, _, pBestMasternode => pBestMasternode
  | s :: rest, nCountTenth, nHigh, pBestMasternode =>
    match Find vMasternodes s.2 with
    | none => pBestMasternode
    | some pmn =>
      let n := env.CalculateScore pmn 1 (toInt32 (nBlockHeight - 100))
      let nHigh1 := if n > nHigh then n else nHigh
      let pBest1 := if n > nHigh then some pmn else pBestMasternode
      if nCountTenth + 1 ≥ nTenthNetwork then pBest1
      else selectBest env vMasternodes nBlockHeight nTenthNetwork rest (nCountTenth + 1) nHigh1
        pBest1

/-- What `GetNextMasternodeInQueueForPayment` hands back: the pointer, the out-parameter
`nCount`, and the registry vector after the ticks. -/
structure PaymentPick where
  pBestMasternode : Option CMasternode
  nCount : Nat
  vMasternodes : List CMasternode

/-- The first half of `GetNextMasternodeInQueueForPayment`: `nMnCount = CountEnabled()`, then
the loop that ticks every entry and collects `vecMasternodeLastPaid`.  Returns `nMnCount`,
the candidates and the vector after both rounds of ticks. -/
def collectLastPaid (env : Env) (vMasternodes : List CMasternode) (nBlockHeight : Int)
    (fFilterSigTime : Bool) : Nat × List (Int × CTxIn) × List CMasternode :=
  let c := CountEnabled env vMasternodes (-1)
  let ticked := c.2.map env.Check
  (c.1, ticked.filterMap (paymentCandidate env nBlockHeight fFilterSigTime c.1), ticked)

/-- The second half of `GetNextMasternodeInQueueForPayment`: sort high to low, take
`nTenthNetwork = CountEnabled() / 10`, run the selection loop. -/
def pickFromLastPaid (env : Env) (nBlockHeight : Int)
    (p : Nat × List (Int × CTxIn) × List CMasternode) : PaymentPick :=
  let c := CountEnabled env p.2.2 (-1)
  { pBestMasternode :=
      selectBest env c.2 nBlockHeight (c.1 / 10) (sortHighToLow env.sortTie p.2.1) 0 0 none
    nCount := p.2.1.length
    vMasternodes := c.2 }

/-- `CMasternodeMan::GetNextMasternodeInQueueForPayment(nBlockHeight, fFilterSigTime, nCount)`.
The recursive call of the source passes `fFilterSigTime = false`, so it cannot recurse again;
the embedding writes that inner call out. -/
def GetNextMasternodeInQueueForPayment (env : Env) (vMasternodes : List CMasternode)
    (nBlockHeight : Int) (fFilterSigTime : Bool) : PaymentPick :=
  let p := collectLastPaid env vMasternodes nBlockHeight fFilterSigTime
  if fFilterSigTime && decide (p.2.1.length < p.1 / 3) then
    pickFromLastPaid env nBlockHeight (collectLastPaid env p.2.2 nBlockHeight false)
  else pickFromLastPaid env nBlockHeight p

/-- The scan loop of `GetMasternodeRank`: the scores pushed on `vecMasternodeScores` and the
vector left behind (`Check` runs only on entries that reach the `fOnlyActive` test).  The
age `GetAdjustedTime() - mn.sigTime` is an `int64_t` difference. -/
def rankScan (env : Env) (sporkManager : CSporkManager) (nBlockHeight minProtocol : Int)
    (fOnlyActive : Bool) : List CMasternode → List (Int × CTxIn) × List CMasternode
  | [] => ([], [])
  | mn :: rest =>
    let r := rankScan env sporkManager nBlockHeight minProtocol fOnlyActive rest
    if mn.protocolVersion < minProtocol then (r.1, mn :: r.2)
    else if sporkManager.IsSporkActive env Spork.SPORK_8_MASTERNODE_PAYMENT_ENFORCEMENT &&
        decide (toInt64 (env.GetAdjustedTime - mn.sigTime) < MN_WINNER_MINIMUM_AGE) then
      (r.1, mn :: r.2)
    else
      let mn1 := if fOnlyActive then env.Check mn else mn
      if fOnlyActive && !mn1.IsEnabled then (r.1, mn1 :: r.2)
      else ((env.GetCompact (env.CalculateScore mn1 1 nBlockHeight), mn1.vin) :: r.1, mn1 :: r.2)

/-- The final loop of `GetMasternodeRank`: the 1-based position of the first pair whose
`prevout` is that of `vin`, or `-1`. -/
def rankOf (vin : CTxIn) : List (Int × CTxIn) → Int → Int
  | [], _ => -1
  | s :: rest, rank =>
    if s.2.prevout = vin.prevout then rank + 1 else rankOf vin rest (rank + 1)

/-- `CMasternodeMan::GetMasternodeRank(vin, nBlockHeight, minProtocol, fOnlyActive)`: the
returned rank and the vector left behind. -/
def GetMasternodeRank (env : Env) (sporkManager : CSporkManager)
    (vMasternodes : List CMasternode) (vin : CTxIn) (nBlockHeight minProtocol : Int)
    (fOnlyActive : Bool) : Int × List CMasternode :=
  match env.GetBlockHash nBlockHeight with
  | none => (-1, vMasternodes)
  | some _ =>
    let r := rankScan env sporkManager nBlockHeight minProtocol fOnlyActive vMasternodes
    (rankOf vin (sortHighToLow env.sortTie r.1) 0, r.2)

/-- The scan loop of `GetMasternodeRanks` on a ticked entry: `none` for a skipped entry,
otherwise the pair pushed on `vecMasternodeScores`. -/
def ranksScore (env : Env) (nBlockHeight minProtocol : Int) (mn : CMasternode) :
    Option (Int × CMasternode) :=
  if mn.protocolVersion < minProtocol then none
  else if !mn.IsEnabled then some (9999, mn)
  else some (env.GetCompact (env.CalculateScore mn 1 nBlockHeight), mn)

/-- The final loop of `GetMasternodeRanks`: number the sorted entries from `rank + 1`. -/
def assignRanks : List (Int × CMasternode) → Int → List (Int × CMasternode)
  | [], _ => []
  | s :: rest, rank => (rank + 1, s.2) :: assignRanks rest (rank + 1)

/-- `CMasternodeMan::GetMasternodeRanks(nBlockHeight, minProtocol)`: the returned vector of
(rank, entry) pairs and the registry vector left behind. -/
def GetMasternodeRanks (env : Env) (vMasternodes : List CMasternode)
    (nBlockHeight minProtocol : Int) : List (Int × CMasternode) × List CMasternode :=
  match env.GetBlockHash nBlockHeight with
  | none => ([], vMasternodes)
  | some _ =>
    let ticked := vMasternodes.map env.Check
    (assignRanks
        (sortHighToLow env.sortTie (ticked.filterMap (ranksScore env nBlockHeight minProtocol)))
        0,
      ticked)

/-- The scan loop of `GetMasternodeByRank`: like `rankScan` without the age test. -/
def byRankScan (env : Env) (nBlockHeight minProtocol : Int) (fOnlyActive : Bool) :
    List CMasternode → List (Int × CTxIn) × List CMasternode
  | [] => ([], [])
  | mn :: rest =>
    let r := byRankScan env nBlockHeight minProtocol fOnlyActive rest
    if mn.protocolVersion < minProtocol then (r.1, mn :: r.2)
    else
      let mn1 := if fOnlyActive then env.Check mn else mn
      if fOnlyActive && !mn1.IsEnabled then (r.1, mn1 :: r.2)
      else ((env.GetCompact (env.CalculateScore mn1 1 nBlockHeight), mn1.vin) :: r.1, mn1 :: r.2)

/-- The final loop of `GetMasternodeByRank`: the pair reached when the counter equals
`nRank`. -/
def atRank (nRank : Int) : List (Int × CTxIn) → Int → Option (Int × CTxIn)
  | [], _ => none
  | s :: rest, rank => if rank + 1 = nRank then some s else atRank nRank rest (rank + 1)

/-- `CMasternodeMan::GetMasternodeByRank(nRank, nBlockHeight, minProtocol, fOnlyActive)`: the
returned pointer and the vector left behind. -/
def GetMasternodeByRank (env : Env) (vMasternodes : List CMasternode)
    (nRank nBlockHeight minProtocol : Int) (fOnlyActive : Bool) :
    Option CMasternode × List CMasternode :=
  let r := byRankScan env nBlockHeight minProtocol fOnlyActive vMasternodes
  match atRank nRank (sortHighToLow env.sortTie r.1) 0 with
  | some s => (Find r.2 s.2, r.2)
  | none => (none, r.2)

/-- The scan loop of `stable_size`: the count and the vector left behind (`Check` runs only
on the entries that pass the protocol and age tests).  The age
`GetAdjustedTime() - mn.sigTime` is an `int64_t` difference. -/
def stableScan (env : Env) (sporkManager : CSporkManager) :
    List CMasternode → Nat × List CMasternode
  | [] => (0, [])
  | mn :: rest =>
    let r := stableScan env sporkManager rest
    if mn.protocolVersion < env.ActiveProtocol then (r.1, mn :: r.2)
    else if sporkManager.IsSporkActive env Spork.SPORK_8_MASTERNODE_PAYMENT_ENFORCEMENT &&
        decide (toInt64 (env.GetAdjustedTime - mn.sigTime) < MN_WINNER_MINIMUM_AGE) then
      (r.1, mn :: r.2)
    else
      let mn1 := env.Check mn
      if !mn1.IsEnabled then (r.1, mn1 :: r.2) else (r.1 + 1, mn1 :: r.2)

/-- `CMasternodeMan::stable_size()`: the returned count and the vector left behind. -/
def stable_size (env : Env) (sporkManager : CSporkManager) (vMasternodes : List CMasternode) :
    Nat × List CMasternode :=
  stableScan env sporkManager vMasternodes

/-- The inner loop of `FindRandomNotInVec`: whether the collateral of `mn` is among
`vecToExclude`. -/
def isExcluded (vecToExclude : List CTxIn) (mn : CMasternode) : Bool :=
  vecToExclude.any fun usedVin => decide (mn.vin.prevout = usedVin.prevout)

/-- The outer loop of `FindRandomNotInVec`, started with the value of `rand`. -/
def randomWalk (protocolVersion : Int) (vecToExclude : List CTxIn) :
    List CMasternode → Int → Option CMasternode
  | [], _ => none
  | mn :: rest, rand =>
    if decide (mn.protocolVersion < protocolVersion) || !mn.IsEnabled then
      randomWalk protocolVersion vecToExclude rest rand
    else if isExcluded vecToExclude mn then randomWalk protocolVersion vecToExclude rest rand
    else if rand - 1 < 1 then some mn
    else randomWalk protocolVersion vecToExclude rest (rand - 1)

/-- `CMasternodeMan::FindRandomNotInVec(vecToExclude, protocolVersion)`, with the random
source `GetRandInt` as an argument: the returned pointer and the vector left behind.  The
difference `nCountEnabled - vecToExclude.size()` is computed in `size_t` (64 bits) and
narrowed to `int` for `GetRandInt`. -/
def FindRandomNotInVec (env : Env) (vMasternodes : List CMasternode)
    (vecToExclude : List CTxIn) (protocolVersion : Int) (GetRandInt : Int → Int) :
    Option CMasternode × List CMasternode :=
  let pv := if protocolVersion = -1 then env.GetMinMasternodePaymentsProto else protocolVersion
  let c := CountEnabled env vMasternodes pv
  let diff : Int := ((c.1 : Int) - (vecToExclude.length : Int)) % 2 ^ 64
  if diff < 1 then (none, c.2)
  else (randomWalk pv vecToExclude c.2 (GetRandInt (toInt32 diff)), c.2)

/-- The environment's tick and broadcast refresh leave the collateral outpoint of an entry
alone. -/
def KeepsCollateral (env : Env) : Prop :=
  (∀ mn, (env.Check mn).vin.prevout = mn.vin.prevout) ∧
  (∀ mn mnb, (env.UpdateFromNewBroadcast mn mnb).vin.prevout = mn.vin.prevout)

/-- A second tick of an entry at the same moment changes nothing (in the environment all
the calls of one registry operation see the same clock and chain). -/
def TickIdempotent (env : Env) : Prop := ∀ mn, env.Check (env.Check mn) = env.Check mn

/-- The pass of `GetNextMasternodeInQueueForPayment` whose candidates reach the selection
loop: the pass with the given `fFilterSigTime`, or, when that pass is filtered and kept fewer
than `nMnCount / 3` candidates, the pass of the recursive call with `fFilterSigTime = false`
on the vector the first pass left.  Returns `nMnCount`, `vecMasternodeLastPaid` and the
vector after the ticks. -/
def decidingPass (env : Env) (vMasternodes : List CMasternode) (nBlockHeight : Int)
    (fFilterSigTime : Bool) : Nat × List (Int × CTxIn) × List CMasternode :=
  let p := collectLastPaid env vMasternodes nBlockHeight fFilterSigTime
  if fFilterSigTime && decide (p.2.1.length < p.1 / 3) then
    collectLastPaid env p.2.2 nBlockHeight false
  else p

/-- The value of `nTenthNetwork` in the selection loop: `CountEnabled() / 10`, counted on
the vector the deciding pass left. -/
def nTenthNetwork (env : Env) (vMasternodes : List CMasternode) (nBlockHeight : Int)
    (fFilterSigTime : Bool) : Nat :=
  (CountEnabled env (decidingPass env vMasternodes nBlockHeight fFilterSigTime).2.2 (-1)).1 / 10

/-- The candidates the selection loop examines, in the order it examines them: it walks the
sorted vector, leaves at the first candidate that `Find` does not resolve, and leaves after
the candidate that brings `nCountTenth` to `nTenthNetwork`, which is never before one
candidate has been examined. -/
def examinedCandidates (env : Env) (vMasternodes : List CMasternode) (nBlockHeight : Int)
    (fFilterSigTime : Bool) : List (Int × CTxIn) :=
  ((sortHighToLow env.sortTie
      (decidingPass env vMasternodes nBlockHeight fFilterSigTime).2.1).take
    (max 1 (nTenthNetwork env vMasternodes nBlockHeight fFilterSigTime))).takeWhile
  fun s =>
    (Find (GetNextMasternodeInQueueForPayment env vMasternodes nBlockHeight
      fFilterSigTime).vMasternodes s.2).isSome

/-- The eligible entries of the rank property, in the words of its statement: the entries
with `protocolVersion >= minProtocol`, of age (the `int64_t` difference
`GetAdjustedTime() - sigTime`) at least `MN_WINNER_MINIMUM_AGE` if spork 8 is active, enabled
after their tick if `fOnlyActive`; each as the rank scan leaves it (ticked if
`fOnlyActive`).  It is compared with the scan loop `rankScan` of the source. -/
def rankEligible (env : Env) (sporkManager : CSporkManager) (minProtocol : Int)
    (fOnlyActive : Bool) (vMasternodes : List CMasternode) : List CMasternode :=
  (vMasternodes.filter fun mn =>
      decide (minProtocol ≤ mn.protocolVersion) &&
      (!sporkManager.IsSporkActive env Spork.SPORK_8_MASTERNODE_PAYMENT_ENFORCEMENT ||
        decide (MN_WINNER_MINIMUM_AGE ≤ toInt64 (env.GetAdjustedTime - mn.sigTime))) &&
      (!fOnlyActive || (env.Check mn).IsEnabled)).map
    fun mn => if fOnlyActive then env.Check mn else mn

end CMasternodeMan

/-! ## The message handler `CMasternodeMan::ProcessMessage` -/

/-- The peer `CNode* pfrom`: its id (`GetId()`) and its network address (`addr`, used as a
`CNetAddr` key of the throttle maps). -/
structure CNode where
  id : Int
  addr : Nat
deriving DecidableEq, Repr

/-- The calls `ProcessMessage` and `AskForMN` make on other objects, in the order made. -/
inductive NetEvent where
  /-- `Misbehaving(pfrom->GetId(), howmuch)`. -/
  | Misbehaving (id : Int) (howmuch : Int)
  /-- `pfrom->PushInventory(CInv(MSG_MASTERNODE_ANNOUNCE, hash))`. -/
  | PushInventory (id : Int) (hash : Nat)
  /-- `connman.PushMessage(pnode, ...Make("dseg", vin))`. -/
  | PushDseg (id : Int) (vin : CTxIn)
  /-- `connman.PushMessage(pfrom, ...Make(NetMsgType::SYNCSTATUSCOUNT, item, count))`. -/
  | PushSyncStatusCount (id : Int) (item : Int) (count : Int)
  /-- `masternodeSync.AddedMasternodeList(hash)`. -/
  | AddedMasternodeList (hash : Nat)
deriving DecidableEq, Repr

/-- The stream `vRecv`, as what each `vRecv >> x` of the handler reads from it; `none` when
the deserialisation throws (the handler is then left through the exception). -/
structure CDataStream where
  asMNB : Option CMasternodeBroadcast
  asMNP : Option CMasternodePing
  asVin : Option CTxIn

/-- What a validation routine of a broadcast or ping hands back: its boolean result, the
reference parameter `nDoS`, and the global registry `mnodeman` as the routine leaves it. -/
structure CheckOutcome where
  ok : Bool
  nDoS : Int
  mnodeman : CMasternodeMan

/-- The collaborators of the message handler whose code is outside the three source files,
on top of those of `Env`. -/
structure MsgEnv extends Env where
  /-- `masternodeSync.IsBlockchainSynced()`. -/
  IsBlockchainSynced : Bool
  /-- `Params().NetworkIDString()`. -/
  NetworkIDString : String
  /-- `CNetAddr::IsRFC1918()`. -/
  IsRFC1918 : Nat → Bool
  /-- `CNetAddr::IsLocal()`. -/
  IsLocal : Nat → Bool
  /-- The default-constructed `CTxIn()`. -/
  nullVin : CTxIn
  /-- `masternodeSigner.IsVinAssociatedWithPubkey(vin, pubkey)`. -/
  IsVinAssociatedWithPubkey : CTxIn → Nat → Bool
  /-- The verdict of the checks that `CMasternodeBroadcast::CheckAndUpdate(nDoS, connman)`
  runs on a broadcast, for the registry it reads: the boolean result and the `nDoS` it
  leaves when called with `nDoS = 0`. -/
  mnbVerdict : CMasternodeMan → CMasternodeBroadcast → Bool × Int
  /-- `CMasternodeBroadcast::CheckInputsAndAdd(nDoS, connman)`, called with the `nDoS` left
  by `CheckAndUpdate`. -/
  mnbCheckInputsAndAdd : CMasternodeMan → CMasternodeBroadcast → Int → CheckOutcome
  /-- `CMasternodePing::CheckAndUpdate(nDoS, connman)`, called with `nDoS = 0`. -/
  mnpCheckAndUpdate : CMasternodeMan → CMasternodePing → CheckOutcome
  /-- The converting constructor `CMasternodeBroadcast(const CMasternode&)`. -/
  toBroadcast : CMasternode → CMasternodeBroadcast
  /-- `MASTERNODE_SYNC_LIST`. -/
  MASTERNODE_SYNC_LIST : Int

/-- Modelled from the spec: the wire names of the commands (`NetMsgType`, declared in
`protocol.h`, which is not among the source files), as listed among the external
interfaces. -/
def NetMsgType.MNBROADCAST : String := "mnb"

/-- Modelled from the spec: wire name of the masternode ping. -/
def NetMsgType.MNPING : String := "mnp"

/-- Modelled from the spec: wire name of the list/entry request. -/
def NetMsgType.DSEG : String := "dseg"

namespace CMasternodeMan

/-- Modelled from the spec: `CMasternodeBroadcast::CheckAndUpdate(nDoS, connman)` is defined
in `masternode.cpp`, which is not among the source files.  The spec describes it as a check
of the broadcast ("signature, sigTime sanity, protocol version") and leaves the insertion
and the refresh of registry entries to `check_inputs_and_add`: the verdict and `nDoS` come
from the environment, and the registry is handed back as it was. -/
def mnbCheckAndUpdate (env : MsgEnv) (self : CMasternodeMan) (mnb : CMasternodeBroadcast) :
    CheckOutcome :=
  { ok := (env.mnbVerdict self mnb).1, nDoS := (env.mnbVerdict self mnb).2, mnodeman := self }

/-- `CMasternodeMan::AskForMN(pnode, vin, connman)`: the registry afterwards and the message
sent, if any. -/
def AskForMN (env : Env) (self : CMasternodeMan) (pnode : CNode) (vin : CTxIn) :
    CMasternodeMan × List NetEvent :=
  let ask : CMasternodeMan × List NetEvent :=
    ({ self with
        mWeAskedForMasternodeListEntry :=
          mapAssign self.mWeAskedForMasternodeListEntry vin.prevout
            (env.GetTime + env.MASTERNODE_MIN_MNP_SECONDS) },
      [NetEvent.PushDseg pnode.id vin])
  match mapFind self.mWeAskedForMasternodeListEntry vin.prevout with
  | some t => if env.GetTime < t then (self, []) else ask
  | none => ask

/-- The walk over `vMasternodes` in the DSEG branch, started with the seen-broadcast map and
`nInvCount`.  Returns the seen-broadcast map, `nInvCount`, the inventory pushed, and whether
the walk left the handler through the `return` taken after a matching entry. -/
def dsegWalk (env : MsgEnv) (pfrom : CNode) (vin : CTxIn) :
    List CMasternode → List (Nat × CMasternodeBroadcast) → Int →
    List (Nat × CMasternodeBroadcast) × Int × List NetEvent × Bool
  | [], seen, nInvCount => (seen, nInvCount, [], false)
  | mn :: rest, seen, nInvCount =>
    if env.IsRFC1918 mn.addr then dsegWalk env pfrom vin rest seen nInvCount
    else if mn.IsEnabled && (decide (vin = env.nullVin) || decide (vin = mn.vin)) then
      let mnb := env.toBroadcast mn
      let hash := env.mnbHash mnb
      let seen1 := if !mapCount seen hash then mapInsert seen hash mnb else seen
      if vin = mn.vin then (seen1, nInvCount + 1, [NetEvent.PushInventory pfrom.id hash], true)
      else
        let r := dsegWalk env pfrom vin rest seen1 (nInvCount + 1)
        (r.1, r.2.1, NetEvent.PushInventory pfrom.id hash :: r.2.2.1, r.2.2.2)
    else dsegWalk env pfrom vin rest seen nInvCount

/-- The MNBROADCAST branch of `ProcessMessage` for the broadcast read from `vRecv`. -/
def processMNB (env : MsgEnv) (self : CMasternodeMan) (pfrom : CNode)
    (mnb : CMasternodeBroadcast) : CMasternodeMan × List NetEvent :=
  if mapCount self.mapSeenMasternodeBroadcast (env.mnbHash mnb) then
    (self, [NetEvent.AddedMasternodeList (env.mnbHash mnb)])
  else
    let s1 : CMasternodeMan :=
      { self with
        mapSeenMasternodeBroadcast :=
          mapInsert self.mapSeenMasternodeBroadcast (env.mnbHash mnb) mnb }
    let c := mnbCheckAndUpdate env s1 mnb
    if !c.ok then
      (c.mnodeman, if c.nDoS > 0 then [NetEvent.Misbehaving pfrom.id c.nDoS] else [])
    else if !env.IsVinAssociatedWithPubkey mnb.vin mnb.pubKeyCollateralAddress then
      (c.mnodeman, [NetEvent.Misbehaving pfrom.id 33])
    else
      let a := env.mnbCheckInputsAndAdd c.mnodeman mnb c.nDoS
      if a.ok then (a.mnodeman, [NetEvent.AddedMasternodeList (env.mnbHash mnb)])
      else (a.mnodeman, if a.nDoS > 0 then [NetEvent.Misbehaving pfrom.id a.nDoS] else [])

/-- The MNPING branch of `ProcessMessage` for the ping read from `vRecv`. -/
def processMNP (env : MsgEnv) (self : CMasternodeMan) (pfrom : CNode)
    (mnp : CMasternodePing) : CMasternodeMan × List NetEvent :=
  if mapCount self.mapSeenMasternodePing (env.mnpHash mnp) then (self, [])
  else
    let s1 : CMasternodeMan :=
      { self with
        mapSeenMasternodePing := mapInsert self.mapSeenMasternodePing (env.mnpHash mnp) mnp }
    let c := env.mnpCheckAndUpdate s1 mnp
    if c.ok then (c.mnodeman, [])
    else if c.nDoS > 0 then
      let a := AskForMN env.toEnv c.mnodeman pfrom mnp.vin
      (a.1, NetEvent.Misbehaving pfrom.id c.nDoS :: a.2)
    else
      match Find c.mnodeman.vMasternodes mnp.vin with
      | some _ => (c.mnodeman, [])
      | none => AskForMN env.toEnv c.mnodeman pfrom mnp.vin

/-- The DSEG branch of `ProcessMessage` after the throttle, on the registry `s1`. -/
def serveDseg (env : MsgEnv) (s1 : CMasternodeMan) (pfrom : CNode) (vin : CTxIn) :
    CMasternodeMan × List NetEvent :=
  let r := dsegWalk env pfrom vin s1.vMasternodes s1.mapSeenMasternodeBroadcast 0
  let s2 : CMasternodeMan := { s1 with mapSeenMasternodeBroadcast := r.1 }
  if r.2.2.2 then (s2, r.2.2.1)
  else if vin = env.nullVin then
    (s2, r.2.2.1 ++ [NetEvent.PushSyncStatusCount pfrom.id env.MASTERNODE_SYNC_LIST r.2.1])
  else
    let a := AskForMN env.toEnv s2 pfrom vin
    (a.1, r.2.2.1 ++ a.2)

/-- The DSEG branch of `ProcessMessage` for the input read from `vRecv`. -/
def processDseg (env : MsgEnv) (self : CMasternodeMan) (pfrom : CNode) (vin : CTxIn) :
    CMasternodeMan × List NetEvent :=
  let isLocal := env.IsRFC1918 pfrom.addr || env.IsLocal pfrom.addr
  if decide (vin = env.nullVin) && (!isLocal && decide (env.NetworkIDString = "main")) then
    let s1 : CMasternodeMan :=
      { self with
        mAskedUsForMasternodeList :=
          mapAssign self.mAskedUsForMasternodeList pfrom.addr
            (env.GetTime + env.MASTERNODES_DSEG_SECONDS) }
    match mapFind self.mAskedUsForMasternodeList pfrom.addr with
    | some t =>
      if env.GetTime < t then (self, [NetEvent.Misbehaving pfrom.id 34])
      else serveDseg env s1 pfrom vin
    | none => serveDseg env s1 pfrom vin
  else serveDseg env self pfrom vin

/-- `CMasternodeMan::ProcessMessage(pfrom, strCommand, vRecv, connman)`: the registry
afterwards and the calls made on the peer, the sync coordinator and the misbehaviour
tracker.  What the validation routines of `MsgEnv` send on their own is not recorded. -/
def ProcessMessage (env : MsgEnv) (self : CMasternodeMan) (pfrom : CNode)
    (strCommand : String) (vRecv : CDataStream) : CMasternodeMan × List NetEvent :=
  if !env.IsBlockchainSynced then (self, [])
  else if strCommand = NetMsgType.MNBROADCAST then
    match vRecv.asMNB with
    | some mnb => processMNB env self pfrom mnb
    | none => (self, [])
  else if strCommand = NetMsgType.MNPING then
    match vRecv.asMNP with
    | some mnp => processMNP env self pfrom mnp
    | none => (self, [])
  else if strCommand = NetMsgType.DSEG then
    match vRecv.asVin with
    | some vin => processDseg env self pfrom vin
    | none => (self, [])
  else (self, [])

end CMasternodeMan

/-! ## Sequences of spork operations -/

namespace CSporkManager

/-- The operations that write the spork store. -/
inductive Op where
  | processSpork (strCommand : String) (spork : CSporkMessage)
  | updateSpork (nSporkID nValue : Int)

/-- Run one operation in the environment current at that moment. -/
def step (self : CSporkManager) (eo : Env × Op) : CSporkManager :=
  match eo.2 with
  | Op.processSpork strCommand spork => (self.ProcessSpork eo.1 strCommand spork).sporkManager
  | Op.updateSpork nSporkID nValue => (self.UpdateSpork eo.1 nSporkID nValue).2.sporkManager

/-- Run a sequence of operations, each with its own environment. -/
def run (self : CSporkManager) (ops : List (Env × Op)) : CSporkManager :=
  ops.foldl step self

/-- The store of a node that holds the signing key `strMasterPrivKey` and has no record. -/
def empty (strMasterPrivKey : String) : CSporkManager :=
  { strMasterPrivKey := strMasterPrivKey, mapSporksActive := [], mapSporks := [] }

end CSporkManager

/-! ## Concrete data for instantiating the results -/

/-- A concrete environment at time `now`: a tick that expires entries whose last ping is
older than 600 seconds, every block height from 0 to 500 known, a signature that is the key
followed by the character codes of the signed string, and a sort that keeps elements with
equal keys in their order. -/
def sampleEnvAt (now : Int) : Env :=
  { GetTime := now
    GetAdjustedTime := now
    Check := fun mn =>
      if mn.lastPing.sigTime + 600 < now then
        { mn with activeState := MasternodeState.MASTERNODE_EXPIRED }
      else mn
    GetMinMasternodePaymentsProto := 70000
    ActiveProtocol := 70000
    IsScheduled := fun _ _ => false
    GetMasternodeInputAge := fun _ => 100
    SecondsSincePayment := fun mn => now - mn.sigTime
    CalculateScore := fun mn _ _ => mn.vin.prevout.hash + 1
    GetCompact := fun n => n
    GetBlockHash := fun h => if 0 ≤ h ∧ h ≤ 500 then some h.toNat else none
    fromBroadcast := fun mnb =>
      { vin := mnb.vin, addr := mnb.addr,
        pubKeyCollateralAddress := mnb.pubKeyCollateralAddress,
        pubKeyMasternode := mnb.pubKeyMasternode, sig := mnb.sig,
        activeState := MasternodeState.MASTERNODE_ENABLED, sigTime := mnb.sigTime,
        lastPing := mnb.lastPing, protocolVersion := mnb.protocolVersion }
    UpdateFromNewBroadcast := fun mn mnb =>
      if mnb.sigTime > mn.sigTime then
        { mn with sigTime := mnb.sigTime, protocolVersion := mnb.protocolVersion,
                  addr := mnb.addr, lastPing := mnb.lastPing }
      else mn
    mnbHash := fun mnb => mnb.vin.prevout.hash + mnb.sigTime.toNat
    mnpHash := fun mnp => mnp.vin.prevout.hash + mnp.sigTime.toNat
    MASTERNODE_REMOVAL_SECONDS := 7800
    MASTERNODE_MIN_MNP_SECONDS := 600
    MASTERNODES_DSEG_SECONDS := 10800
    hasTip := true
    sporkHash := fun i v t => (i + v + t).toNat
    GetKeysFromSecret := fun k => if k = "secret" then some (7, 7) else none
    SignMessage := fun strMessage key => some (key :: strMessage.data.map Char.toNat)
    VerifyMessage := fun pubkey vchSig strMessage =>
      decide (vchSig = pubkey :: strMessage.data.map Char.toNat)
    SporkKey := 7
    sortTie := fun _ i j => decide (i < j) }

/-- The concrete environment at time 1000. -/
def sampleEnv : Env := sampleEnvAt 1000

/-- A ping for collateral `h` signed at `t`. -/
def samplePing (h : Nat) (t : Int) : CMasternodePing :=
  { vin := ⟨⟨h, 0⟩, [], 0⟩, blockHash := 0, sigTime := t, vchSig := [] }

/-- An entry with collateral `(h, 0)`, the given state, announce time and protocol, last
pinged at `pingTime`. -/
def sampleMN (h : Nat) (st : MasternodeState) (sigTime protocolVersion pingTime : Int) :
    CMasternode :=
  { vin := ⟨⟨h, 0⟩, [], 0⟩, addr := h, pubKeyCollateralAddress := h, pubKeyMasternode := h,
    sig := [], activeState := st, sigTime := sigTime, lastPing := samplePing h pingTime,
    protocolVersion := protocolVersion }

/-- A broadcast for collateral `(h, 0)` signed at `sigTime`. -/
def sampleMNB (h : Nat) (sigTime : Int) : CMasternodeBroadcast :=
  { vin := ⟨⟨h, 0⟩, [], 0⟩, addr := h, pubKeyCollateralAddress := h, pubKeyMasternode := h,
    sig := [], sigTime := sigTime, protocolVersion := 70000, lastPing := samplePing h 900 }

/-- A sequence of registry operations: two additions with the same collateral, an entry
whose last ping is stale, a broadcast for a new collateral and a refresh of the first one, a
forced sweep, a removal. -/
def sampleOps : List (Env × CMasternodeMan.Op) :=
  [(sampleEnv, CMasternodeMan.Op.add (sampleMN 1 MasternodeState.MASTERNODE_ENABLED 0 70000 900)),
   (sampleEnv, CMasternodeMan.Op.add (sampleMN 1 MasternodeState.MASTERNODE_ENABLED 5 70000 900)),
   (sampleEnv, CMasternodeMan.Op.add (sampleMN 3 MasternodeState.MASTERNODE_ENABLED 0 70000 100)),
   (sampleEnv, CMasternodeMan.Op.add (sampleMN 4 MasternodeState.MASTERNODE_ENABLED 0 70000 900)),
   (sampleEnv, CMasternodeMan.Op.updateMasternodeList (sampleMNB 2 10)),
   (sampleEnv, CMasternodeMan.Op.updateMasternodeList (sampleMNB 1 20)),
   (sampleEnv, CMasternodeMan.Op.checkAndRemove true),
   (sampleEnv, CMasternodeMan.Op.remove ⟨⟨2, 0⟩, [], 0⟩)]

/-- A spork message for `nSporkID` carrying the signature the sample key produces. -/
def sampleSpork (nSporkID nValue nTimeSigned : Int) : CSporkMessage :=
  { vchSig :=
      7 :: (toString nSporkID ++ toString nValue ++ toString nTimeSigned).data.map Char.toNat
    nSporkID := nSporkID, nValue := nValue, nTimeSigned := nTimeSigned }

/-- Thirty enabled entries announced at time 1000, with collaterals `(0, 0)` to `(29, 0)`. -/
def sampleRegistry30 : List CMasternode :=
  (List.range 30).map fun i => sampleMN i MasternodeState.MASTERNODE_ENABLED 1000 70000 900

/-- Thirty enabled entries with collaterals `(0, 0)` to `(29, 0)`, announced at thirty
different times between 0 and 2900 and last pinged at 99900. -/
def sampleRegistryStaggered : List CMasternode :=
  (List.range 30).map fun i =>
    sampleMN i MasternodeState.MASTERNODE_ENABLED (100 * (((11 * i + 7) % 30 : Nat) : Int))
      70000 99900

/-- Three enabled entries at protocol 70000, last pinged at 9900: collateral `(1, 0)`
announced at 0, `(5, 0)` announced at 9000 and `(9, 0)` announced at 100. -/
def sampleRegistryAges : List CMasternode :=
  [sampleMN 1 MasternodeState.MASTERNODE_ENABLED 0 70000 9900,
   sampleMN 5 MasternodeState.MASTERNODE_ENABLED 9000 70000 9900,
   sampleMN 9 MasternodeState.MASTERNODE_ENABLED 100 70000 9900]

/-- Three enabled entries at protocol 70000, last pinged at 400: collateral `(9, 0)`
announced at 0, `(2, 0)` announced at -1000 and `(5, 0)` announced at -2000. -/
def sampleRegistryThreshold : List CMasternode :=
  [sampleMN 9 MasternodeState.MASTERNODE_ENABLED 0 70000 400,
   sampleMN 2 MasternodeState.MASTERNODE_ENABLED (-1000) 70000 400,
   sampleMN 5 MasternodeState.MASTERNODE_ENABLED (-2000) 70000 400]

/-- The concrete environment with `ActiveProtocol()` returning `-1`. -/
def sampleEnvNoProtocol : Env := { sampleEnvAt 1000 with ActiveProtocol := -1 }

/-- The concrete environment with a tick that sets `protocolVersion` to 0. -/
def sampleEnvDowngrade : Env :=
  { sampleEnvAt 1000 with Check := fun mn => { mn with protocolVersion := 0 } }

/-- The concrete environment with a payment oracle that has every entry scheduled. -/
def sampleEnvScheduled : Env := { sampleEnv with IsScheduled := fun _ _ => true }

/-- The concrete environment with `CalculateScore` returning zero. -/
def sampleEnvZeroScore : Env := { sampleEnv with CalculateScore := fun _ _ _ => 0 }

/-- The concrete environment with compact scores above the sentinel 9999. -/
def sampleEnvBigScore : Env := { sampleEnv with GetCompact := fun n => n + 10000 }

/-- The store after an inbound record for spork 8 with value 0: payment enforcement is on. -/
def sampleSporkOn : CSporkManager :=
  ((CSporkManager.empty "").ProcessSpork (sampleEnvAt 10000) "spork"
    (sampleSpork 10007 0 1)).sporkManager

/-- A concrete handler environment at time `now`: synced, on the main network, addresses
from 1000 on private, address 0 local; a broadcast passes its check when its protocol is at
least 70000 and it is not signed more than an hour ahead (`nDoS = 1` then), its collateral
belongs to the key of the same number, and `CheckInputsAndAdd` admits it through
`UpdateMasternodeList`; a ping passes when its entry is registered. -/
def sampleMsgEnvAt (now : Int) : MsgEnv :=
  { toEnv := sampleEnvAt now
    IsBlockchainSynced := true
    NetworkIDString := "main"
    IsRFC1918 := fun a => decide (1000 ≤ a)
    IsLocal := fun a => decide (a = 0)
    nullVin := ⟨⟨0, 4294967295⟩, [], 4294967295⟩
    IsVinAssociatedWithPubkey := fun vin pubkey => decide (vin.prevout.hash = pubkey)
    mnbVerdict := fun _ mnb =>
      (decide (70000 ≤ mnb.protocolVersion) && decide (mnb.sigTime ≤ now + 3600),
        if mnb.sigTime ≤ now + 3600 then 0 else 1)
    mnbCheckInputsAndAdd := fun s mnb nDoS =>
      { ok := true, nDoS := nDoS, mnodeman := s.UpdateMasternodeList (sampleEnvAt now) mnb }
    mnpCheckAndUpdate := fun s mnp =>
      { ok := (CMasternodeMan.Find s.vMasternodes mnp.vin).isSome
        nDoS := if mnp.sigTime ≤ now + 3600 then 0 else 33
        mnodeman := s }
    toBroadcast := fun mn =>
      { vin := mn.vin, addr := mn.addr,
        pubKeyCollateralAddress := mn.pubKeyCollateralAddress,
        pubKeyMasternode := mn.pubKeyMasternode, sig := mn.sig, sigTime := mn.sigTime,
        protocolVersion := mn.protocolVersion, lastPing := mn.lastPing }
    MASTERNODE_SYNC_LIST := 2 }

/-- The handler environment at time `now` while the blockchain is not synced. -/
def sampleMsgEnvUnsynced (now : Int) : MsgEnv :=
  { sampleMsgEnvAt now with IsBlockchainSynced := false }

/-- A remote peer with id 7 and the public address 42. -/
def samplePeer : CNode := { id := 7, addr := 42 }

/-- A registry with an enabled entry, an expired entry and an enabled entry on a private
address, and no throttle or seen entry. -/
def sampleMan : CMasternodeMan :=
  { CMasternodeMan.empty with
    vMasternodes :=
      [sampleMN 1 MasternodeState.MASTERNODE_ENABLED 0 70000 900,
       sampleMN 2 MasternodeState.MASTERNODE_EXPIRED 0 70000 900,
       sampleMN 2000 MasternodeState.MASTERNODE_ENABLED 0 70000 900] }

/-- The stream of a full-list `dseg`: the empty input. -/
def sampleDsegAll : CDataStream :=
  { asMNB := none, asMNP := none, asVin := some ⟨⟨0, 4294967295⟩, [], 4294967295⟩ }

/-- The stream carrying the broadcast `mnb`. -/
def sampleStreamMNB (mnb : CMasternodeBroadcast) : CDataStream :=
  { asMNB := some mnb, asMNP := none, asVin := none }

/-- A registry holding one seen broadcast that was announced at time 0 and whose last ping
is signed at 99900. -/
def sampleSeenOld : CMasternodeMan :=
  { CMasternodeMan.empty with
    mapSeenMasternodeBroadcast :=
      [(1, { sampleMNB 1 0 with lastPing := samplePing 1 99900 })] }

/-- A registry whose only entry (collateral `(3, 0)`, last pinged at 100) is swept as
expired at time 1000; the throttle map holds that collateral, and the seen-broadcast cache
holds a broadcast with the entry's input and one with the same outpoint and another
`scriptSig`. -/
def sampleSweepMan : CMasternodeMan :=
  { CMasternodeMan.empty with
    vMasternodes := [sampleMN 3 MasternodeState.MASTERNODE_ENABLED 0 70000 100]
    mWeAskedForMasternodeListEntry := [(⟨3, 0⟩, 5000)]
    mapSeenMasternodeBroadcast :=
      [(3, sampleMNB 3 0), (4, { sampleMNB 3 0 with vin := ⟨⟨3, 0⟩, [1], 0⟩ })] }

/-- The handler environment at time 1000 with a ping check that rejects every ping with
`nDoS = 33`. -/
def sampleMsgEnvRejectPing : MsgEnv :=
  { sampleMsgEnvAt 1000 with
    mnpCheckAndUpdate := fun s _ => { ok := false, nDoS := 33, mnodeman := s } }

/-- The stream carrying the ping `mnp`. -/
def sampleStreamMNP (mnp : CMasternodePing) : CDataStream :=
  { asMNB := none, asMNP := some mnp, asVin := none }

/-! ## Theorems -/

namespace CMasternodeMan

theorem Find_eq_none_iff (l : List CMasternode) (vin : CTxIn) :
    Find l vin = none ↔ ∀ e ∈ l, e.vin.prevout ≠ vin.prevout := by
  simp [Find, List.find?_eq_none]

/-- C1: `Add(mn)` returns true exactly when `mn` is enabled and no registered entry has the
collateral outpoint of `mn`; on true the entry list is the old list with `mn` appended and
every other member is untouched, on false the registry is unchanged. -/
theorem Add_spec (self : CMasternodeMan) (mn : CMasternode) :
    ((self.Add mn).1 = true ↔
        (mn.IsEnabled = true ∧ ∀ e ∈ self.vMasternodes, e.vin.prevout ≠ mn.vin.prevout)) ∧
    ((self.Add mn).1 = true →
        (self.Add mn).2 = { self with vMasternodes := self.vMasternodes ++ [mn] }) ∧
    ((self.Add mn).1 = false → (self.Add mn).2 = self) := by
  unfold Add
  cases hE : mn.IsEnabled
  · simp
  · cases hF : Find self.vMasternodes mn.vin with
    | none =>
      have h := (Find_eq_none_iff self.vMasternodes mn.vin).1 hF
      simpa using h
    | some e =>
      have hne : ¬ ∀ e ∈ self.vMasternodes, e.vin.prevout ≠ mn.vin.prevout := by
        intro h
        have := (Find_eq_none_iff self.vMasternodes mn.vin).2 h
        rw [hF] at this
        cases this
      simpa using hne

end CMasternodeMan

namespace CMasternodeMan

theorem sweepEntries_fst (env : Env) (force : Bool) (l : List CMasternode)
    (seen : List (Nat × CMasternodeBroadcast)) (asked : List (COutPoint × Int)) :
    (sweepEntries env force l seen asked).1 = l.filter fun mn => !isSwept env force mn := by
  induction l generalizing seen asked with
  | nil => simp [sweepEntries]
  | cons mn rest ih =>
    unfold sweepEntries
    cases h : isSwept env force mn
    · simp [h, ih]
    · simp [h, ih]

theorem map_prevout_updateFound (f : CMasternode → CMasternode)
    (hf : ∀ mn, (f mn).vin.prevout = mn.vin.prevout) (vin : CTxIn) (l : List CMasternode) :
    (updateFound f vin l).map (fun mn => mn.vin.prevout) = l.map fun mn => mn.vin.prevout := by
  induction l with
  | nil => simp [updateFound]
  | cons mn rest ih =>
    unfold updateFound
    split
    · simp [hf]
    · simp [ih]

theorem UniqueCollateral_Add (self : CMasternodeMan) (mn : CMasternode)
    (h : self.UniqueCollateral) : (self.Add mn).2.UniqueCollateral := by
  unfold Add
  cases hE : mn.IsEnabled
  · simpa using h
  · cases hF : Find self.vMasternodes mn.vin with
    | some e => simpa using h
    | none =>
      have hne := (Find_eq_none_iff self.vMasternodes mn.vin).1 hF
      simp only [Bool.not_true, Bool.false_eq_true, if_false, UniqueCollateral, List.map_append,
        List.map_cons, List.map_nil]
      refine List.Nodup.append h (List.nodup_singleton _) ?_
      rw [List.disjoint_singleton]
      intro hmem
      rcases List.mem_map.1 hmem with ⟨e, he, heq⟩
      exact hne e he heq

theorem UniqueCollateral_step (self : CMasternodeMan) (eo : Env × Op)
    (hk : KeepsCollateral eo.1) (h : self.UniqueCollateral) :
    (self.step eo).UniqueCollateral := by
  obtain ⟨env, op⟩ := eo
  cases op with
  | add mn => exact UniqueCollateral_Add self mn h
  | remove vin =>
    exact List.Nodup.sublist ((List.eraseP_sublist _).map _) h
  | updateMasternodeList mnb =>
    simp only [step, UpdateMasternodeList]
    split
    · exact UniqueCollateral_Add _ _ h
    · simp only [UniqueCollateral]
      rw [map_prevout_updateFound _ (fun mn => hk.2 mn mnb)]
      exact h
  | checkAndRemove force =>
    simp only [step, CheckAndRemove, UniqueCollateral, sweepEntries_fst, Check]
    refine List.Nodup.sublist ((List.filter_sublist _).map _) ?_
    have : (self.vMasternodes.map env.Check).map (fun mn => mn.vin.prevout)
        = self.vMasternodes.map fun mn => mn.vin.prevout := by
      simp only [List.map_map, Function.comp_def]
      exact List.map_congr_left fun a _ => hk.1 a
    rw [this]
    exact h
  | clear => simp [step, Clear, UniqueCollateral]

theorem UniqueCollateral_run (ops : List (Env × Op)) (self : CMasternodeMan)
    (hk : ∀ eo ∈ ops, KeepsCollateral eo.1) (h : self.UniqueCollateral) :
    (self.run ops).UniqueCollateral := by
  induction ops generalizing self with
  | nil => simpa [run] using h
  | cons eo rest ih =>
    have h1 := UniqueCollateral_step self eo (hk eo (List.mem_cons_self _ _)) h
    have := ih (self.step eo) (fun e he => hk e (List.mem_cons_of_mem _ he)) h1
    simpa [run] using this

/-- C2: starting from the empty registry, after any sequence of `Add`, `Remove`,
`UpdateMasternodeList`, `CheckAndRemove` and `Clear` no two entries of `vMasternodes` have
the same collateral outpoint, the entry tick and the broadcast refresh (both outside the
source files) being taken to keep an entry's outpoint. -/
theorem collateral_unique_reachable (ops : List (Env × Op))
    (hk : ∀ eo ∈ ops, KeepsCollateral eo.1) :
    ∀ i j : Fin (empty.run ops).vMasternodes.length,
      ((empty.run ops).vMasternodes.get i).vin.prevout =
        ((empty.run ops).vMasternodes.get j).vin.prevout → i = j := by
  have h : (empty.run ops).UniqueCollateral :=
    UniqueCollateral_run ops empty hk (by simp [empty, UniqueCollateral])
  intro i j hij
  unfold UniqueCollateral at h
  have hi : i.1 < ((empty.run ops).vMasternodes.map fun mn => mn.vin.prevout).length := by
    simp
  have hj : j.1 < ((empty.run ops).vMasternodes.map fun mn => mn.vin.prevout).length := by
    simp
  have := (List.Nodup.get_inj_iff h (i := ⟨i.1, hi⟩) (j := ⟨j.1, hj⟩)).1 (by simpa using hij)
  exact Fin.ext (by simpa using this)

end CMasternodeMan

/-! ### Association lists -/

theorem mapFind_eq_none_of_mapCount {K V : Type} [DecidableEq K] (m : List (K × V)) (k : K)
    (h : mapCount m k = false) : mapFind m k = none := by
  induction m with
  | nil => rfl
  | cons e rest ih =>
    simp only [mapCount, List.any_cons, Bool.or_eq_false_iff, decide_eq_false_iff_not] at h
    simp only [mapFind, List.find?_cons, decide_eq_false h.1]
    exact ih h.2

theorem mapFind_mapAssign_self {K V : Type} [DecidableEq K] (m : List (K × V)) (k : K) (v : V) :
    mapFind (mapAssign m k v) k = some v := by
  unfold mapAssign
  cases hc : mapCount m k
  · induction m with
    | nil => simp [mapFind]
    | cons e rest ih =>
      simp only [mapCount, List.any_cons, Bool.or_eq_false_iff, decide_eq_false_iff_not] at hc
      have := ih hc.2
      simp only [Bool.false_eq_true, if_false] at this ⊢
      simpa [mapFind, List.find?_cons, hc.1] using this
  · induction m with
    | nil => simp [mapCount] at hc
    | cons e rest ih =>
      simp only [if_true, List.map_cons]
      by_cases he : e.1 = k
      · simp [mapFind, List.find?_cons, he]
      · have hr : mapCount rest k = true := by
          simpa [mapCount, he] using hc
        have := ih hr
        simp only [if_true] at this
        simpa [mapFind, List.find?_cons, he] using this

theorem mapFind_mapAssign_ne {K V : Type} [DecidableEq K] (m : List (K × V)) (k k1 : K) (v : V)
    (hne : k1 ≠ k) : mapFind (mapAssign m k v) k1 = mapFind m k1 := by
  have hne2 : ¬ k = k1 := fun h => hne h.symm
  have hA : mapFind (m.map fun e => if e.1 = k then (k, v) else e) k1 = mapFind m k1 := by
    induction m with
    | nil => rfl
    | cons e rest ih =>
      unfold mapFind at ih ⊢
      rw [List.map_cons, List.find?_cons, List.find?_cons]
      by_cases he : e.1 = k
      · have h1 : ¬ e.1 = k1 := by rw [he]; exact hne2
        rw [if_pos he, decide_eq_false hne2, decide_eq_false h1]
        exact ih
      · rw [if_neg he]
        by_cases he1 : e.1 = k1
        · rw [decide_eq_true he1]
        · rw [decide_eq_false he1]
          exact ih
  have hB : mapFind (m ++ [(k, v)]) k1 = mapFind m k1 := by
    clear hA
    induction m with
    | nil =>
      show Option.map Prod.snd (List.find? _ [(k, v)]) = none
      rw [List.find?_cons, decide_eq_false hne2]
      rfl
    | cons e rest ih =>
      unfold mapFind at ih ⊢
      rw [List.cons_append, List.find?_cons, List.find?_cons]
      by_cases he1 : e.1 = k1
      · rw [decide_eq_true he1]
      · rw [decide_eq_false he1]
        exact ih
  unfold mapAssign
  split
  · exact hA
  · exact hB

/-! ### Machine arithmetic -/

theorem toInt64_range (x : Int) : -2 ^ 63 ≤ toInt64 x ∧ toInt64 x < 2 ^ 63 := by
  unfold toInt64
  have h1 := Int.emod_nonneg (x + 2 ^ 63) (by norm_num : (2 : Int) ^ 64 ≠ 0)
  have h2 := Int.emod_lt_of_pos (x + 2 ^ 63) (by norm_num : (0 : Int) < 2 ^ 64)
  constructor <;> omega

/-- An `int64_t` difference that leaves 64 bits wraps: at time 10000 the age of an entry
whose `sigTime` is `-9223372036854775807` is negative. -/
theorem toInt64_wraps :
    toInt64 (10000 - (-9223372036854775807)) = -9223372036854765809 := by decide

theorem toInt64_of_range (x : Int) (h1 : -2 ^ 63 ≤ x) (h2 : x < 2 ^ 63) : toInt64 x = x := by
  unfold toInt64
  rw [Int.emod_eq_of_lt (by omega) (by omega)]
  omega

theorem excessBits_spec (fuel : Nat) :
    ∀ m : Nat, m ≤ fuel →
      (excessBits fuel m = 0 ∧ m < 2 ^ 53) ∨
      (1 ≤ excessBits fuel m ∧ 2 ^ 52 * 2 ^ excessBits fuel m ≤ m) := by
  induction fuel with
  | zero =>
    intro m hm
    left
    exact ⟨rfl, by omega⟩
  | succ f ih =>
    intro m hm
    unfold excessBits
    by_cases hlt : m < 2 ^ 53
    · left
      exact ⟨by rw [if_pos hlt], hlt⟩
    · right
      rw [if_neg hlt]
      have hm2 : m / 2 ≤ f := by omega
      rcases ih (m / 2) hm2 with ⟨h0, _⟩ | ⟨h1, h2⟩
      · rw [h0]
        refine ⟨by omega, ?_⟩
        norm_num at hlt ⊢
        omega
      · refine ⟨by omega, ?_⟩
        have e : 2 ^ 52 * 2 ^ (excessBits f (m / 2) + 1) =
            2 * (2 ^ 52 * 2 ^ excessBits f (m / 2)) := by ring
        rw [e]
        omega

/-- Rounding moves a value by at most `2^-53` of its magnitude. -/
theorem roundBinary64_error (x : Int) :
    (roundBinary64 x - x).natAbs * 2 ^ 53 ≤ x.natAbs := by
  unfold roundBinary64
  simp only
  generalize hk : excessBits x.natAbs x.natAbs = k
  have hspec := excessBits_spec x.natAbs x.natAbs (le_refl _)
  rw [hk] at hspec
  have hpos : 0 < 2 ^ k := Nat.two_pow_pos k
  have hdm := Nat.div_add_mod x.natAbs (2 ^ k)
  have hr := Nat.mod_lt x.natAbs hpos
  generalize x.natAbs / 2 ^ k = q at *
  generalize x.natAbs % 2 ^ k = r at *
  rcases hspec with ⟨h0, _⟩ | ⟨h1, h2⟩
  · subst h0
    simp only [pow_zero, Nat.lt_one_iff] at hr hdm ⊢
    subst hr
    have hq : q = x.natAbs := by omega
    subst hq
    simp only [mul_zero, Nat.not_lt_zero, decide_False, Bool.false_or, mul_one]
    have : (decide (0 = 1) && decide (x.natAbs % 2 = 1)) = false := by simp
    simp only [this, Bool.false_eq_true, if_false]
    split <;> omega
  · generalize hP : 2 ^ k = P at *
    have hmul : 2 ^ 52 * P ≤ x.natAbs := h2
    by_cases hup : (decide (P < 2 * r) || (decide (2 * r = P) && decide (q % 2 = 1))) = true
    · rw [if_pos hup]
      have h2r : P ≤ 2 * r := by
        simp only [Bool.or_eq_true, Bool.and_eq_true, decide_eq_true_eq] at hup
        rcases hup with h | ⟨h, _⟩ <;> omega
      have e : ((q + 1) * P : Nat) = x.natAbs + (P - r) := by
        have : (q + 1) * P = P * q + P := by ring
        omega
      split
      · have hx : x = -(x.natAbs : Int) := by omega
        have : (-(((q + 1) * P : Nat) : Int) - x).natAbs = P - r := by
          rw [e]; omega
        rw [this]
        norm_num at hmul ⊢
        omega
      · have hx : x = (x.natAbs : Int) := by omega
        have : ((((q + 1) * P : Nat) : Int) - x).natAbs = P - r := by
          rw [e]; omega
        rw [this]
        norm_num at hmul ⊢
        omega
    · rw [if_neg hup]
      have h2r : 2 * r ≤ P := by
        simp only [Bool.or_eq_true, Bool.and_eq_true, decide_eq_true_eq, not_or] at hup
        omega
      have e : (q * P : Nat) + r = x.natAbs := by
        have : q * P = P * q := by ring
        omega
      split
      · have : (-((q * P : Nat) : Int) - x).natAbs = r := by omega
        rw [this]
        norm_num at hmul ⊢
        omega
      · have : (((q * P : Nat) : Int) - x).natAbs = r := by omega
        rw [this]
        norm_num at hmul ⊢
        omega

theorem tooNew_thirty (t : Int) : tooNew t 30 t = true := by
  unfold tooNew
  simp only [decide_eq_true_eq]
  have hP : roundBinary64 (roundBinary64 (((30 : Nat) : Int) * 5854679515581645) * 60)
      = 10538423128046960640 := by decide
  rw [hP]
  obtain ⟨hlo, hhi⟩ := toInt64_range t
  generalize toInt64 t = u at hlo hhi
  have e1 := roundBinary64_error (u * 2 ^ 51)
  generalize roundBinary64 (u * 2 ^ 51) = s at e1 ⊢
  have e2 := roundBinary64_error (s + 10538423128046960640)
  generalize roundBinary64 (s + 10538423128046960640) = L at e2 ⊢
  norm_num at hlo hhi e1 e2 ⊢
  omega

/-! ### `std::sort` -/

namespace CMasternodeMan

theorem sortHighToLow_perm {α : Type} (tie : List Int → Nat → Nat → Bool)
    (v : List (Int × α)) : (sortHighToLow tie v).Perm v := by
  unfold sortHighToLow
  have h := (List.perm_insertionSort (fun a b : Nat × Int × α =>
    (decide (b.2.1 < a.2.1) ||
      (decide (b.2.1 = a.2.1) && tie (v.map Prod.fst) a.1 b.1)) = true) v.enum).map Prod.snd
  rw [List.enum_map_snd] at h
  exact h

theorem orderedInsert_keys {β : Type} (key : β → Int) (r : β → β → Prop) [DecidableRel r]
    (hr : ∀ a b, r a b → key b ≤ key a) (hn : ∀ a b, ¬ r a b → key a ≤ key b) (a : β) :
    ∀ l : List β, l.Pairwise (fun x y => key y ≤ key x) →
      (l.orderedInsert r a).Pairwise (fun x y => key y ≤ key x) := by
  intro l
  induction l with
  | nil => intro _; simp
  | cons b l ih =>
    intro hl
    rw [List.pairwise_cons] at hl
    rw [List.orderedInsert]
    split
    · rename_i hab
      rw [List.pairwise_cons]
      refine ⟨?_, List.pairwise_cons.2 hl⟩
      intro c hc
      rcases List.mem_cons.1 hc with rfl | hc
      · exact hr _ _ hab
      · exact le_trans (hl.1 c hc) (hr _ _ hab)
    · rename_i hab
      rw [List.pairwise_cons]
      refine ⟨?_, ih hl.2⟩
      intro c hc
      rcases (List.mem_orderedInsert r).1 hc with rfl | hc
      · exact hn _ _ hab
      · exact hl.1 c hc

theorem insertionSort_keys {β : Type} (key : β → Int) (r : β → β → Prop) [DecidableRel r]
    (hr : ∀ a b, r a b → key b ≤ key a) (hn : ∀ a b, ¬ r a b → key a ≤ key b) :
    ∀ l : List β, (l.insertionSort r).Pairwise (fun x y => key y ≤ key x) := by
  intro l
  induction l with
  | nil => simp
  | cons a l ih =>
    rw [List.insertionSort]
    exact orderedInsert_keys key r hr hn a _ ih

theorem sortHighToLow_sorted {α : Type} (tie : List Int → Nat → Nat → Bool)
    (v : List (Int × α)) : (sortHighToLow tie v).Pairwise fun a b => b.1 ≤ a.1 := by
  unfold sortHighToLow
  rw [List.pairwise_map]
  apply insertionSort_keys (fun x : Nat × Int × α => x.2.1)
  · intro a b hab
    simp only [Bool.or_eq_true, Bool.and_eq_true, decide_eq_true_eq] at hab
    rcases hab with h | ⟨h, _⟩ <;> omega
  · intro a b hab
    simp only [Bool.or_eq_true, Bool.and_eq_true, decide_eq_true_eq, not_or] at hab
    omega

/-- Inserting into a list that is ordered by `R` keeps it ordered by `R`, when the insertion
test `r` agrees with `R` on the elements met. -/
theorem orderedInsert_pairwise {β : Type} (R : β → β → Prop) (r : β → β → Prop)
    [DecidableRel r] (hR : ∀ x y z, R x y → R y z → R x z) (a : β) :
    ∀ l : List β, (∀ b ∈ l, (r a b → R a b) ∧ (¬ r a b → R b a)) → l.Pairwise R →
      (l.orderedInsert r a).Pairwise R := by
  intro l
  induction l with
  | nil => intro _ _; simp
  | cons b l ih =>
    intro hab hl
    rw [List.pairwise_cons] at hl
    rw [List.orderedInsert]
    split
    · rename_i h
      have hRab := (hab b (List.mem_cons_self _ _)).1 h
      rw [List.pairwise_cons]
      refine ⟨?_, List.pairwise_cons.2 hl⟩
      intro c hc
      rcases List.mem_cons.1 hc with rfl | hc
      · exact hRab
      · exact hR _ _ _ hRab (hl.1 c hc)
    · rename_i h
      have hRba := (hab b (List.mem_cons_self _ _)).2 h
      rw [List.pairwise_cons]
      refine ⟨?_, ih (fun c hc => hab c (List.mem_cons_of_mem _ hc)) hl.2⟩
      intro c hc
      rcases (List.mem_orderedInsert r).1 hc with rfl | hc
      · exact hRba
      · exact hl.1 c hc

theorem insertionSort_pairwise {β : Type} (R : β → β → Prop) (r : β → β → Prop)
    [DecidableRel r] (hR : ∀ x y z, R x y → R y z → R x z) :
    ∀ l : List β, l.Pairwise (fun a b => (r a b → R a b) ∧ (¬ r a b → R b a) ∧
        (r b a → R b a) ∧ (¬ r b a → R a b)) →
      (l.insertionSort r).Pairwise R := by
  intro l
  induction l with
  | nil => intro _; simp
  | cons a l ih =>
    intro hl
    rw [List.pairwise_cons] at hl
    rw [List.insertionSort]
    apply orderedInsert_pairwise R r hR a _ _ (ih hl.2)
    intro b hb
    have hb2 : b ∈ l := (List.perm_insertionSort r l).subset hb
    exact ⟨(hl.1 b hb2).1, (hl.1 b hb2).2.1⟩

/-- Every arrangement of the positions of `v` that is ordered high to low is what the sort
produces for some tie oracle: the oracle that puts position `i` before position `j` when `i`
comes first in the arrangement. -/
theorem sortHighToLow_realises {α : Type} (v : List (Int × α)) (t : List (Nat × Int × α))
    (hperm : t.Perm v.enum) (hsorted : t.Pairwise fun a b => b.2.1 ≤ a.2.1) :
    sortHighToLow
      (fun _ i j => decide ((t.map Prod.fst).indexOf i < (t.map Prod.fst).indexOf j)) v
      = t.map Prod.snd := by
  unfold sortHighToLow
  congr 1
  have hnd : (t.map Prod.fst).Nodup := by
    have h1 := hperm.map Prod.fst
    rw [List.enum_map_fst] at h1
    exact h1.nodup_iff.2 (List.nodup_range _)
  have hndt : t.Nodup := List.Nodup.of_map _ hnd
  have hpos : ∀ (i : Nat) (h : i < t.length), (t.map Prod.fst).indexOf (t[i]).1 = i := by
    intro i h
    have h2 : i < (t.map Prod.fst).length := by simpa using h
    have := List.indexOf_getElem hnd i h2
    simpa using this
  have hidx : ∀ a ∈ t, ∀ b ∈ t, (t.map Prod.fst).indexOf a.1 = (t.map Prod.fst).indexOf b.1 →
      a = b := by
    intro a ha b hb hab
    obtain ⟨i, hi, rfl⟩ := List.mem_iff_getElem.1 ha
    obtain ⟨j, hj, rfl⟩ := List.mem_iff_getElem.1 hb
    rw [hpos i hi, hpos j hj] at hab
    subst hab
    rfl
  have hkey : ∀ a ∈ t, ∀ b ∈ t,
      (t.map Prod.fst).indexOf a.1 < (t.map Prod.fst).indexOf b.1 → b.2.1 ≤ a.2.1 := by
    intro a ha b hb hlt
    obtain ⟨i, hi, rfl⟩ := List.mem_iff_getElem.1 ha
    obtain ⟨j, hj, rfl⟩ := List.mem_iff_getElem.1 hb
    rw [hpos i hi, hpos j hj] at hlt
    exact (List.pairwise_iff_getElem.1 hsorted) i j hi hj hlt
  have hsub : ∀ a, a ∈ v.enum → a ∈ t := fun a ha => hperm.symm.subset ha
  have hndl : v.enum.Nodup := hperm.nodup_iff.1 hndt
  haveI : IsAntisymm (Nat × Int × α)
      (fun x y => (t.map Prod.fst).indexOf x.1 < (t.map Prod.fst).indexOf y.1) :=
    ⟨fun x y h1 h2 => absurd h1 (lt_asymm h2)⟩
  apply List.eq_of_perm_of_sorted
    (r := fun x y => (t.map Prod.fst).indexOf x.1 < (t.map Prod.fst).indexOf y.1)
  · exact (List.perm_insertionSort _ _).trans hperm.symm
  · apply insertionSort_pairwise
    · intro x y z h1 h2
      exact lt_trans h1 h2
    · refine hndl.imp_of_mem ?_
      intro a b ha hb hne
      have hat := hsub a ha
      have hbt := hsub b hb
      have hne2 : (t.map Prod.fst).indexOf a.1 ≠ (t.map Prod.fst).indexOf b.1 :=
        fun h => hne (hidx a hat b hbt h)
      have k1 := hkey a hat b hbt
      have k2 := hkey b hbt a hat
      simp only [Bool.or_eq_true, Bool.and_eq_true, decide_eq_true_eq, not_or, not_and]
      refine ⟨?_, ?_, ?_, ?_⟩
      · rintro (h | ⟨_, h⟩)
        · by_contra hc
          have := k2 (by omega)
          omega
        · exact h
      · rintro ⟨h1, h2⟩
        by_contra hc
        have h3 : (t.map Prod.fst).indexOf a.1 < (t.map Prod.fst).indexOf b.1 := by omega
        have := k1 h3
        exact h2 (by omega) h3
      · rintro (h | ⟨_, h⟩)
        · by_contra hc
          have := k1 (by omega)
          omega
        · exact h
      · rintro ⟨h1, h2⟩
        by_contra hc
        have h3 : (t.map Prod.fst).indexOf b.1 < (t.map Prod.fst).indexOf a.1 := by omega
        have := k2 h3
        exact h2 (by omega) h3
  · rw [List.Sorted, List.pairwise_iff_getElem]
    intro i j hi hj hij
    rw [hpos i hi, hpos j hj]
    exact hij

theorem exists_perm_map_eq {β γ : Type} (f : β → γ) :
    ∀ (t : List γ) (l : List β), t.Perm (l.map f) → ∃ t1 : List β, t1.Perm l ∧ t1.map f = t := by
  intro t
  induction t with
  | nil =>
    intro l h
    have : l.map f = [] := List.Perm.nil_eq h |>.symm
    exact ⟨[], by rw [List.map_eq_nil_iff.1 this], rfl⟩
  | cons c t0 ih =>
    intro l h
    have hc : c ∈ l.map f := h.subset (List.mem_cons_self _ _)
    obtain ⟨b, hb, rfl⟩ := List.mem_map.1 hc
    obtain ⟨l1, l2, rfl⟩ := List.append_of_mem hb
    have h2 : t0.Perm ((l1 ++ l2).map f) := by
      have h3 : ((l1 ++ b :: l2).map f).Perm (f b :: (l1 ++ l2).map f) := by
        simp only [List.map_append, List.map_cons]
        exact List.perm_middle
      exact (List.Perm.cons_inv (h.trans h3))
    obtain ⟨t1, hp, hm⟩ := ih (l1 ++ l2) h2
    refine ⟨b :: t1, ?_, by simp [hm]⟩
    exact (List.Perm.cons b hp).trans List.perm_middle.symm

/-- Every permutation of `v` that is ordered high to low is what the sort produces for some
tie oracle. -/
theorem sortHighToLow_complete {α : Type} (v t : List (Int × α)) (hperm : t.Perm v)
    (hsorted : t.Pairwise fun a b => b.1 ≤ a.1) :
    ∃ tie, sortHighToLow tie v = t := by
  have h1 : t.Perm (v.enum.map Prod.snd) := by rw [List.enum_map_snd]; exact hperm
  obtain ⟨t1, hp, hm⟩ := exists_perm_map_eq Prod.snd t v.enum h1
  have hs1 : t1.Pairwise fun a b => b.2.1 ≤ a.2.1 := by
    rw [← hm, List.pairwise_map] at hsorted
    exact hsorted
  exact ⟨_, (sortHighToLow_realises v t1 hp hs1).trans hm⟩

end CMasternodeMan

/-! ### The spork store -/

namespace CSporkManager

theorem Sign_fields (env : Env) (m s : CSporkMessage) (k : String)
    (h : CSporkMessage.Sign env m k = some s) :
    s.nSporkID = m.nSporkID ∧ s.nValue = m.nValue ∧ s.nTimeSigned = m.nTimeSigned := by
  unfold CSporkMessage.Sign at h
  split at h
  · cases h
  · split at h
    · cases h
    · split at h
      · cases h
      · cases h
        exact ⟨rfl, rfl, rfl⟩

/-- `CheckSignature` is the verification of `vchSig` against the configured spork key over
the string `str(nSporkID) + str(nValue) + str(nTimeSigned)`. -/
theorem CheckSignature_eq (env : Env) (m : CSporkMessage) :
    m.CheckSignature env =
      env.VerifyMessage env.SporkKey m.vchSig
        (toString m.nSporkID ++ toString m.nValue ++ toString m.nTimeSigned) := by
  unfold CSporkMessage.CheckSignature CSporkMessage.strMessage
  cases env.VerifyMessage env.SporkKey m.vchSig
    (toString m.nSporkID ++ toString m.nValue ++ toString m.nTimeSigned) <;> rfl

/-- C3: with a chain tip present, `ProcessSpork` installs an inbound SPORK message `m` as the
active record of `m.nSporkID` (every other id keeps its record, and `m` is relayed) when
`VerifyMessage` accepts its signature `vchSig` for the configured spork key over the string
`str(nSporkID) + str(nValue) + str(nTimeSigned)` and no record is active for the id or the
active record was signed strictly earlier; in every other case the store is unchanged and
nothing is relayed.  After an installation a message for the same id signed one second
earlier leaves the store, and so the active value, unchanged. -/
theorem ProcessSpork_installs_iff (env : Env) (self : CSporkManager) (m : CSporkMessage)
    (hTip : env.hasTip = true) :
    (env.VerifyMessage env.SporkKey m.vchSig
          (toString m.nSporkID ++ toString m.nValue ++ toString m.nTimeSigned) = true ∧
        (mapFind self.mapSporksActive m.nSporkID = none ∨
          ∃ a, mapFind self.mapSporksActive m.nSporkID = some a ∧
            a.nTimeSigned < m.nTimeSigned) →
      mapFind (self.ProcessSpork env "spork" m).sporkManager.mapSporksActive m.nSporkID
          = some m ∧
      (∀ id, id ≠ m.nSporkID →
        mapFind (self.ProcessSpork env "spork" m).sporkManager.mapSporksActive id
          = mapFind self.mapSporksActive id) ∧
      (self.ProcessSpork env "spork" m).relayed = some (m.GetHash env) ∧
      ∀ (env2 : Env) (m2 : CSporkMessage), m2.nSporkID = m.nSporkID →
        m2.nTimeSigned = m.nTimeSigned - 1 →
        ((self.ProcessSpork env "spork" m).sporkManager.ProcessSpork env2 "spork"
            m2).sporkManager = (self.ProcessSpork env "spork" m).sporkManager ∧
        ((self.ProcessSpork env "spork" m).sporkManager.ProcessSpork env2 "spork"
            m2).sporkManager.GetSporkValue m.nSporkID = m.nValue) ∧
    (¬ (env.VerifyMessage env.SporkKey m.vchSig
          (toString m.nSporkID ++ toString m.nValue ++ toString m.nTimeSigned) = true ∧
        (mapFind self.mapSporksActive m.nSporkID = none ∨
          ∃ a, mapFind self.mapSporksActive m.nSporkID = some a ∧
            a.nTimeSigned < m.nTimeSigned)) →
      (self.ProcessSpork env "spork" m).sporkManager = self ∧
      (self.ProcessSpork env "spork" m).relayed = none) := by
  rw [← CheckSignature_eq env m]
  have key : ∀ (s : CSporkManager) (e2 : Env) (m2 : CSporkMessage) (a : CSporkMessage),
      mapFind s.mapSporksActive m2.nSporkID = some a → m2.nTimeSigned ≤ a.nTimeSigned →
      (s.ProcessSpork e2 "spork" m2).sporkManager = s := by
    intro s e2 m2 a ha hle
    unfold ProcessSpork
    simp only [if_true, ha]
    split
    · rfl
    · simp [hle]
  constructor
  · rintro ⟨hsig, hfresh⟩
    have hout : self.ProcessSpork env "spork" m =
        ⟨{ self with
            mapSporks := mapAssign self.mapSporks (m.GetHash env) m
            mapSporksActive := mapAssign self.mapSporksActive m.nSporkID m },
          some (m.GetHash env), []⟩ := by
      unfold ProcessSpork
      simp only [if_true, hTip, hsig, Bool.not_true, Bool.false_eq_true, if_false]
      rcases hfresh with hnone | ⟨a, ha, hlt⟩
      · simp [hnone]
      · simp [ha, not_le.2 hlt]
    rw [hout]
    have hself := mapFind_mapAssign_self self.mapSporksActive m.nSporkID m
    refine ⟨hself, fun id hid => mapFind_mapAssign_ne _ _ _ _ hid, rfl, ?_⟩
    intro env2 m2 hid ht
    have hk := key { self with
            mapSporks := mapAssign self.mapSporks (m.GetHash env) m
            mapSporksActive := mapAssign self.mapSporksActive m.nSporkID m } env2 m2 m
            (by rw [hid]; exact hself) (by omega)
    rw [hk]
    exact ⟨rfl, by simp [GetSporkValue, hself]⟩
  · intro hn
    unfold ProcessSpork
    simp only [if_true, hTip, Bool.not_true, Bool.false_eq_true, if_false]
    cases hf : mapFind self.mapSporksActive m.nSporkID with
    | none =>
      cases hs : m.CheckSignature env
      · simp
      · exact absurd ⟨hs, Or.inl hf⟩ hn
    | some a =>
      by_cases hge : a.nTimeSigned ≥ m.nTimeSigned
      · simp [hge]
      · cases hs : m.CheckSignature env
        · simp
        · exact absurd ⟨hs, Or.inr ⟨a, hf, not_le.1 hge⟩⟩ hn

/-- Instance of `ProcessSpork_installs_iff`: spork 8 with value 5 signed at 100 carries the
signature of its content and is installed; the message with value 9 signed at 99 leaves the
active value 5; and a message for value 9 that carries the signature made for value 5 is not
installed in the empty store. -/
theorem ProcessSpork_installs_iff_witness :
    sampleEnv.hasTip = true ∧
    (sampleEnv.VerifyMessage sampleEnv.SporkKey (sampleSpork 10007 5 100).vchSig
          (toString (sampleSpork 10007 5 100).nSporkID ++
            toString (sampleSpork 10007 5 100).nValue ++
            toString (sampleSpork 10007 5 100).nTimeSigned) = true ∧
        (mapFind (empty "").mapSporksActive (sampleSpork 10007 5 100).nSporkID = none ∨
          ∃ a, mapFind (empty "").mapSporksActive (sampleSpork 10007 5 100).nSporkID = some a ∧
            a.nTimeSigned < (sampleSpork 10007 5 100).nTimeSigned)) ∧
    (((empty "").ProcessSpork sampleEnv "spork" (sampleSpork 10007 5 100)).sporkManager.ProcessSpork
        sampleEnv "spork" (sampleSpork 10007 9 99)).sporkManager.GetSporkValue 10007 = 5 ∧
    sampleEnv.VerifyMessage sampleEnv.SporkKey
      ({ sampleSpork 10007 5 100 with nValue := 9 } : CSporkMessage).vchSig
      (toString (10007 : Int) ++ toString (9 : Int) ++ toString (100 : Int)) = false ∧
    ((empty "").ProcessSpork sampleEnv "spork"
      { sampleSpork 10007 5 100 with nValue := 9 }).sporkManager.mapSporksActive = [] :=
  ⟨rfl, ⟨by decide, Or.inl rfl⟩,
    ((ProcessSpork_installs_iff sampleEnv (empty "") (sampleSpork 10007 5 100) rfl).1
      ⟨by decide, Or.inl rfl⟩).2.2.2 sampleEnv (sampleSpork 10007 9 99) rfl (by decide) |>.2,
    by decide,
    by rw [((ProcessSpork_installs_iff sampleEnv (empty "")
      { sampleSpork 10007 5 100 with nValue := 9 } rfl).2 (by decide)).1]; rfl⟩

theorem ProcessSpork_lookup (env : Env) (self : CSporkManager) (cmd : String)
    (m : CSporkMessage) (id : Int) (old new : CSporkMessage)
    (hold : mapFind self.mapSporksActive id = some old)
    (hnew : mapFind (self.ProcessSpork env cmd m).sporkManager.mapSporksActive id = some new)
    (hne : new ≠ old) : old.nTimeSigned < new.nTimeSigned := by
  have same : ∀ out : SporkOutcome, out.sporkManager = self →
      mapFind out.sporkManager.mapSporksActive id = some new → False := by
    intro out ho hn
    rw [ho, hold] at hn
    exact hne (Option.some.inj hn).symm
  have inst :
      (∀ a, mapFind self.mapSporksActive m.nSporkID = some a → a.nTimeSigned < m.nTimeSigned) →
      mapFind (mapAssign self.mapSporksActive m.nSporkID m) id = some new →
      old.nTimeSigned < new.nTimeSigned := by
    intro hlt hn
    by_cases hid : id = m.nSporkID
    · subst hid
      rw [mapFind_mapAssign_self] at hn
      cases hn
      exact hlt old hold
    · rw [mapFind_mapAssign_ne _ _ _ _ hid, hold] at hn
      exact absurd (Option.some.inj hn).symm hne
  unfold ProcessSpork at hnew
  split at hnew
  · split at hnew
    · exact (same _ rfl hnew).elim
    · split at hnew
      · rename_i a ha
        split at hnew
        · exact (same _ rfl hnew).elim
        · split at hnew
          · exact (same _ rfl hnew).elim
          · rename_i hge _
            refine inst ?_ hnew
            intro b hb
            rw [ha] at hb
            cases hb
            exact not_le.1 hge
      · rename_i hnone
        split at hnew
        · exact (same _ rfl hnew).elim
        · refine inst ?_ hnew
          intro b hb
          rw [hnone] at hb
          cases hb
  · split at hnew
    · exact (same _ rfl hnew).elim
    · exact (same _ rfl hnew).elim

theorem UpdateSpork_lookup (env : Env) (self : CSporkManager) (nSporkID nValue : Int)
    (id : Int) (old new : CSporkMessage)
    (hold : mapFind self.mapSporksActive id = some old)
    (hnew : mapFind (self.UpdateSpork env nSporkID nValue).2.sporkManager.mapSporksActive id
      = some new)
    (hne : new ≠ old) : new.nTimeSigned = env.GetAdjustedTime := by
  unfold UpdateSpork at hnew
  split at hnew
  · rename_i spork hs
    have hf := Sign_fields env _ spork _ hs
    by_cases hid : id = nSporkID
    · subst hid
      simp only [mapFind_mapAssign_self] at hnew
      cases hnew
      exact hf.2.2
    · simp only [mapFind_mapAssign_ne _ _ _ _ hid, hold] at hnew
      exact absurd (Option.some.inj hnew).symm hne
  · simp only [hold] at hnew
    exact absurd (Option.some.inj hnew).symm hne

/-- C4 (as stated, refuted): two local updates of spork 8 within the same second: the second
replaces the record signed at 1000 by another record signed at 1000.  And after an inbound
record signed at 2000, a local update at adjusted time 1000 replaces it by a record signed
at 1000. -/
theorem UpdateSpork_replaces_without_later_time :
    mapFind ((empty "secret").run [(sampleEnv, Op.updateSpork 10007 5)]).mapSporksActive 10007
      = some (sampleSpork 10007 5 1000) ∧
    mapFind ((empty "secret").run [(sampleEnv, Op.updateSpork 10007 5),
      (sampleEnv, Op.updateSpork 10007 9)]).mapSporksActive 10007
      = some (sampleSpork 10007 9 1000) ∧
    ¬ (sampleSpork 10007 5 1000).nTimeSigned < (sampleSpork 10007 9 1000).nTimeSigned ∧
    mapFind ((empty "secret").run
      [(sampleEnv, Op.processSpork "spork" (sampleSpork 10007 5 2000))]).mapSporksActive 10007
      = some (sampleSpork 10007 5 2000) ∧
    mapFind ((empty "secret").run [(sampleEnv, Op.processSpork "spork" (sampleSpork 10007 5 2000)),
      (sampleEnv, Op.updateSpork 10007 9)]).mapSporksActive 10007
      = some (sampleSpork 10007 9 1000) ∧
    ¬ (sampleSpork 10007 5 2000).nTimeSigned < (sampleSpork 10007 9 1000).nTimeSigned := by
  refine ⟨by decide, by decide, by decide, by decide, by decide, by decide⟩

/-- A local update whose signing succeeds installs its record whatever was active. -/
theorem UpdateSpork_installs (env : Env) (self : CSporkManager) (nSporkID nValue : Int)
    (key pubkey : Nat) (vchSig : List Nat)
    (hk : env.GetKeysFromSecret self.strMasterPrivKey = some (key, pubkey))
    (hs : env.SignMessage
      (toString nSporkID ++ toString nValue ++ toString env.GetAdjustedTime) key = some vchSig)
    (hv : env.VerifyMessage pubkey vchSig
      (toString nSporkID ++ toString nValue ++ toString env.GetAdjustedTime) = true) :
    (self.UpdateSpork env nSporkID nValue).1 = true ∧
    (self.UpdateSpork env nSporkID nValue).2.sporkManager.mapSporksActive =
      mapAssign self.mapSporksActive nSporkID
        ⟨vchSig, nSporkID, nValue, env.GetAdjustedTime⟩ := by
  have hsign : CSporkMessage.Sign env ⟨[], nSporkID, nValue, env.GetAdjustedTime⟩
      self.strMasterPrivKey = some ⟨vchSig, nSporkID, nValue, env.GetAdjustedTime⟩ := by
    unfold CSporkMessage.Sign CSporkMessage.strMessage
    simp only [hk, hs, hv, Bool.not_true, Bool.false_eq_true, if_false]
  unfold UpdateSpork
  rw [hsign]
  exact ⟨rfl, rfl⟩

/-- C4 (amended): along every sequence of `ProcessSpork` and `UpdateSpork` operations, from
any store, for the next operation: if it is `ProcessSpork` and changes the active record of
an id from `old` to `new`, then `new` is signed strictly later than `old`; if it is
`UpdateSpork(nSporkID, nValue)` and signing succeeds (the key pair is derived, `SignMessage`
returns a signature and `VerifyMessage` accepts it), then afterwards the active record of
`nSporkID` is the record with that signature, `nValue` and the adjusted time of the call,
whatever record was active before, and every other id keeps its record; and whenever
`UpdateSpork` changes the active record of an id, the new record is signed at the adjusted
time of the call. -/
theorem replacement_signed_time (s0 : CSporkManager) (ops : List (Env × Op)) (eo : Env × Op)
    (id : Int) :
    (∀ strCommand spork old new, eo.2 = Op.processSpork strCommand spork →
      mapFind (s0.run ops).mapSporksActive id = some old →
      mapFind ((s0.run ops).step eo).mapSporksActive id = some new → new ≠ old →
      old.nTimeSigned < new.nTimeSigned) ∧
    (∀ nSporkID nValue key pubkey vchSig, eo.2 = Op.updateSpork nSporkID nValue →
      eo.1.GetKeysFromSecret (s0.run ops).strMasterPrivKey = some (key, pubkey) →
      eo.1.SignMessage
        (toString nSporkID ++ toString nValue ++ toString eo.1.GetAdjustedTime) key
        = some vchSig →
      eo.1.VerifyMessage pubkey vchSig
        (toString nSporkID ++ toString nValue ++ toString eo.1.GetAdjustedTime) = true →
      mapFind ((s0.run ops).step eo).mapSporksActive nSporkID =
        some ⟨vchSig, nSporkID, nValue, eo.1.GetAdjustedTime⟩ ∧
      (id ≠ nSporkID →
        mapFind ((s0.run ops).step eo).mapSporksActive id =
          mapFind (s0.run ops).mapSporksActive id)) ∧
    (∀ nSporkID nValue old new, eo.2 = Op.updateSpork nSporkID nValue →
      mapFind (s0.run ops).mapSporksActive id = some old →
      mapFind ((s0.run ops).step eo).mapSporksActive id = some new → new ≠ old →
      new.nTimeSigned = eo.1.GetAdjustedTime) := by
  obtain ⟨env, op⟩ := eo
  refine ⟨?_, ?_, ?_⟩
  · rintro cmd m old new rfl hold hnew hne
    exact ProcessSpork_lookup env _ cmd m id old new hold hnew hne
  · rintro i v key pubkey vchSig rfl hk hs hv
    have h := (UpdateSpork_installs env (s0.run ops) i v key pubkey vchSig hk hs hv).2
    simp only [step]
    rw [h]
    exact ⟨mapFind_mapAssign_self _ _ _, fun hid => mapFind_mapAssign_ne _ _ _ _ hid⟩
  · rintro i v old new rfl hold hnew hne
    exact UpdateSpork_lookup env _ i v id old new hold hnew hne

/-- Instance of `replacement_signed_time`: a local update signed at 1000, then an inbound
record signed at 1001 replaces it; and a local update at adjusted time 1000 replaces an
inbound record signed at 2000. -/
theorem replacement_signed_time_witness :
    mapFind ((empty "secret").run [(sampleEnv, Op.updateSpork 10007 5)]).mapSporksActive 10007
      = some (sampleSpork 10007 5 1000) ∧
    mapFind (((empty "secret").run [(sampleEnv, Op.updateSpork 10007 5)]).step
      (sampleEnv, Op.processSpork "spork" (sampleSpork 10007 9 1001))).mapSporksActive 10007
      = some (sampleSpork 10007 9 1001) ∧
    sampleSpork 10007 9 1001 ≠ sampleSpork 10007 5 1000 ∧
    (sampleSpork 10007 5 1000).nTimeSigned < (sampleSpork 10007 9 1001).nTimeSigned ∧
    mapFind ((empty "secret").run
      [(sampleEnv, Op.processSpork "spork" (sampleSpork 10007 5 2000))]).mapSporksActive 10007
      = some (sampleSpork 10007 5 2000) ∧
    sampleEnv.GetKeysFromSecret ((empty "secret").run
      [(sampleEnv, Op.processSpork "spork" (sampleSpork 10007 5 2000))]).strMasterPrivKey
      = some (7, 7) ∧
    mapFind (((empty "secret").run
      [(sampleEnv, Op.processSpork "spork" (sampleSpork 10007 5 2000))]).step
      (sampleEnv, Op.updateSpork 10007 9)).mapSporksActive 10007
      = some ⟨(sampleSpork 10007 9 1000).vchSig, 10007, 9, sampleEnv.GetAdjustedTime⟩ :=
  ⟨by decide, by decide, by decide,
    (replacement_signed_time (empty "secret") [(sampleEnv, Op.updateSpork 10007 5)]
      (sampleEnv, Op.processSpork "spork" (sampleSpork 10007 9 1001)) 10007).1 _ _
      (sampleSpork 10007 5 1000) (sampleSpork 10007 9 1001) rfl (by decide) (by decide)
      (by decide),
    by decide, by decide,
    ((replacement_signed_time (empty "secret")
      [(sampleEnv, Op.processSpork "spork" (sampleSpork 10007 5 2000))]
      (sampleEnv, Op.updateSpork 10007 9) 10007).2.1 10007 9 7 7
      (sampleSpork 10007 9 1000).vchSig rfl (by decide) (by decide) (by decide)).1⟩

/-- C5 (as stated, refuted): for the unknown id 0 the value is `-1 < now` and the spork is
reported inactive; likewise for spork 8 once a record with value `-1` is installed. -/
theorem IsSporkActive_minus_one :
    (empty "").GetSporkValue 0 < sampleEnv.GetTime ∧
    (empty "").IsSporkActive sampleEnv 0 = false ∧
    (((empty "").ProcessSpork sampleEnv "spork" (sampleSpork 10007 (-1) 100)).sporkManager
      ).GetSporkValue 10007 < sampleEnv.GetTime ∧
    (((empty "").ProcessSpork sampleEnv "spork" (sampleSpork 10007 (-1) 100)).sporkManager
      ).IsSporkActive sampleEnv 10007 = false := by
  refine ⟨by decide, by decide, by decide, by decide⟩

/-- C5 (amended): `IsSporkActive(id)` returns true exactly when `GetSporkValue(id)` is not
`-1` and is less than the current time. -/
theorem IsSporkActive_iff (env : Env) (self : CSporkManager) (nSporkID : Int) :
    self.IsSporkActive env nSporkID = true ↔
      (self.GetSporkValue nSporkID ≠ -1 ∧ self.GetSporkValue nSporkID < env.GetTime) := by
  unfold IsSporkActive
  by_cases h : self.GetSporkValue nSporkID = -1
  · simp [h]
  · simp [h]

/-- C6 (as stated, refuted): with no record installed spork 7 has the default 978307200, not
4070908800, and it is active at time 4070908800. -/
theorem spork7_default_is_on :
    (empty "").GetSporkValue Spork.SPORK_7_MASTERNODE_SCANNING = 978307200 ∧
    (empty "").GetSporkValue Spork.SPORK_7_MASTERNODE_SCANNING ≠ 4070908800 ∧
    (4070908800 : Int) ≤ 4070908800 ∧
    (empty "").IsSporkActive { sampleEnv with GetTime := 4070908800 }
      Spork.SPORK_7_MASTERNODE_SCANNING = true := by
  refine ⟨by decide, by decide, by decide, by decide⟩

/-- C6 (amended): `GetSporkValue(id)` returns the value of the active record when one is
installed; with none installed it returns 1000 for spork 5, 978307200 for spork 7 and
4070908800 for sporks 8, 9, 10, 13, 15 and 16, so that each of these six is inactive at any
time `now <= 4070908800`. -/
theorem GetSporkValue_spec (env : Env) (self : CSporkManager) (nSporkID : Int) :
    (∀ m, mapFind self.mapSporksActive nSporkID = some m →
      self.GetSporkValue nSporkID = m.nValue) ∧
    (mapFind self.mapSporksActive nSporkID = none →
      (nSporkID = Spork.SPORK_5_MAX_VALUE → self.GetSporkValue nSporkID = 1000) ∧
      (nSporkID = Spork.SPORK_7_MASTERNODE_SCANNING →
        self.GetSporkValue nSporkID = 978307200) ∧
      (nSporkID ∈ [Spork.SPORK_8_MASTERNODE_PAYMENT_ENFORCEMENT,
          Spork.SPORK_9_MASTERNODE_BUDGET_ENFORCEMENT,
          Spork.SPORK_10_MASTERNODE_PAY_UPDATED_NODES, Spork.SPORK_13_ENABLE_SUPERBLOCKS,
          Spork.SPORK_15_NEW_PROTOCOL_ENFORCEMENT_2, Spork.SPORK_16_CLIENT_COMPAT_MODE] →
        self.GetSporkValue nSporkID = 4070908800 ∧
        (env.GetTime ≤ 4070908800 → self.IsSporkActive env nSporkID = false))) := by
  constructor
  · intro m hm
    simp [GetSporkValue, hm]
  · intro hnone
    refine ⟨?_, ?_, ?_⟩
    · rintro rfl
      simp [GetSporkValue, hnone]; decide
    · rintro rfl
      simp [GetSporkValue, hnone]; decide
    · intro hmem
      have hv : self.GetSporkValue nSporkID = 4070908800 := by
        simp only [List.mem_cons, List.mem_singleton, List.not_mem_nil, or_false] at hmem
        rcases hmem with h | h | h | h | h | h <;> subst h <;>
          simp [GetSporkValue, hnone] <;> decide
      refine ⟨hv, fun hle => ?_⟩
      unfold IsSporkActive
      simp only [hv]
      simp
      omega

/-- Instance of `GetSporkValue_spec`: spork 8 in the empty store at time 1000. -/
theorem GetSporkValue_spec_witness :
    mapFind (empty "").mapSporksActive 10007 = none ∧
    (10007 : Int) ∈ [Spork.SPORK_8_MASTERNODE_PAYMENT_ENFORCEMENT,
          Spork.SPORK_9_MASTERNODE_BUDGET_ENFORCEMENT,
          Spork.SPORK_10_MASTERNODE_PAY_UPDATED_NODES, Spork.SPORK_13_ENABLE_SUPERBLOCKS,
          Spork.SPORK_15_NEW_PROTOCOL_ENFORCEMENT_2, Spork.SPORK_16_CLIENT_COMPAT_MODE] ∧
    sampleEnv.GetTime ≤ 4070908800 ∧
    (empty "").GetSporkValue 10007 = 4070908800 ∧
    (empty "").IsSporkActive sampleEnv 10007 = false :=
  ⟨rfl, by decide, by decide,
    (((GetSporkValue_spec sampleEnv (empty "") 10007).2 rfl).2.2 (by decide)).1,
    (((GetSporkValue_spec sampleEnv (empty "") 10007).2 rfl).2.2 (by decide)).2 (by decide)⟩

end CSporkManager

/-! ### The registry: payment selection and ranks -/

namespace CMasternodeMan

theorem sampleEnvAt_KeepsCollateral (now : Int) : KeepsCollateral (sampleEnvAt now) := by
  constructor
  · intro mn
    simp only [sampleEnvAt]
    split <;> rfl
  · intro mn mnb
    simp only [sampleEnvAt]
    split <;> rfl

/-- Instance of `collateral_unique_reachable` on `sampleOps`, whose run ends with the
entries for collaterals `(1, 0)` and `(4, 0)`. -/
theorem collateral_unique_reachable_witness :
    (∀ eo ∈ sampleOps, KeepsCollateral eo.1) ∧
    ∀ i j : Fin (empty.run sampleOps).vMasternodes.length,
      ((empty.run sampleOps).vMasternodes.get i).vin.prevout =
        ((empty.run sampleOps).vMasternodes.get j).vin.prevout → i = j :=
  ⟨fun eo he => by
      simp only [sampleOps, List.mem_cons, List.mem_singleton, List.not_mem_nil, or_false] at he
      rcases he with h | h | h | h | h | h | h | h <;> subst h <;>
        exact sampleEnvAt_KeepsCollateral _,
   collateral_unique_reachable sampleOps (fun eo he => by
      simp only [sampleOps, List.mem_cons, List.mem_singleton, List.not_mem_nil, or_false] at he
      rcases he with h | h | h | h | h | h | h | h <;> subst h <;>
        exact sampleEnvAt_KeepsCollateral _)⟩

theorem sampleEnvAt_TickIdempotent (now : Int) : TickIdempotent (sampleEnvAt now) := by
  intro mn
  simp only [sampleEnvAt]
  split
  · rfl
  · rename_i hlt
    simp only [hlt, if_false]

theorem map_Check_ticked (env : Env) (hI : TickIdempotent env) (vM : List CMasternode) :
    (vM.map env.Check).map env.Check = vM.map env.Check := by
  rw [List.map_map]
  exact List.map_congr_left fun a _ => hI a

theorem CountEnabled_ticked (env : Env) (hI : TickIdempotent env) (vM : List CMasternode)
    (pv : Int) : CountEnabled env (vM.map env.Check) pv = CountEnabled env vM pv := by
  unfold CountEnabled
  rw [map_Check_ticked env hI]

theorem collectLastPaid_eq (env : Env) (hI : TickIdempotent env) (vM : List CMasternode)
    (h : Int) (f : Bool) :
    collectLastPaid env vM h f =
      ((CountEnabled env vM (-1)).1,
        (vM.map env.Check).filterMap (paymentCandidate env h f (CountEnabled env vM (-1)).1),
        vM.map env.Check) := by
  unfold collectLastPaid
  have : (CountEnabled env vM (-1)).2 = vM.map env.Check := rfl
  simp only [this, map_Check_ticked env hI]

theorem collectLastPaid_ticked (env : Env) (hI : TickIdempotent env) (vM : List CMasternode)
    (h : Int) (f : Bool) :
    collectLastPaid env (vM.map env.Check) h f = collectLastPaid env vM h f := by
  rw [collectLastPaid_eq env hI, collectLastPaid_eq env hI, CountEnabled_ticked env hI,
    map_Check_ticked env hI]

theorem selectBest_of_some (env : Env) (T : List CMasternode) (h : Int) (k : Nat)
    (L : List (Int × CTxIn)) :
    ∀ (cnt nHigh : Nat) (x : CMasternode), selectBest env T h k L cnt nHigh (some x) ≠ none := by
  induction L with
  | nil => intro cnt nHigh x; simp [selectBest]
  | cons s rest ih =>
    intro cnt nHigh x
    unfold selectBest
    split
    · simp
    · rename_i pmn _
      simp only
      by_cases hn : env.CalculateScore pmn 1 (toInt32 (h - 100)) > nHigh
      · simp only [hn, if_true]
        split
        · simp
        · exact ih _ _ _
      · simp only [hn, if_false]
        split
        · simp
        · exact ih _ _ _

theorem selectBest_ne_none (env : Env) (T : List CMasternode) (h : Int) (k cnt : Nat)
    (L : List (Int × CTxIn)) (hL : L ≠ [])
    (hF : ∀ s ∈ L, ∃ pmn, Find T s.2 = some pmn ∧ env.CalculateScore pmn 1 (toInt32 (h - 100)) ≠ 0) :
    selectBest env T h k L cnt 0 none ≠ none := by
  cases L with
  | nil => exact absurd rfl hL
  | cons s rest =>
    obtain ⟨pmn, hfind, hsc⟩ := hF s (List.mem_cons_self _ _)
    unfold selectBest
    simp only [hfind]
    have hpos : env.CalculateScore pmn 1 (toInt32 (h - 100)) > 0 := Nat.pos_of_ne_zero hsc
    simp only [hpos, if_true]
    split
    · simp
    · exact selectBest_of_some env T h k rest _ _ _

theorem Find_of_mem (T : List CMasternode) (mn : CMasternode) (hmem : mn ∈ T) :
    ∃ pmn, pmn ∈ T ∧ Find T mn.vin = some pmn := by
  cases hf : Find T mn.vin with
  | none =>
    have := (Find_eq_none_iff T mn.vin).1 hf mn hmem
    exact absurd rfl this
  | some pmn =>
    exact ⟨pmn, List.mem_of_find?_eq_some hf, rfl⟩

theorem paymentCandidate_snd (env : Env) (h : Int) (f : Bool) (N : Nat) (mn : CMasternode)
    (s : Int × CTxIn) (hs : paymentCandidate env h f N mn = some s) : s.2 = mn.vin := by
  unfold paymentCandidate at hs
  repeat' split at hs
  all_goals cases hs
  rfl

/-- The selection over a non-empty candidate list drawn from the ticked registry returns an
entry when no ticked entry has score zero. -/
theorem pickFromLastPaid_ne_none (env : Env) (hI : TickIdempotent env) (vM : List CMasternode)
    (h : Int) (f : Bool) (N : Nat)
    (hscore : ∀ mn ∈ vM, env.CalculateScore (env.Check mn) 1 (toInt32 (h - 100)) ≠ 0)
    (hne : (vM.map env.Check).filterMap (paymentCandidate env h f N) ≠ []) :
    (pickFromLastPaid env h
      (N, (vM.map env.Check).filterMap (paymentCandidate env h f N), vM.map env.Check)
      ).pBestMasternode ≠ none := by
  unfold pickFromLastPaid
  have hc : (CountEnabled env (vM.map env.Check) (-1)).2 = vM.map env.Check := by
    show (vM.map env.Check).map env.Check = _
    exact map_Check_ticked env hI vM
  simp only [hc]
  apply selectBest_ne_none
  · intro hnil
    have hp := sortHighToLow_perm env.sortTie
      ((vM.map env.Check).filterMap (paymentCandidate env h f N))
    rw [hnil] at hp
    exact hne (List.Perm.nil_eq hp).symm
  · intro s hs
    have hs2 : s ∈ (vM.map env.Check).filterMap (paymentCandidate env h f N) :=
      (sortHighToLow_perm _ _).subset hs
    obtain ⟨mn, hmn, hcand⟩ := List.mem_filterMap.1 hs2
    have hvin := paymentCandidate_snd env h f N mn s hcand
    obtain ⟨pmn, hpm, hfind⟩ := Find_of_mem _ mn hmn
    refine ⟨pmn, by rw [hvin]; exact hfind, ?_⟩
    obtain ⟨m0, hm0, rfl⟩ := List.mem_map.1 hpm
    exact hscore m0 hm0


theorem GetNext_eq (env : Env) (hI : TickIdempotent env) (vM : List CMasternode) (h : Int)
    (f : Bool) :
    GetNextMasternodeInQueueForPayment env vM h f =
      if f && decide ((collectLastPaid env vM h f).2.1.length < (CountEnabled env vM (-1)).1 / 3)
      then pickFromLastPaid env h (collectLastPaid env vM h false)
      else pickFromLastPaid env h (collectLastPaid env vM h f) := by
  unfold GetNextMasternodeInQueueForPayment
  have h1 : (collectLastPaid env vM h f).1 = (CountEnabled env vM (-1)).1 := rfl
  have h2 : (collectLastPaid env vM h f).2.2 = vM.map env.Check := by
    rw [collectLastPaid_eq env hI]
  simp only [h1, h2, collectLastPaid_ticked env hI]

set_option maxRecDepth 100000 in
/-- The too-new test at its threshold: with `CountEnabled() = 3` the product `3 * 2.6 * 60`
is the double `468.00000000000006`, so at adjusted time 468 an entry announced at 0 is too
new (`0 + 468.00000000000006 > 468`), although `0 + 468 > 468` fails; the filtered pass
keeps the two other entries, and the call returns the entry with collateral `(5, 0)` and
`nCount = 2`.  At adjusted time 1000 an entry announced at 532 is not too new: the sum
`532 + 468.00000000000006` rounds to the double 1000. -/
theorem tooNew_at_threshold :
    roundBinary64 (roundBinary64 (3 * 5854679515581645) * 60) = 468 * 2 ^ 51 + 128 ∧
    tooNew 0 3 468 = true ∧
    tooNew 532 3 1000 = false ∧
    (collectLastPaid (sampleEnvAt 468) sampleRegistryThreshold 200 true).2.1 =
      [(1468, ⟨⟨2, 0⟩, [], 0⟩), (2468, ⟨⟨5, 0⟩, [], 0⟩)] ∧
    (GetNextMasternodeInQueueForPayment (sampleEnvAt 468) sampleRegistryThreshold 200
      true).pBestMasternode =
      some (sampleMN 5 MasternodeState.MASTERNODE_ENABLED (-2000) 70000 400) ∧
    (GetNextMasternodeInQueueForPayment (sampleEnvAt 468) sampleRegistryThreshold 200
      true).nCount = 2 := by
  refine ⟨by decide, by decide, by decide, by decide, by decide, by decide⟩

/-- C7 (as stated, refuted): one enabled entry that the payment oracle has scheduled:
`GetNextMasternodeInQueueForPayment(200, true)` returns no masternode while `CountEnabled()`
is 1, before and after the call. -/
theorem GetNext_none_with_enabled :
    (GetNextMasternodeInQueueForPayment sampleEnvScheduled
      [sampleMN 1 MasternodeState.MASTERNODE_ENABLED 0 70000 900] 200 true).pBestMasternode
      = none ∧
    (CountEnabled sampleEnvScheduled
      [sampleMN 1 MasternodeState.MASTERNODE_ENABLED 0 70000 900] (-1)).1 = 1 ∧
    (CountEnabled sampleEnvScheduled
      (GetNextMasternodeInQueueForPayment sampleEnvScheduled
        [sampleMN 1 MasternodeState.MASTERNODE_ENABLED 0 70000 900] 200 true).vMasternodes
      (-1)).1 = 1 := by
  refine ⟨by decide, by decide, by decide⟩

/-- C7 (amended): if `GetNextMasternodeInQueueForPayment(h, true)` returns no masternode,
the tick being idempotent and no entry having score zero, then every entry that is enabled
after its tick with a protocol version of at least the payments minimum is scheduled, or has
fewer than `CountEnabled()` collateral confirmations, or `CountEnabled() < 3` and the entry
is filtered as too new (the test `sigTime + CountEnabled() * 2.6 * 60 > GetAdjustedTime()`
in double precision). -/
theorem GetNext_none_only_if (env : Env) (vM : List CMasternode) (h : Int)
    (hI : TickIdempotent env)
    (hscore : ∀ mn ∈ vM, env.CalculateScore (env.Check mn) 1 (toInt32 (h - 100)) ≠ 0)
    (hnone : (GetNextMasternodeInQueueForPayment env vM h true).pBestMasternode = none) :
    ∀ mn ∈ vM, (env.Check mn).IsEnabled = true →
      env.GetMinMasternodePaymentsProto ≤ (env.Check mn).protocolVersion →
      env.IsScheduled (env.Check mn) h = true ∨
      env.GetMasternodeInputAge (env.Check mn) < ((CountEnabled env vM (-1)).1 : Int) ∨
      ((CountEnabled env vM (-1)).1 < 3 ∧
        tooNew (env.Check mn).sigTime (CountEnabled env vM (-1)).1 env.GetAdjustedTime
          = true) := by
  intro mn hmn hen hproto
  rw [GetNext_eq env hI] at hnone
  have hmem : env.Check mn ∈ vM.map env.Check := List.mem_map_of_mem _ hmn
  -- candidates of a pass are empty when the pick from it is none
  have empty_of_none : ∀ f : Bool,
      (pickFromLastPaid env h (collectLastPaid env vM h f)).pBestMasternode = none →
      paymentCandidate env h f (CountEnabled env vM (-1)).1 (env.Check mn) = none := by
    intro f hp
    rw [collectLastPaid_eq env hI] at hp
    by_contra hc
    apply pickFromLastPaid_ne_none env hI vM h f _ hscore _ hp
    intro hnil
    obtain ⟨s, hs⟩ := Option.ne_none_iff_exists'.1 hc
    have : s ∈ (vM.map env.Check).filterMap
        (paymentCandidate env h f (CountEnabled env vM (-1)).1) :=
      List.mem_filterMap.2 ⟨_, hmem, hs⟩
    rw [hnil] at this
    exact List.not_mem_nil _ this
  by_cases hfb : (collectLastPaid env vM h true).2.1.length < (CountEnabled env vM (-1)).1 / 3
  · simp only [hfb, decide_True, Bool.and_self, if_true] at hnone
    have hc := empty_of_none false hnone
    unfold paymentCandidate at hc
    simp only [hen, Bool.not_true, Bool.false_eq_true, if_false, not_lt.2 hproto,
      Bool.false_and] at hc
    by_cases hsch : env.IsScheduled (env.Check mn) h = true
    · exact Or.inl hsch
    · simp only [hsch, if_false] at hc
      by_cases hage : env.GetMasternodeInputAge (env.Check mn)
          < ((CountEnabled env vM (-1)).1 : Int)
      · exact Or.inr (Or.inl hage)
      · simp [hage] at hc
  · simp only [hfb, decide_False, Bool.and_false, Bool.false_eq_true, if_false] at hnone
    have hc := empty_of_none true hnone
    -- the filtered candidate list is empty, so CountEnabled() / 3 = 0
    have hlen : (collectLastPaid env vM h true).2.1 = [] := by
      rw [collectLastPaid_eq env hI] at hnone ⊢
      by_contra hne
      exact pickFromLastPaid_ne_none env hI vM h true _ hscore hne hnone
    rw [hlen] at hfb
    have hN : (CountEnabled env vM (-1)).1 < 3 := by
      simp only [List.length_nil] at hfb
      omega
    unfold paymentCandidate at hc
    simp only [hen, Bool.not_true, Bool.false_eq_true, if_false, not_lt.2 hproto,
      Bool.true_and] at hc
    by_cases hsch : env.IsScheduled (env.Check mn) h = true
    · exact Or.inl hsch
    · simp only [hsch, if_false] at hc
      by_cases hnew : tooNew (env.Check mn).sigTime (CountEnabled env vM (-1)).1
          env.GetAdjustedTime = true
      · exact Or.inr (Or.inr ⟨hN, hnew⟩)
      · simp only [hnew, Bool.false_eq_true, if_false] at hc
        by_cases hage : env.GetMasternodeInputAge (env.Check mn)
            < ((CountEnabled env vM (-1)).1 : Int)
        · exact Or.inr (Or.inl hage)
        · simp [hage] at hc

/-- Instance of `GetNext_none_only_if`: the single enabled entry is scheduled. -/
theorem GetNext_none_only_if_witness :
    TickIdempotent sampleEnvScheduled ∧
    (∀ mn ∈ [sampleMN 1 MasternodeState.MASTERNODE_ENABLED 0 70000 900],
      sampleEnvScheduled.CalculateScore (sampleEnvScheduled.Check mn) 1 (toInt32 (200 - 100)) ≠ 0) ∧
    (GetNextMasternodeInQueueForPayment sampleEnvScheduled
      [sampleMN 1 MasternodeState.MASTERNODE_ENABLED 0 70000 900] 200 true).pBestMasternode
      = none ∧
    (sampleEnvScheduled.IsScheduled
        (sampleEnvScheduled.Check (sampleMN 1 MasternodeState.MASTERNODE_ENABLED 0 70000 900))
        200 = true ∨
      sampleEnvScheduled.GetMasternodeInputAge
        (sampleEnvScheduled.Check (sampleMN 1 MasternodeState.MASTERNODE_ENABLED 0 70000 900))
        < ((CountEnabled sampleEnvScheduled
            [sampleMN 1 MasternodeState.MASTERNODE_ENABLED 0 70000 900] (-1)).1 : Int) ∨
      ((CountEnabled sampleEnvScheduled
          [sampleMN 1 MasternodeState.MASTERNODE_ENABLED 0 70000 900] (-1)).1 < 3 ∧
        tooNew
          (sampleEnvScheduled.Check
            (sampleMN 1 MasternodeState.MASTERNODE_ENABLED 0 70000 900)).sigTime
          (CountEnabled sampleEnvScheduled
            [sampleMN 1 MasternodeState.MASTERNODE_ENABLED 0 70000 900] (-1)).1
          sampleEnvScheduled.GetAdjustedTime = true)) :=
  ⟨sampleEnvAt_TickIdempotent 1000, by decide, by decide,
    GetNext_none_only_if sampleEnvScheduled
      [sampleMN 1 MasternodeState.MASTERNODE_ENABLED 0 70000 900] 200
      (sampleEnvAt_TickIdempotent 1000) (by decide) (by decide)
      (sampleMN 1 MasternodeState.MASTERNODE_ENABLED 0 70000 900) (by decide) (by decide)
      (by decide)⟩

/-- C8: evaluation at the failing input.  Payment enforcement (spork 8) is on; entry A
(collateral `(1, 0)`) is 10000 seconds old, entry B (collateral `(5, 0)`) is 1000 seconds old
and has the higher score.  `GetMasternodeRank` skips B as too young and ranks A first, while
`GetMasternodeByRank(1)`, which has no age test, returns B. -/
theorem byRank_of_rank_mismatch :
    sampleSporkOn.IsSporkActive (sampleEnvAt 10000)
      Spork.SPORK_8_MASTERNODE_PAYMENT_ENFORCEMENT = true ∧
    (GetMasternodeRank (sampleEnvAt 10000) sampleSporkOn
      [sampleMN 1 MasternodeState.MASTERNODE_ENABLED 0 70000 9900,
       sampleMN 5 MasternodeState.MASTERNODE_ENABLED 9000 70000 9900]
      (sampleMN 1 MasternodeState.MASTERNODE_ENABLED 0 70000 9900).vin 200 70000 true).1 = 1 ∧
    (GetMasternodeByRank (sampleEnvAt 10000)
      [sampleMN 1 MasternodeState.MASTERNODE_ENABLED 0 70000 9900,
       sampleMN 5 MasternodeState.MASTERNODE_ENABLED 9000 70000 9900]
      1 200 70000 true).1 = some (sampleMN 5 MasternodeState.MASTERNODE_ENABLED 9000 70000 9900) ∧
    (sampleMN 5 MasternodeState.MASTERNODE_ENABLED 9000 70000 9900).vin.prevout ≠
      (sampleMN 1 MasternodeState.MASTERNODE_ENABLED 0 70000 9900).vin.prevout := by
  refine ⟨by decide, by decide, by decide, by decide⟩

theorem rankScan_eq_byRankScan (env : Env) (sporkManager : CSporkManager)
    (h minProtocol : Int) (fOnlyActive : Bool)
    (hoff : sporkManager.IsSporkActive env Spork.SPORK_8_MASTERNODE_PAYMENT_ENFORCEMENT = false)
    (l : List CMasternode) :
    rankScan env sporkManager h minProtocol fOnlyActive l =
      byRankScan env h minProtocol fOnlyActive l := by
  induction l with
  | nil => rfl
  | cons mn rest ih =>
    unfold rankScan byRankScan
    rw [ih]
    simp [hoff]

theorem byRankScan_mem (env : Env) (h minProtocol : Int) (fOnlyActive : Bool)
    (l : List CMasternode) :
    ∀ s ∈ (byRankScan env h minProtocol fOnlyActive l).1,
      ∃ m ∈ (byRankScan env h minProtocol fOnlyActive l).2, s.2 = m.vin := by
  induction l with
  | nil => intro s hs; simp [byRankScan] at hs
  | cons mn rest ih =>
    intro s hs
    unfold byRankScan at hs ⊢
    simp only at hs ⊢
    by_cases hp : mn.protocolVersion < minProtocol
    · rw [if_pos hp] at hs ⊢
      obtain ⟨m, hm, e⟩ := ih s hs
      exact ⟨m, List.mem_cons_of_mem _ hm, e⟩
    · rw [if_neg hp] at hs ⊢
      generalize (if fOnlyActive = true then env.Check mn else mn) = mn1 at hs ⊢
      by_cases hc : (fOnlyActive && !mn1.IsEnabled) = true
      · rw [if_pos hc] at hs ⊢
        obtain ⟨m, hm, e⟩ := ih s hs
        exact ⟨m, List.mem_cons_of_mem _ hm, e⟩
      · rw [if_neg hc] at hs ⊢
        rcases List.mem_cons.1 hs with rfl | hs1
        · exact ⟨_, List.mem_cons_self _ _, rfl⟩
        · obtain ⟨m, hm, e⟩ := ih s hs1
          exact ⟨m, List.mem_cons_of_mem _ hm, e⟩

theorem rankOf_range (vin : CTxIn) (L : List (Int × CTxIn)) :
    ∀ k : Int, rankOf vin L k = -1 ∨ k < rankOf vin L k := by
  induction L with
  | nil => intro k; exact Or.inl rfl
  | cons s rest ih =>
    intro k
    unfold rankOf
    split
    · exact Or.inr (by omega)
    · rcases ih (k + 1) with h | h
      · exact Or.inl h
      · exact Or.inr (by omega)

theorem atRank_of_rankOf (vin : CTxIn) (L : List (Int × CTxIn)) :
    ∀ k r : Int, 0 ≤ k → rankOf vin L k = r → k < r →
      ∃ s, atRank r L k = some s ∧ s ∈ L ∧ s.2.prevout = vin.prevout := by
  induction L with
  | nil =>
    intro k r hk hr hlt
    simp only [rankOf] at hr
    omega
  | cons s rest ih =>
    intro k r hk hr hlt
    unfold rankOf at hr
    unfold atRank
    split at hr
    · rename_i hp
      rw [if_pos hr]
      exact ⟨s, rfl, List.mem_cons_self _ _, hp⟩
    · have hlt2 : k + 1 < r := by
        rcases rankOf_range vin rest (k + 1) with h1 | h1
        · rw [h1] at hr; omega
        · rw [hr] at h1; exact h1
      rw [if_neg (by omega)]
      obtain ⟨t, ht, hmem, hp⟩ := ih (k + 1) r (by omega) hr hlt2
      exact ⟨t, ht, List.mem_cons_of_mem _ hmem, hp⟩

/-- With payment enforcement (spork 8) off the two functions scan alike: whenever
`GetMasternodeRank(v, h, minProtocol, fOnlyActive)` returns a positive rank `r`,
`GetMasternodeByRank(r, h, minProtocol, fOnlyActive)` on the same registry returns an entry
with the collateral outpoint of `v`. -/
theorem byRank_of_rank_enforcement_off (env : Env) (sporkManager : CSporkManager)
    (vM : List CMasternode) (vin : CTxIn) (h minProtocol : Int) (fOnlyActive : Bool)
    (hoff : sporkManager.IsSporkActive env Spork.SPORK_8_MASTERNODE_PAYMENT_ENFORCEMENT = false)
    (hpos : 0 < (GetMasternodeRank env sporkManager vM vin h minProtocol fOnlyActive).1) :
    ∃ e, (GetMasternodeByRank env vM
        (GetMasternodeRank env sporkManager vM vin h minProtocol fOnlyActive).1 h minProtocol
        fOnlyActive).1 = some e ∧ e.vin.prevout = vin.prevout := by
  unfold GetMasternodeRank at hpos ⊢
  split at hpos
  · simp at hpos
  · simp only at hpos ⊢
    rw [rankScan_eq_byRankScan env sporkManager h minProtocol fOnlyActive hoff] at hpos ⊢
    obtain ⟨s, hs, hmem, hp⟩ := atRank_of_rankOf vin _ 0 _ (le_refl 0) rfl hpos
    unfold GetMasternodeByRank
    simp only [hs]
    have hmem2 : s ∈ (byRankScan env h minProtocol fOnlyActive vM).1 :=
      (sortHighToLow_perm _ _).subset hmem
    obtain ⟨m, hm, e⟩ := byRankScan_mem env h minProtocol fOnlyActive vM s hmem2
    cases hf : Find (byRankScan env h minProtocol fOnlyActive vM).2 s.2 with
    | none =>
      have := (Find_eq_none_iff _ _).1 hf m hm
      rw [e] at this
      exact absurd rfl this
    | some pmn =>
      refine ⟨pmn, rfl, ?_⟩
      have := List.find?_some hf
      rw [← hp]
      simpa using this

/-- Instance of `byRank_of_rank_enforcement_off`: the two entries of the failing input of
C8 with an empty spork store. -/
theorem byRank_of_rank_enforcement_off_witness :
    (CSporkManager.empty "").IsSporkActive (sampleEnvAt 10000)
      Spork.SPORK_8_MASTERNODE_PAYMENT_ENFORCEMENT = false ∧
    0 < (GetMasternodeRank (sampleEnvAt 10000) (CSporkManager.empty "")
      [sampleMN 1 MasternodeState.MASTERNODE_ENABLED 0 70000 9900,
       sampleMN 5 MasternodeState.MASTERNODE_ENABLED 9000 70000 9900]
      (sampleMN 1 MasternodeState.MASTERNODE_ENABLED 0 70000 9900).vin 200 70000 true).1 ∧
    ∃ e, (GetMasternodeByRank (sampleEnvAt 10000)
      [sampleMN 1 MasternodeState.MASTERNODE_ENABLED 0 70000 9900,
       sampleMN 5 MasternodeState.MASTERNODE_ENABLED 9000 70000 9900]
      (GetMasternodeRank (sampleEnvAt 10000) (CSporkManager.empty "")
        [sampleMN 1 MasternodeState.MASTERNODE_ENABLED 0 70000 9900,
         sampleMN 5 MasternodeState.MASTERNODE_ENABLED 9000 70000 9900]
        (sampleMN 1 MasternodeState.MASTERNODE_ENABLED 0 70000 9900).vin 200 70000 true).1
      200 70000 true).1 = some e ∧
      e.vin.prevout = (sampleMN 1 MasternodeState.MASTERNODE_ENABLED 0 70000 9900).vin.prevout :=
  ⟨by decide, by decide,
    byRank_of_rank_enforcement_off (sampleEnvAt 10000) (CSporkManager.empty "") _ _ 200 70000
      true (by decide) (by decide)⟩

/-- C9: when `GetBlockHash` fails for the requested height, `GetMasternodeRank` returns `-1`
for every target and `GetMasternodeRanks` returns the empty list, for every registry, which
both leave untouched. -/
theorem unknown_block_sentinels (env : Env) (vM : List CMasternode) (h : Int)
    (hb : env.GetBlockHash h = none) :
    (∀ (sporkManager : CSporkManager) (vin : CTxIn) (minProtocol : Int) (fOnlyActive : Bool),
      GetMasternodeRank env sporkManager vM vin h minProtocol fOnlyActive = (-1, vM)) ∧
    (∀ minProtocol : Int, GetMasternodeRanks env vM h minProtocol = ([], vM)) := by
  constructor
  · intro sm vin mp f
    simp [GetMasternodeRank, hb]
  · intro mp
    simp [GetMasternodeRanks, hb]

/-- Instance of `unknown_block_sentinels`: height 501 is unknown to the sample chain. -/
theorem unknown_block_sentinels_witness :
    sampleEnv.GetBlockHash 501 = none ∧
    (GetMasternodeRank sampleEnv (CSporkManager.empty "") sampleRegistry30
      ⟨⟨3, 0⟩, [], 0⟩ 501 70000 true).1 = -1 ∧
    (GetMasternodeRanks sampleEnv sampleRegistry30 501 70000).1 = [] :=
  ⟨by decide,
   by rw [(unknown_block_sentinels sampleEnv sampleRegistry30 501 (by decide)).1],
   by rw [(unknown_block_sentinels sampleEnv sampleRegistry30 501 (by decide)).2]⟩

set_option maxRecDepth 100000 in
/-- C10 (as stated, refuted): thirty enabled entries signed at the current time, none
scheduled, each with 100 confirmations; the filtered pass keeps no candidate, the call falls
back to the unfiltered pass, and with every score equal to zero it returns no masternode. -/
theorem GetNext_thirty_zero_score :
    sampleRegistry30.length = 30 ∧
    (CountEnabled sampleEnvZeroScore sampleRegistry30 (-1)).1 = 30 ∧
    (∀ mn ∈ sampleRegistry30, mn.IsEnabled = true ∧
      (sampleEnvZeroScore.Check mn).IsEnabled = true ∧
      mn.sigTime = sampleEnvZeroScore.GetAdjustedTime ∧
      sampleEnvZeroScore.IsScheduled mn 200 = false ∧
      30 ≤ sampleEnvZeroScore.GetMasternodeInputAge mn) ∧
    (collectLastPaid sampleEnvZeroScore sampleRegistry30 200 true).2.1.length < 10 ∧
    (GetNextMasternodeInQueueForPayment sampleEnvZeroScore sampleRegistry30 200
      true).pBestMasternode = none := by
  refine ⟨by decide, by decide, by decide, by decide, by decide⟩

/-- C10 (amended): with an idempotent tick, whenever the filtered pass keeps fewer than
`CountEnabled() / 3` candidates the call with `fFilterSigTime = true` returns what the call
with `fFilterSigTime = false` returns; and for a registry of 30 entries that after their
tick are enabled at the payments protocol, have `sigTime` equal to the adjusted time, are
not scheduled, have at least 30 confirmations and a non-zero score, `CountEnabled()` is 30,
the filtered pass keeps fewer than 10 candidates (in the double-precision test
`sigTime + 30 * 2.6 * 60 > GetAdjustedTime()` every entry is too new) and the call returns
an entry. -/
theorem GetNext_fallback (env : Env) (vM : List CMasternode) (h : Int)
    (hI : TickIdempotent env) :
    ((collectLastPaid env vM h true).2.1.length < (CountEnabled env vM (-1)).1 / 3 →
      GetNextMasternodeInQueueForPayment env vM h true =
        GetNextMasternodeInQueueForPayment env vM h false) ∧
    (vM.length = 30 →
      (∀ mn ∈ vM, (env.Check mn).IsEnabled = true ∧
        env.GetMinMasternodePaymentsProto ≤ (env.Check mn).protocolVersion ∧
        (env.Check mn).sigTime = env.GetAdjustedTime ∧
        env.IsScheduled (env.Check mn) h = false ∧
        30 ≤ env.GetMasternodeInputAge (env.Check mn) ∧
        env.CalculateScore (env.Check mn) 1 (toInt32 (h - 100)) ≠ 0) →
      (CountEnabled env vM (-1)).1 = 30 ∧
      (collectLastPaid env vM h true).2.1.length < 10 ∧
      (GetNextMasternodeInQueueForPayment env vM h true).pBestMasternode ≠ none) := by
  constructor
  · intro hlt
    rw [GetNext_eq env hI, GetNext_eq env hI]
    simp [hlt]
  · intro hlen hall
    have hall2 : ∀ m ∈ vM.map env.Check, m.IsEnabled = true ∧
        env.GetMinMasternodePaymentsProto ≤ m.protocolVersion ∧
        m.sigTime = env.GetAdjustedTime ∧ env.IsScheduled m h = false ∧
        30 ≤ env.GetMasternodeInputAge m := by
      intro m hm
      obtain ⟨m0, hm0, rfl⟩ := List.mem_map.1 hm
      obtain ⟨a, b, c, d, e, _⟩ := hall m0 hm0
      exact ⟨a, b, c, d, e⟩
    have hN : (CountEnabled env vM (-1)).1 = 30 := by
      unfold CountEnabled
      simp only [if_true]
      rw [List.filter_length_eq_length.2, List.length_map, hlen]
      intro m hm
      obtain ⟨a, b, _⟩ := hall2 m hm
      simp [a, not_lt.2 b]
    have htrue : (collectLastPaid env vM h true).2.1 = [] := by
      rw [collectLastPaid_eq env hI, hN]
      simp only
      rw [List.filterMap_eq_nil_iff]
      intro m hm
      obtain ⟨a, b, c, d, _⟩ := hall2 m hm
      unfold paymentCandidate
      simp [a, not_lt.2 b, d, c, tooNew_thirty]
    refine ⟨hN, by rw [htrue]; simp, ?_⟩
    rw [GetNext_eq env hI, htrue, hN]
    simp only [List.length_nil]
    have : (0 : Nat) < 30 / 3 := by decide
    simp only [this, decide_True, Bool.and_self, if_true]
    rw [collectLastPaid_eq env hI]
    apply pickFromLastPaid_ne_none env hI vM h false _ (fun mn hmn => (hall mn hmn).2.2.2.2.2)
    intro hnil
    rw [List.filterMap_eq_nil_iff] at hnil
    have hpos : 0 < vM.length := by omega
    obtain ⟨m0, hm0⟩ := List.exists_mem_of_length_pos hpos
    have := hnil (env.Check m0) (List.mem_map_of_mem _ hm0)
    obtain ⟨a, b, c, d, e⟩ := hall2 _ (List.mem_map_of_mem _ hm0)
    rw [hN] at this
    unfold paymentCandidate at this
    simp [a, not_lt.2 b, d, not_lt.2 e] at this

set_option maxRecDepth 100000 in
/-- Instance of `GetNext_fallback` on `sampleRegistry30`. -/
theorem GetNext_fallback_witness :
    TickIdempotent sampleEnv ∧
    (collectLastPaid sampleEnv sampleRegistry30 200 true).2.1.length
      < (CountEnabled sampleEnv sampleRegistry30 (-1)).1 / 3 ∧
    sampleRegistry30.length = 30 ∧
    (∀ mn ∈ sampleRegistry30, (sampleEnv.Check mn).IsEnabled = true ∧
      sampleEnv.GetMinMasternodePaymentsProto ≤ (sampleEnv.Check mn).protocolVersion ∧
      (sampleEnv.Check mn).sigTime = sampleEnv.GetAdjustedTime ∧
      sampleEnv.IsScheduled (sampleEnv.Check mn) 200 = false ∧
      30 ≤ sampleEnv.GetMasternodeInputAge (sampleEnv.Check mn) ∧
      sampleEnv.CalculateScore (sampleEnv.Check mn) 1 (toInt32 (200 - 100)) ≠ 0) ∧
    GetNextMasternodeInQueueForPayment sampleEnv sampleRegistry30 200 true =
      GetNextMasternodeInQueueForPayment sampleEnv sampleRegistry30 200 false ∧
    (GetNextMasternodeInQueueForPayment sampleEnv sampleRegistry30 200 true).pBestMasternode
      ≠ none :=
  ⟨sampleEnvAt_TickIdempotent 1000, by decide, by decide, by decide,
    (GetNext_fallback sampleEnv sampleRegistry30 200 (sampleEnvAt_TickIdempotent 1000)).1
      (by decide),
    ((GetNext_fallback sampleEnv sampleRegistry30 200 (sampleEnvAt_TickIdempotent 1000)).2
      (by decide) (by decide)).2.2⟩

end CMasternodeMan

/-! ### The sweep `CheckAndRemove` -/

namespace CMasternodeMan

theorem sweepEntries_seen_subset (env : Env) (force : Bool) (l : List CMasternode)
    (seen : List (Nat × CMasternodeBroadcast)) (asked : List (COutPoint × Int)) :
    ∀ e ∈ (sweepEntries env force l seen asked).2.1, e ∈ seen := by
  induction l generalizing seen asked with
  | nil => intro e he; simpa [sweepEntries] using he
  | cons mn rest ih =>
    intro e he
    unfold sweepEntries at he
    split at he
    · have := ih _ _ e he
      exact (List.mem_filter.1 this).1
    · exact ih _ _ e he

/-- C11: after `CheckAndRemove(forceExpiredRemoval)` the registry holds exactly the entries
that after their tick are not in state REMOVE, not in state VIN_SPENT, not in state EXPIRED
when `forceExpiredRemoval` is set, and have `protocolVersion` at least the minimum payments
protocol; they stand in their original relative order (a sublist of the ticked vector). -/
theorem CheckAndRemove_entries (env : Env) (self : CMasternodeMan) (forceExpiredRemoval : Bool) :
    (self.CheckAndRemove env forceExpiredRemoval).vMasternodes =
      (self.vMasternodes.map env.Check).filter (fun mn =>
        decide (mn.activeState ≠ MasternodeState.MASTERNODE_REMOVE ∧
          mn.activeState ≠ MasternodeState.MASTERNODE_VIN_SPENT ∧
          (forceExpiredRemoval = true →
            mn.activeState ≠ MasternodeState.MASTERNODE_EXPIRED) ∧
          env.GetMinMasternodePaymentsProto ≤ mn.protocolVersion)) ∧
    List.Sublist (self.CheckAndRemove env forceExpiredRemoval).vMasternodes
      (self.vMasternodes.map env.Check) := by
  have h1 : (self.CheckAndRemove env forceExpiredRemoval).vMasternodes =
      (self.vMasternodes.map env.Check).filter
        fun mn => !isSwept env forceExpiredRemoval mn := by
    simp only [CheckAndRemove, sweepEntries_fst, Check]
  constructor
  · rw [h1]
    apply List.filter_congr
    intro mn _
    have hlt : (!decide (mn.protocolVersion < env.GetMinMasternodePaymentsProto)) =
        decide (env.GetMinMasternodePaymentsProto ≤ mn.protocolVersion) := by
      by_cases h : mn.protocolVersion < env.GetMinMasternodePaymentsProto
      · simp [h, not_le.2 h]
      · simp [h, not_lt.1 h]
    cases forceExpiredRemoval <;> simp [isSwept, not_or, hlt, Bool.and_assoc]
  · rw [h1]
    exact List.filter_sublist _

/-- C12 (as stated, refuted): at time 100000 (bound 84400) a seen broadcast announced with
`sigTime = 0` whose last ping is signed at 99900 stays in the cache after the sweep. -/
theorem CheckAndRemove_keeps_old_broadcast :
    (sampleSeenOld.CheckAndRemove (sampleEnvAt 100000) true).mapSeenMasternodeBroadcast =
      [(1, { sampleMNB 1 0 with lastPing := samplePing 1 99900 })] ∧
    ({ sampleMNB 1 0 with lastPing := samplePing 1 99900 } : CMasternodeBroadcast).sigTime <
      (sampleEnvAt 100000).GetTime - 2 * (sampleEnvAt 100000).MASTERNODE_REMOVAL_SECONDS := by
  refine ⟨by decide, by decide⟩

/-- C12 (amended): after every `CheckAndRemove` at time `GetTime()`, each broadcast left in
the seen-broadcast cache was there before and its `lastPing.sigTime` is not less than
`GetTime() - 2 * MASTERNODE_REMOVAL_SECONDS`; each ping left in the seen-ping cache was
there before and its `sigTime` is not less than that bound. -/
theorem CheckAndRemove_seen_fresh (env : Env) (self : CMasternodeMan)
    (forceExpiredRemoval : Bool) :
    (∀ e ∈ (self.CheckAndRemove env forceExpiredRemoval).mapSeenMasternodeBroadcast,
      e ∈ self.mapSeenMasternodeBroadcast ∧
      ¬ e.2.lastPing.sigTime < env.GetTime - env.MASTERNODE_REMOVAL_SECONDS * 2) ∧
    (∀ e ∈ (self.CheckAndRemove env forceExpiredRemoval).mapSeenMasternodePing,
      e ∈ self.mapSeenMasternodePing ∧
      ¬ e.2.sigTime < env.GetTime - env.MASTERNODE_REMOVAL_SECONDS * 2) := by
  constructor
  · intro e he
    simp only [CheckAndRemove, mapEraseIf, Check, List.mem_filter, Bool.not_eq_true',
      decide_eq_false_iff_not] at he
    exact ⟨sweepEntries_seen_subset _ _ _ _ _ e he.1, he.2⟩
  · intro e he
    simp only [CheckAndRemove, mapEraseIf, Check, List.mem_filter, Bool.not_eq_true',
      decide_eq_false_iff_not] at he
    exact he

end CMasternodeMan

/-! ### The message handler -/

namespace CMasternodeMan

/-- C16: while the blockchain is not synced, `ProcessMessage` for every command and every
payload leaves the whole registry object (entries, both seen caches, the three throttle
maps) unchanged and makes no call on the peer, the sync coordinator or the misbehaviour
tracker. -/
theorem ProcessMessage_not_synced (env : MsgEnv) (self : CMasternodeMan) (pfrom : CNode)
    (strCommand : String) (vRecv : CDataStream) (hsync : env.IsBlockchainSynced = false) :
    ProcessMessage env self pfrom strCommand vRecv = (self, []) := by
  unfold ProcessMessage
  rw [hsync]
  rfl

/-- Instance of `ProcessMessage_not_synced`: a broadcast and a full-list request while
unsynced. -/
theorem ProcessMessage_not_synced_witness :
    (sampleMsgEnvUnsynced 1000).IsBlockchainSynced = false ∧
    ProcessMessage (sampleMsgEnvUnsynced 1000) sampleMan samplePeer NetMsgType.MNBROADCAST
      (sampleStreamMNB (sampleMNB 5 10)) = (sampleMan, []) ∧
    ProcessMessage (sampleMsgEnvUnsynced 1000) sampleMan samplePeer NetMsgType.DSEG
      sampleDsegAll = (sampleMan, []) :=
  ⟨rfl,
    ProcessMessage_not_synced (sampleMsgEnvUnsynced 1000) sampleMan samplePeer
      NetMsgType.MNBROADCAST (sampleStreamMNB (sampleMNB 5 10)) rfl,
    ProcessMessage_not_synced (sampleMsgEnvUnsynced 1000) sampleMan samplePeer
      NetMsgType.DSEG sampleDsegAll rfl⟩

theorem ProcessMessage_mnb (env : MsgEnv) (self : CMasternodeMan) (pfrom : CNode)
    (vRecv : CDataStream) (mnb : CMasternodeBroadcast)
    (hsync : env.IsBlockchainSynced = true) (hread : vRecv.asMNB = some mnb) :
    ProcessMessage env self pfrom NetMsgType.MNBROADCAST vRecv =
      processMNB env self pfrom mnb := by
  simp [ProcessMessage, hsync, hread]

/-- C15: for an MNBROADCAST whose hash is in the seen-broadcast cache, `ProcessMessage`
calls `AddedMasternodeList` with that hash and does nothing else: the registry object is
unchanged as a whole, no peer is scored, and so `CountEnabled()` is what it was. -/
theorem ProcessMessage_seen_mnb (env : MsgEnv) (self : CMasternodeMan) (pfrom : CNode)
    (vRecv : CDataStream) (mnb : CMasternodeBroadcast)
    (hsync : env.IsBlockchainSynced = true) (hread : vRecv.asMNB = some mnb)
    (hseen : mapCount self.mapSeenMasternodeBroadcast (env.mnbHash mnb) = true) :
    ProcessMessage env self pfrom NetMsgType.MNBROADCAST vRecv =
      (self, [NetEvent.AddedMasternodeList (env.mnbHash mnb)]) ∧
    (CountEnabled env.toEnv
      (ProcessMessage env self pfrom NetMsgType.MNBROADCAST vRecv).1.vMasternodes (-1)).1 =
      (CountEnabled env.toEnv self.vMasternodes (-1)).1 := by
  have h : ProcessMessage env self pfrom NetMsgType.MNBROADCAST vRecv =
      (self, [NetEvent.AddedMasternodeList (env.mnbHash mnb)]) := by
    rw [ProcessMessage_mnb env self pfrom vRecv mnb hsync hread]
    simp [processMNB, hseen]
  exact ⟨h, by rw [h]⟩

/-- Instance of `ProcessMessage_seen_mnb`: the first feed of a valid broadcast raises the
enabled count from 2 to 3 and leaves its hash in the cache; the second feed leaves it at 3. -/
theorem ProcessMessage_seen_mnb_witness :
    (sampleMsgEnvAt 1000).IsBlockchainSynced = true ∧
    (CountEnabled (sampleEnvAt 1000) sampleMan.vMasternodes (-1)).1 = 2 ∧
    (CountEnabled (sampleEnvAt 1000)
      (ProcessMessage (sampleMsgEnvAt 1000) sampleMan samplePeer NetMsgType.MNBROADCAST
        (sampleStreamMNB (sampleMNB 5 10))).1.vMasternodes (-1)).1 = 3 ∧
    mapCount (ProcessMessage (sampleMsgEnvAt 1000) sampleMan samplePeer NetMsgType.MNBROADCAST
        (sampleStreamMNB (sampleMNB 5 10))).1.mapSeenMasternodeBroadcast
      ((sampleMsgEnvAt 1000).mnbHash (sampleMNB 5 10)) = true ∧
    (CountEnabled (sampleEnvAt 1000)
      (ProcessMessage (sampleMsgEnvAt 1000)
        (ProcessMessage (sampleMsgEnvAt 1000) sampleMan samplePeer NetMsgType.MNBROADCAST
          (sampleStreamMNB (sampleMNB 5 10))).1
        samplePeer NetMsgType.MNBROADCAST (sampleStreamMNB (sampleMNB 5 10))).1.vMasternodes
      (-1)).1 = 3 :=
  ⟨rfl, by decide, by decide, by decide,
    ((ProcessMessage_seen_mnb (sampleMsgEnvAt 1000)
      (ProcessMessage (sampleMsgEnvAt 1000) sampleMan samplePeer NetMsgType.MNBROADCAST
        (sampleStreamMNB (sampleMNB 5 10))).1
      samplePeer (sampleStreamMNB (sampleMNB 5 10)) (sampleMNB 5 10) rfl rfl
      (by decide)).2).trans (by decide)⟩

theorem dsegWalk_events (env : MsgEnv) (pfrom : CNode) (vin : CTxIn) (l : List CMasternode) :
    ∀ (seen : List (Nat × CMasternodeBroadcast)) (n : Int),
      ∀ ev ∈ (dsegWalk env pfrom vin l seen n).2.2.1,
        ∃ hash, ev = NetEvent.PushInventory pfrom.id hash := by
  induction l with
  | nil => intro seen n ev hev; simp [dsegWalk] at hev
  | cons mn rest ih =>
    intro seen n ev hev
    unfold dsegWalk at hev
    split at hev
    · exact ih _ _ ev hev
    · split at hev
      · split at hev
        · simp only [List.mem_singleton] at hev
          exact ⟨_, hev⟩
        · simp only [List.mem_cons] at hev
          rcases hev with h | h
          · exact ⟨_, h⟩
          · exact ih _ _ ev h
      · exact ih _ _ ev hev

/-- The walk for a full-list request over a registry without an entry carrying the empty
input: every enabled entry off the private ranges is advertised, in registry order, and the
walk runs to the end. -/
theorem dsegWalk_full (env : MsgEnv) (pfrom : CNode) (l : List CMasternode)
    (hnn : ∀ mn ∈ l, mn.vin ≠ env.nullVin) :
    ∀ (seen : List (Nat × CMasternodeBroadcast)) (n : Int),
      (dsegWalk env pfrom env.nullVin l seen n).2.2.1 =
        (l.filter fun mn => !env.IsRFC1918 mn.addr && mn.IsEnabled).map
          (fun mn => NetEvent.PushInventory pfrom.id (env.mnbHash (env.toBroadcast mn))) ∧
      (dsegWalk env pfrom env.nullVin l seen n).2.1 =
        n + ((l.filter fun mn => !env.IsRFC1918 mn.addr && mn.IsEnabled).length : Int) ∧
      (dsegWalk env pfrom env.nullVin l seen n).2.2.2 = false := by
  induction l with
  | nil => intro seen n; simp [dsegWalk]
  | cons mn rest ih =>
    intro seen n
    have hrest : ∀ m ∈ rest, m.vin ≠ env.nullVin :=
      fun m hm => hnn m (List.mem_cons_of_mem _ hm)
    have hmn : ¬ env.nullVin = mn.vin := fun h => hnn mn (List.mem_cons_self _ _) h.symm
    unfold dsegWalk
    by_cases hp : env.IsRFC1918 mn.addr = true
    · simp only [hp, if_true]
      have := ih hrest seen n
      simpa [hp] using this
    · simp only [hp, Bool.false_eq_true, if_false]
      by_cases he : mn.IsEnabled = true
      · simp only [he, decide_True, Bool.true_or, Bool.and_self, if_true, hmn, if_false]
        generalize (if (!mapCount seen (env.mnbHash (env.toBroadcast mn))) = true then
            mapInsert seen (env.mnbHash (env.toBroadcast mn)) (env.toBroadcast mn)
          else seen) = S
        obtain ⟨h1, h2, h3⟩ := ih hrest S (n + 1)
        refine ⟨?_, ?_, h3⟩
        · simp [hp, he, h1]
        · rw [h2]
          simp [hp, he]
          omega
      · simp only [he, Bool.false_and, Bool.false_eq_true, if_false]
        have := ih hrest seen n
        simpa [hp, he] using this

theorem ProcessMessage_dseg (env : MsgEnv) (self : CMasternodeMan) (pfrom : CNode)
    (vRecv : CDataStream) (vin : CTxIn)
    (hsync : env.IsBlockchainSynced = true) (hread : vRecv.asVin = some vin) :
    ProcessMessage env self pfrom NetMsgType.DSEG vRecv = processDseg env self pfrom vin := by
  simp [ProcessMessage, hsync, hread, NetMsgType.DSEG, NetMsgType.MNBROADCAST,
    NetMsgType.MNPING]

/-- C13: on mainnet, for a non-local peer without a throttle entry, a full-list DSEG handled
at time `t0` records `t0 + MASTERNODES_DSEG_SECONDS` for the peer, scores nobody, leaves the
entries alone and (no entry carrying the empty input) advertises every enabled entry off the
private ranges and then sends SYNCSTATUSCOUNT with their number; a second full-list DSEG
from the peer at any time `t1 < t0 + MASTERNODES_DSEG_SECONDS` scores the peer 34 and does
nothing else: no inventory, no SYNCSTATUSCOUNT, the registry object unchanged as a whole. -/
theorem dseg_flood (env0 env1 : MsgEnv) (self : CMasternodeMan) (pfrom : CNode)
    (v0 v1 : CDataStream)
    (hs0 : env0.IsBlockchainSynced = true) (hs1 : env1.IsBlockchainSynced = true)
    (hm0 : env0.NetworkIDString = "main") (hm1 : env1.NetworkIDString = "main")
    (hl0 : (env0.IsRFC1918 pfrom.addr || env0.IsLocal pfrom.addr) = false)
    (hl1 : (env1.IsRFC1918 pfrom.addr || env1.IsLocal pfrom.addr) = false)
    (hv0 : v0.asVin = some env0.nullVin) (hv1 : v1.asVin = some env1.nullVin)
    (hnone : mapFind self.mAskedUsForMasternodeList pfrom.addr = none)
    (ht : env1.GetTime < env0.GetTime + env0.MASTERNODES_DSEG_SECONDS) :
    (mapFind (ProcessMessage env0 self pfrom NetMsgType.DSEG v0).1.mAskedUsForMasternodeList
        pfrom.addr = some (env0.GetTime + env0.MASTERNODES_DSEG_SECONDS) ∧
      (ProcessMessage env0 self pfrom NetMsgType.DSEG v0).1.vMasternodes = self.vMasternodes ∧
      (∀ ev ∈ (ProcessMessage env0 self pfrom NetMsgType.DSEG v0).2,
        ∀ howmuch, ev ≠ NetEvent.Misbehaving pfrom.id howmuch) ∧
      ((∀ mn ∈ self.vMasternodes, mn.vin ≠ env0.nullVin) →
        (ProcessMessage env0 self pfrom NetMsgType.DSEG v0).2 =
          (self.vMasternodes.filter fun mn => !env0.IsRFC1918 mn.addr && mn.IsEnabled).map
            (fun mn => NetEvent.PushInventory pfrom.id (env0.mnbHash (env0.toBroadcast mn)))
          ++ [NetEvent.PushSyncStatusCount pfrom.id env0.MASTERNODE_SYNC_LIST
            ((self.vMasternodes.filter
              fun mn => !env0.IsRFC1918 mn.addr && mn.IsEnabled).length : Int)])) ∧
    ProcessMessage env1 (ProcessMessage env0 self pfrom NetMsgType.DSEG v0).1 pfrom
        NetMsgType.DSEG v1 =
      ((ProcessMessage env0 self pfrom NetMsgType.DSEG v0).1,
        [NetEvent.Misbehaving pfrom.id 34]) := by
  have hfirst : ProcessMessage env0 self pfrom NetMsgType.DSEG v0 =
      serveDseg env0
        { self with
          mAskedUsForMasternodeList :=
            mapAssign self.mAskedUsForMasternodeList pfrom.addr
              (env0.GetTime + env0.MASTERNODES_DSEG_SECONDS) } pfrom env0.nullVin := by
    rw [ProcessMessage_dseg env0 self pfrom v0 _ hs0 hv0]
    simp [processDseg, hl0, hm0, hnone]
  have hasked : mapFind
      (ProcessMessage env0 self pfrom NetMsgType.DSEG v0).1.mAskedUsForMasternodeList
        pfrom.addr = some (env0.GetTime + env0.MASTERNODES_DSEG_SECONDS) := by
    rw [hfirst]
    unfold serveDseg
    simp only [if_true]
    split <;> exact mapFind_mapAssign_self _ _ _
  refine ⟨⟨hasked, ?_, ?_, ?_⟩, ?_⟩
  · rw [hfirst]
    unfold serveDseg
    simp only [if_true]
    split <;> rfl
  · rw [hfirst]
    intro ev hev n hn
    unfold serveDseg at hev
    simp only [if_true] at hev
    split at hev
    · obtain ⟨hh, e⟩ := dsegWalk_events _ _ _ _ _ _ ev hev
      rw [e] at hn
      cases hn
    · rcases List.mem_append.1 hev with h | h
      · obtain ⟨hh, e⟩ := dsegWalk_events _ _ _ _ _ _ ev h
        rw [e] at hn
        cases hn
      · simp only [List.mem_singleton] at h
        rw [h] at hn
        cases hn
  · intro hnn
    rw [hfirst]
    unfold serveDseg
    obtain ⟨h1, h2, h3⟩ := dsegWalk_full env0 pfrom self.vMasternodes hnn
      (self.mapSeenMasternodeBroadcast) 0
    simp only [h3, Bool.false_eq_true, if_false, if_true, h1, h2, zero_add]
  · rw [ProcessMessage_dseg env1 _ pfrom v1 _ hs1 hv1]
    unfold processDseg
    simp only [decide_True, hl1, hm1, Bool.not_false, Bool.and_self, if_true, hasked]
    simp [ht]

/-- Instance of `dseg_flood`: requests at times 1000 and 2000 with a throttle of 10800
seconds; the first is answered with one inventory item and the count 1. -/
theorem dseg_flood_witness :
    (sampleMsgEnvAt 1000).IsBlockchainSynced = true ∧
    (sampleMsgEnvAt 2000).IsBlockchainSynced = true ∧
    (sampleMsgEnvAt 1000).NetworkIDString = "main" ∧
    (sampleMsgEnvAt 2000).NetworkIDString = "main" ∧
    ((sampleMsgEnvAt 1000).IsRFC1918 samplePeer.addr ||
      (sampleMsgEnvAt 1000).IsLocal samplePeer.addr) = false ∧
    ((sampleMsgEnvAt 2000).IsRFC1918 samplePeer.addr ||
      (sampleMsgEnvAt 2000).IsLocal samplePeer.addr) = false ∧
    sampleDsegAll.asVin = some (sampleMsgEnvAt 1000).nullVin ∧
    sampleDsegAll.asVin = some (sampleMsgEnvAt 2000).nullVin ∧
    mapFind sampleMan.mAskedUsForMasternodeList samplePeer.addr = none ∧
    (sampleMsgEnvAt 2000).GetTime <
      (sampleMsgEnvAt 1000).GetTime + (sampleMsgEnvAt 1000).MASTERNODES_DSEG_SECONDS ∧
    (ProcessMessage (sampleMsgEnvAt 1000) sampleMan samplePeer NetMsgType.DSEG
      sampleDsegAll).2 = [NetEvent.PushInventory 7 1, NetEvent.PushSyncStatusCount 7 2 1] ∧
    ProcessMessage (sampleMsgEnvAt 2000)
        (ProcessMessage (sampleMsgEnvAt 1000) sampleMan samplePeer NetMsgType.DSEG
          sampleDsegAll).1 samplePeer NetMsgType.DSEG sampleDsegAll =
      ((ProcessMessage (sampleMsgEnvAt 1000) sampleMan samplePeer NetMsgType.DSEG
          sampleDsegAll).1, [NetEvent.Misbehaving samplePeer.id 34]) :=
  ⟨rfl, rfl, rfl, rfl, by decide, by decide, rfl, rfl, by decide, by decide,
    ((dseg_flood (sampleMsgEnvAt 1000) (sampleMsgEnvAt 2000) sampleMan samplePeer
      sampleDsegAll sampleDsegAll rfl rfl rfl rfl (by decide) (by decide) rfl rfl
      (by decide) (by decide)).1.2.2.2 (by decide)).trans (by decide),
    (dseg_flood (sampleMsgEnvAt 1000) (sampleMsgEnvAt 2000) sampleMan samplePeer
      sampleDsegAll sampleDsegAll rfl rfl rfl rfl (by decide) (by decide) rfl rfl
      (by decide) (by decide)).2⟩

end CMasternodeMan

/-! ### Payment selection: the examined candidates -/

namespace CMasternodeMan

/-- In a list ordered high to low, fewer elements than the length of `pre` lie strictly above
the element that follows `pre`, and at least `pre.length + 1` lie at or above it. -/
theorem countP_above_of_sorted {α : Type} (pre post : List (Int × α)) (s : Int × α)
    (hs : (pre ++ s :: post).Pairwise fun a b => b.1 ≤ a.1) :
    (pre ++ s :: post).countP (fun c => decide (s.1 < c.1)) ≤ pre.length ∧
    pre.length + 1 ≤ (pre ++ s :: post).countP (fun c => decide (s.1 ≤ c.1)) := by
  rw [List.pairwise_append] at hs
  obtain ⟨_, hsp, hcross⟩ := hs
  rw [List.pairwise_cons] at hsp
  constructor
  · rw [List.countP_append, List.countP_cons]
    have h0 : List.countP (fun c => decide (s.1 < c.1)) post = 0 := by
      rw [List.countP_eq_zero]
      intro c hc
      have := hsp.1 c hc
      simp only [decide_eq_true_eq, not_lt]
      exact this
    have h1 := List.countP_le_length (fun c : Int × α => decide (s.1 < c.1)) (l := pre)
    simp only [h0, lt_self_iff_false, decide_False, Bool.false_eq_true, if_false]
    omega
  · rw [List.countP_append, List.countP_cons]
    have h1 : List.countP (fun c => decide (s.1 ≤ c.1)) pre = pre.length := by
      rw [List.countP_eq_length]
      intro c hc
      have := hcross c hc s (List.mem_cons_self _ _)
      simpa using this
    simp only [h1, le_refl, decide_True, if_true]
    omega

/-- The selection loop: the result is either the incoming best (no examined candidate beats
`nHigh`), or the first examined candidate with the maximal score, which beats `nHigh`.  The
examined candidates are those before the first one that `Find` does not resolve, among the
first `max 1 (k - cnt)`. -/
theorem selectBest_spec (env : Env) (T : List CMasternode) (h : Int) (k : Nat)
    (L : List (Int × CTxIn)) :
    ∀ (cnt nHigh : Nat) (best : Option CMasternode),
      (selectBest env T h k L cnt nHigh best = best ∧
        ∀ x ∈ (L.take (max 1 (k - cnt))).takeWhile (fun s => (Find T s.2).isSome),
          ∀ p, Find T x.2 = some p → env.CalculateScore p 1 (toInt32 (h - 100)) ≤ nHigh) ∨
      (∃ pre s post e,
        (L.take (max 1 (k - cnt))).takeWhile (fun s => (Find T s.2).isSome)
          = pre ++ s :: post ∧
        Find T s.2 = some e ∧ selectBest env T h k L cnt nHigh best = some e ∧
        nHigh < env.CalculateScore e 1 (toInt32 (h - 100)) ∧
        (∀ x ∈ pre, ∀ p, Find T x.2 = some p →
          env.CalculateScore p 1 (toInt32 (h - 100)) < env.CalculateScore e 1 (toInt32 (h - 100))) ∧
        (∀ x ∈ post, ∀ p, Find T x.2 = some p →
          env.CalculateScore p 1 (toInt32 (h - 100)) ≤ env.CalculateScore e 1 (toInt32 (h - 100)))) := by
  induction L with
  | nil =>
    intro cnt nHigh best
    left
    simp [selectBest]
  | cons s rest ih =>
    intro cnt nHigh best
    have hmax : max 1 (k - cnt) = (max 1 (k - cnt) - 1) + 1 := by omega
    rw [hmax, List.take_succ_cons, List.takeWhile_cons]
    unfold selectBest
    cases hp : Find T s.2 with
    | none =>
      left
      simp
    | some p =>
      simp only [Option.isSome_some, if_true]
      by_cases hstop : cnt + 1 ≥ k
      · have h0 : max 1 (k - cnt) - 1 = 0 := by omega
        simp only [hstop, if_true, h0, List.take_zero, List.takeWhile_nil]
        by_cases hn : env.CalculateScore p 1 (toInt32 (h - 100)) > nHigh
        · right
          refine ⟨[], s, [], p, rfl, hp, by simp [hn], hn, by simp, by simp⟩
        · left
          refine ⟨by simp [hn], ?_⟩
          intro x hx q hq
          simp only [List.mem_singleton] at hx
          subst hx
          rw [hp] at hq
          cases hq
          omega
      · have h1 : max 1 (k - cnt) - 1 = max 1 (k - (cnt + 1)) := by omega
        simp only [hstop, if_false, h1]
        by_cases hn : env.CalculateScore p 1 (toInt32 (h - 100)) > nHigh
        · simp only [hn, if_true]
          right
          rcases ih (cnt + 1) (env.CalculateScore p 1 (toInt32 (h - 100))) (some p) with
            ⟨hr, hle⟩ | ⟨pre, s1, post, e, hX, hfe, hr, hlt, hpre, hpost⟩
          · exact ⟨[], s, _, p, rfl, hp, hr, hn, by simp, hle⟩
          · refine ⟨s :: pre, s1, post, e, by rw [hX]; rfl, hfe, hr, by omega, ?_, hpost⟩
            intro x hx q hq
            rcases List.mem_cons.1 hx with rfl | hx
            · rw [hp] at hq
              cases hq
              exact hlt
            · exact hpre x hx q hq
        · simp only [hn, if_false]
          rcases ih (cnt + 1) nHigh best with
            ⟨hr, hle⟩ | ⟨pre, s1, post, e, hX, hfe, hr, hlt, hpre, hpost⟩
          · left
            refine ⟨hr, ?_⟩
            intro x hx q hq
            rcases List.mem_cons.1 hx with rfl | hx
            · rw [hp] at hq
              cases hq
              omega
            · exact hle x hx q hq
          · right
            refine ⟨s :: pre, s1, post, e, by rw [hX]; rfl, hfe, hr, hlt, ?_, hpost⟩
            intro x hx q hq
            rcases List.mem_cons.1 hx with rfl | hx
            · rw [hp] at hq
              cases hq
              omega
            · exact hpre x hx q hq

theorem GetNext_decidingPass (env : Env) (vM : List CMasternode) (h : Int) (f : Bool) :
    GetNextMasternodeInQueueForPayment env vM h f =
      pickFromLastPaid env h (decidingPass env vM h f) := by
  unfold GetNextMasternodeInQueueForPayment decidingPass
  simp only
  split <;> rfl

/-- The call returns what the selection loop leaves, run over the sorted candidates of the
deciding pass and the registry vector the call leaves behind. -/
theorem GetNext_selectBest (env : Env) (vM : List CMasternode) (h : Int) (f : Bool) :
    (GetNextMasternodeInQueueForPayment env vM h f).pBestMasternode =
      selectBest env (GetNextMasternodeInQueueForPayment env vM h f).vMasternodes h
        (nTenthNetwork env vM h f)
        (sortHighToLow env.sortTie (decidingPass env vM h f).2.1) 0 0 none := by
  rw [GetNext_decidingPass]
  rfl

/-- The returned entry splits the examined candidates. -/
theorem GetNext_examined (env : Env) (vM : List CMasternode) (h : Int) (f : Bool)
    (e : CMasternode)
    (hres : (GetNextMasternodeInQueueForPayment env vM h f).pBestMasternode = some e) :
    ∃ pre s post,
      examinedCandidates env vM h f = pre ++ s :: post ∧
      Find (GetNextMasternodeInQueueForPayment env vM h f).vMasternodes s.2 = some e ∧
      (∀ x ∈ pre, ∀ p,
        Find (GetNextMasternodeInQueueForPayment env vM h f).vMasternodes x.2 = some p →
        env.CalculateScore p 1 (toInt32 (h - 100)) < env.CalculateScore e 1 (toInt32 (h - 100))) ∧
      (∀ x ∈ post, ∀ p,
        Find (GetNextMasternodeInQueueForPayment env vM h f).vMasternodes x.2 = some p →
        env.CalculateScore p 1 (toInt32 (h - 100)) ≤ env.CalculateScore e 1 (toInt32 (h - 100))) := by
  rw [GetNext_selectBest] at hres
  rcases selectBest_spec env (GetNextMasternodeInQueueForPayment env vM h f).vMasternodes h
      (nTenthNetwork env vM h f) (sortHighToLow env.sortTie (decidingPass env vM h f).2.1)
      0 0 none with
    ⟨hr, _⟩ | ⟨pre, s, post, e1, hX, hfe, hr, _, hpre, hpost⟩
  · rw [hr] at hres
    cases hres
  · rw [hr] at hres
    cases hres
    exact ⟨pre, s, post, by simpa [examinedCandidates] using hX, hfe, hpre, hpost⟩

/-- C18: whenever `GetNextMasternodeInQueueForPayment(h, ...)` returns an entry `e`, the
candidates examined by the selection loop split around a candidate that resolves to `e`:
every candidate examined before it has a strictly smaller score `CalculateScore(1, h - 100)`
and every candidate examined after it has a score that is not greater.  So no examined
candidate has a higher score, and among the examined candidates with the maximal score the
one examined first is returned.  The scores are those of the entries `Find` resolves the
candidates to, in the registry as the loop sees it. -/
theorem GetNext_best_score (env : Env) (vM : List CMasternode) (h : Int) (f : Bool)
    (e : CMasternode)
    (hres : (GetNextMasternodeInQueueForPayment env vM h f).pBestMasternode = some e) :
    (∀ x ∈ examinedCandidates env vM h f,
      ∃ p, Find (GetNextMasternodeInQueueForPayment env vM h f).vMasternodes x.2 = some p) ∧
    ∃ pre s post,
      examinedCandidates env vM h f = pre ++ s :: post ∧
      Find (GetNextMasternodeInQueueForPayment env vM h f).vMasternodes s.2 = some e ∧
      (∀ x ∈ pre, ∀ p,
        Find (GetNextMasternodeInQueueForPayment env vM h f).vMasternodes x.2 = some p →
        env.CalculateScore p 1 (toInt32 (h - 100)) < env.CalculateScore e 1 (toInt32 (h - 100))) ∧
      (∀ x ∈ post, ∀ p,
        Find (GetNextMasternodeInQueueForPayment env vM h f).vMasternodes x.2 = some p →
        env.CalculateScore p 1 (toInt32 (h - 100)) ≤ env.CalculateScore e 1 (toInt32 (h - 100))) := by
  refine ⟨?_, GetNext_examined env vM h f e hres⟩
  intro x hx
  have := List.mem_takeWhile_imp hx
  exact Option.isSome_iff_exists.1 this

set_option maxRecDepth 100000 in
/-- Instance of `GetNext_best_score` on thirty entries with distinct seconds since their
last payment: the three oldest are the entries 13, 24 and 5, examined in that order, and
the entry 24 has the highest score of the three. -/
theorem GetNext_best_score_witness :
    (GetNextMasternodeInQueueForPayment (sampleEnvAt 100000) sampleRegistryStaggered 200
      true).pBestMasternode =
      some (sampleMN 24 MasternodeState.MASTERNODE_ENABLED 100 70000 99900) ∧
    (examinedCandidates (sampleEnvAt 100000) sampleRegistryStaggered 200 true).map
      (fun s => s.2.prevout.hash) = [13, 24, 5] ∧
    ∃ pre s post,
      examinedCandidates (sampleEnvAt 100000) sampleRegistryStaggered 200 true
        = pre ++ s :: post ∧
      Find (GetNextMasternodeInQueueForPayment (sampleEnvAt 100000) sampleRegistryStaggered
        200 true).vMasternodes s.2 =
        some (sampleMN 24 MasternodeState.MASTERNODE_ENABLED 100 70000 99900) ∧
      (∀ x ∈ pre, ∀ p,
        Find (GetNextMasternodeInQueueForPayment (sampleEnvAt 100000)
          sampleRegistryStaggered 200 true).vMasternodes x.2 = some p →
        (sampleEnvAt 100000).CalculateScore p 1 (toInt32 (200 - 100)) <
          (sampleEnvAt 100000).CalculateScore
            (sampleMN 24 MasternodeState.MASTERNODE_ENABLED 100 70000 99900) 1 (toInt32 (200 - 100))) ∧
      (∀ x ∈ post, ∀ p,
        Find (GetNextMasternodeInQueueForPayment (sampleEnvAt 100000)
          sampleRegistryStaggered 200 true).vMasternodes x.2 = some p →
        (sampleEnvAt 100000).CalculateScore p 1 (toInt32 (200 - 100)) ≤
          (sampleEnvAt 100000).CalculateScore
            (sampleMN 24 MasternodeState.MASTERNODE_ENABLED 100 70000 99900) 1 (toInt32 (200 - 100))) :=
  ⟨by decide, by decide,
    (GetNext_best_score (sampleEnvAt 100000) sampleRegistryStaggered 200 true
      (sampleMN 24 MasternodeState.MASTERNODE_ENABLED 100 70000 99900) (by decide)).2⟩

end CMasternodeMan

/-! ### Ranks -/

namespace CMasternodeMan

theorem rankScan_fst (env : Env) (sporkManager : CSporkManager) (h minProtocol : Int)
    (fOnlyActive : Bool) (l : List CMasternode) :
    (rankScan env sporkManager h minProtocol fOnlyActive l).1 =
      (rankEligible env sporkManager minProtocol fOnlyActive l).map
        fun m => (env.GetCompact (env.CalculateScore m 1 h), m.vin) := by
  induction l with
  | nil => rfl
  | cons mn rest ih =>
    unfold rankScan rankEligible
    unfold rankEligible at ih
    simp only
    by_cases hp : mn.protocolVersion < minProtocol
    · rw [if_pos hp, ih, List.filter_cons]
      simp [not_le.2 hp]
    · rw [if_neg hp]
      by_cases ha : (sporkManager.IsSporkActive env Spork.SPORK_8_MASTERNODE_PAYMENT_ENFORCEMENT
          && decide (toInt64 (env.GetAdjustedTime - mn.sigTime) < MN_WINNER_MINIMUM_AGE))
          = true
      · rw [if_pos ha, ih, List.filter_cons]
        simp only [Bool.and_eq_true, decide_eq_true_eq] at ha
        simp [ha.1, not_le.2 ha.2]
      · rw [if_neg ha]
        have ha2 : (!sporkManager.IsSporkActive env
            Spork.SPORK_8_MASTERNODE_PAYMENT_ENFORCEMENT ||
            decide (MN_WINNER_MINIMUM_AGE ≤ toInt64 (env.GetAdjustedTime - mn.sigTime)))
            = true := by
          cases hs : sporkManager.IsSporkActive env
            Spork.SPORK_8_MASTERNODE_PAYMENT_ENFORCEMENT
          · simp
          · simp only [hs, Bool.true_and, decide_eq_true_eq, not_lt] at ha
            simp [ha]
        cases fOnlyActive
        · simp only [Bool.false_eq_true, if_false, Bool.false_and, ih, List.filter_cons]
          simp [not_lt.1 hp, ha2]
        · simp only [if_true, Bool.true_and, ih, List.filter_cons]
          by_cases he : (env.Check mn).IsEnabled = true
          · simp [not_lt.1 hp, ha2, he]
          · simp [not_lt.1 hp, ha2, he]

theorem rankOf_spec (vin : CTxIn) (S : List (Int × CTxIn)) :
    ∀ k : Int,
      (rankOf vin S k = -1 ∧ ∀ s ∈ S, s.2.prevout ≠ vin.prevout) ∨
      (∃ pre s post, S = pre ++ s :: post ∧ s.2.prevout = vin.prevout ∧
        rankOf vin S k = k + pre.length + 1) := by
  induction S with
  | nil => intro k; left; simp [rankOf]
  | cons t rest ih =>
    intro k
    unfold rankOf
    by_cases ht : t.2.prevout = vin.prevout
    · right
      exact ⟨[], t, rest, rfl, ht, by simp [ht]⟩
    · simp only [ht, if_false]
      rcases ih (k + 1) with ⟨hr, hall⟩ | ⟨pre, s, post, hS, hs, hr⟩
      · left
        refine ⟨hr, ?_⟩
        intro s hs
        rcases List.mem_cons.1 hs with rfl | hs
        · exact ht
        · exact hall s hs
      · right
        refine ⟨t :: pre, s, post, by rw [hS]; rfl, hs, ?_⟩
        rw [hr]
        simp only [List.length_cons, Nat.cast_add, Nat.cast_one]
        omega

/-- C19: when the block hash at height `h` is known, `GetMasternodeRank` returns `-1`
exactly when no eligible entry (`rankEligible`: `protocolVersion >= minProtocol`, age at
least `MN_WINNER_MINIMUM_AGE` if spork 8 is active, the age being the `int64_t` difference
`GetAdjustedTime() - sigTime`, enabled after its tick if `fOnlyActive`) has the collateral
outpoint of `v`; otherwise an eligible entry with that outpoint has a 1-based rank `r` with
(number of eligible entries whose compact score is strictly greater) `< r <=` (number of
eligible entries whose compact score is greater or equal). -/
theorem GetMasternodeRank_spec (env : Env) (sporkManager : CSporkManager)
    (vM : List CMasternode) (vin : CTxIn) (h minProtocol : Int) (fOnlyActive : Bool)
    (hash : Nat) (hb : env.GetBlockHash h = some hash) :
    ((GetMasternodeRank env sporkManager vM vin h minProtocol fOnlyActive).1 = -1 ↔
      ∀ m ∈ rankEligible env sporkManager minProtocol fOnlyActive vM,
        m.vin.prevout ≠ vin.prevout) ∧
    ((GetMasternodeRank env sporkManager vM vin h minProtocol fOnlyActive).1 ≠ -1 →
      ∃ m ∈ rankEligible env sporkManager minProtocol fOnlyActive vM,
        m.vin.prevout = vin.prevout ∧
        (((rankEligible env sporkManager minProtocol fOnlyActive vM).countP fun x =>
            decide (env.GetCompact (env.CalculateScore m 1 h)
              < env.GetCompact (env.CalculateScore x 1 h)) : Nat) : Int)
          < (GetMasternodeRank env sporkManager vM vin h minProtocol fOnlyActive).1 ∧
        (GetMasternodeRank env sporkManager vM vin h minProtocol fOnlyActive).1 ≤
          (((rankEligible env sporkManager minProtocol fOnlyActive vM).countP fun x =>
            decide (env.GetCompact (env.CalculateScore m 1 h)
              ≤ env.GetCompact (env.CalculateScore x 1 h)) : Nat) : Int)) := by
  have hr : (GetMasternodeRank env sporkManager vM vin h minProtocol fOnlyActive).1 =
      rankOf vin (sortHighToLow env.sortTie
        ((rankEligible env sporkManager minProtocol fOnlyActive vM).map
        fun m => (env.GetCompact (env.CalculateScore m 1 h), m.vin))) 0 := by
    unfold GetMasternodeRank
    simp only [hb, rankScan_fst]
  rw [hr]
  generalize hE : rankEligible env sporkManager minProtocol fOnlyActive vM = E
  have hmemS : ∀ s ∈ sortHighToLow env.sortTie (E.map
      fun m => (env.GetCompact (env.CalculateScore m 1 h), m.vin)),
      ∃ m ∈ E, s = (env.GetCompact (env.CalculateScore m 1 h), m.vin) := by
    intro s hs
    have := (sortHighToLow_perm _ _).subset hs
    obtain ⟨m, hm, e⟩ := List.mem_map.1 this
    exact ⟨m, hm, e.symm⟩
  have hmemE : ∀ m ∈ E, (env.GetCompact (env.CalculateScore m 1 h), m.vin) ∈
      sortHighToLow env.sortTie (E.map fun m => (env.GetCompact (env.CalculateScore m 1 h), m.vin)) := by
    intro m hm
    exact (sortHighToLow_perm _ _).symm.subset (List.mem_map_of_mem _ hm)
  rcases rankOf_spec vin (sortHighToLow env.sortTie (E.map
      fun m => (env.GetCompact (env.CalculateScore m 1 h), m.vin))) 0 with
    ⟨hm1, hall⟩ | ⟨pre, s, post, hS, hs, hrank⟩
  · refine ⟨⟨fun _ m hm => hall _ (hmemE m hm), fun _ => hm1⟩, fun hne => absurd hm1 hne⟩
  · have hpos : rankOf vin (sortHighToLow env.sortTie (E.map
        fun m => (env.GetCompact (env.CalculateScore m 1 h), m.vin))) 0 ≠ -1 := by
      rw [hrank]; omega
    refine ⟨⟨fun h1 => absurd h1 hpos, fun hall => ?_⟩, fun _ => ?_⟩
    · exfalso
      have hsm : s ∈ sortHighToLow env.sortTie (E.map
          fun m => (env.GetCompact (env.CalculateScore m 1 h), m.vin)) := by
        rw [hS]; simp
      obtain ⟨m, hm, e⟩ := hmemS s hsm
      apply hall m hm
      rw [e] at hs
      exact hs
    · have hsm : s ∈ sortHighToLow env.sortTie (E.map
          fun m => (env.GetCompact (env.CalculateScore m 1 h), m.vin)) := by
        rw [hS]; simp
      obtain ⟨m, hm, e⟩ := hmemS s hsm
      refine ⟨m, hm, by rw [e] at hs; exact hs, ?_, ?_⟩
      · have hsorted := sortHighToLow_sorted env.sortTie (E.map
          fun m => (env.GetCompact (env.CalculateScore m 1 h), m.vin))
        rw [hS] at hsorted
        have hc := (countP_above_of_sorted pre post s hsorted).1
        rw [← hS, (sortHighToLow_perm _ _).countP_eq, List.countP_map] at hc
        rw [hrank]
        have : List.countP (fun x => decide (env.GetCompact (env.CalculateScore m 1 h)
            < env.GetCompact (env.CalculateScore x 1 h))) E =
            List.countP ((fun c : Int × CTxIn => decide (s.1 < c.1)) ∘
              fun m => (env.GetCompact (env.CalculateScore m 1 h), m.vin)) E := by
          rw [e]; rfl
        rw [this]
        omega
      · have hsorted := sortHighToLow_sorted env.sortTie (E.map
          fun m => (env.GetCompact (env.CalculateScore m 1 h), m.vin))
        rw [hS] at hsorted
        have hc := (countP_above_of_sorted pre post s hsorted).2
        rw [← hS, (sortHighToLow_perm _ _).countP_eq, List.countP_map] at hc
        rw [hrank]
        have : List.countP (fun x => decide (env.GetCompact (env.CalculateScore m 1 h)
            ≤ env.GetCompact (env.CalculateScore x 1 h))) E =
            List.countP ((fun c : Int × CTxIn => decide (s.1 ≤ c.1)) ∘
              fun m => (env.GetCompact (env.CalculateScore m 1 h), m.vin)) E := by
          rw [e]; rfl
        rw [this]
        omega

/-- Instance of `GetMasternodeRank_spec` at time 10000 with spork 8 active: of the three
enabled entries, the one announced at 9000 is too young; the two others are eligible, and
the entry with collateral `(1, 0)` has the lower score of the two and rank 2. -/
theorem GetMasternodeRank_spec_witness :
    (sampleEnvAt 10000).GetBlockHash 200 = some 200 ∧
    sampleSporkOn.IsSporkActive (sampleEnvAt 10000)
      Spork.SPORK_8_MASTERNODE_PAYMENT_ENFORCEMENT = true ∧
    rankEligible (sampleEnvAt 10000) sampleSporkOn 70000 true sampleRegistryAges =
      [sampleMN 1 MasternodeState.MASTERNODE_ENABLED 0 70000 9900,
       sampleMN 9 MasternodeState.MASTERNODE_ENABLED 100 70000 9900] ∧
    (GetMasternodeRank (sampleEnvAt 10000) sampleSporkOn sampleRegistryAges
      ⟨⟨1, 0⟩, [], 0⟩ 200 70000 true).1 = 2 ∧
    ∃ m ∈ rankEligible (sampleEnvAt 10000) sampleSporkOn 70000 true sampleRegistryAges,
      m.vin.prevout = (⟨⟨1, 0⟩, [], 0⟩ : CTxIn).prevout ∧
      (((rankEligible (sampleEnvAt 10000) sampleSporkOn 70000 true sampleRegistryAges).countP
          fun x => decide ((sampleEnvAt 10000).GetCompact
              ((sampleEnvAt 10000).CalculateScore m 1 200)
            < (sampleEnvAt 10000).GetCompact
              ((sampleEnvAt 10000).CalculateScore x 1 200)) : Nat) : Int)
        < (GetMasternodeRank (sampleEnvAt 10000) sampleSporkOn sampleRegistryAges
          ⟨⟨1, 0⟩, [], 0⟩ 200 70000 true).1 ∧
      (GetMasternodeRank (sampleEnvAt 10000) sampleSporkOn sampleRegistryAges
          ⟨⟨1, 0⟩, [], 0⟩ 200 70000 true).1 ≤
        (((rankEligible (sampleEnvAt 10000) sampleSporkOn 70000 true
          sampleRegistryAges).countP
          fun x => decide ((sampleEnvAt 10000).GetCompact
              ((sampleEnvAt 10000).CalculateScore m 1 200)
            ≤ (sampleEnvAt 10000).GetCompact
              ((sampleEnvAt 10000).CalculateScore x 1 200)) : Nat) : Int) :=
  ⟨by decide, by decide, by decide, by decide,
    (GetMasternodeRank_spec (sampleEnvAt 10000) sampleSporkOn sampleRegistryAges
      ⟨⟨1, 0⟩, [], 0⟩ 200 70000 true 200 (by decide)).2 (by decide)⟩

theorem assignRanks_fst (S : List (Int × CMasternode)) :
    ∀ k : Int, (assignRanks S k).map Prod.fst =
      (List.range S.length).map fun (i : Nat) => k + (i : Int) + 1 := by
  induction S with
  | nil => intro k; rfl
  | cons s rest ih =>
    intro k
    unfold assignRanks
    rw [List.map_cons, ih (k + 1), List.length_cons, List.range_succ_eq_map, List.map_cons,
      List.map_map]
    simp only [Nat.cast_zero, add_zero, List.cons.injEq, true_and]
    apply List.map_congr_left
    intro i _
    simp only [Function.comp, Nat.cast_succ]
    omega

theorem assignRanks_snd (S : List (Int × CMasternode)) :
    ∀ k : Int, (assignRanks S k).map Prod.snd = S.map Prod.snd := by
  induction S with
  | nil => intro k; rfl
  | cons s rest ih => intro k; unfold assignRanks; simp [ih]

theorem assignRanks_mem (S : List (Int × CMasternode)) :
    ∀ (k r : Int) (x : CMasternode), (r, x) ∈ assignRanks S k →
      k < r ∧ ∃ t ∈ S, t.2 = x := by
  induction S with
  | nil => intro k r x hm; simp [assignRanks] at hm
  | cons s rest ih =>
    intro k r x hm
    unfold assignRanks at hm
    rcases List.mem_cons.1 hm with h | h
    · cases h
      exact ⟨by omega, s, List.mem_cons_self _ _, rfl⟩
    · obtain ⟨h1, t, ht, e⟩ := ih (k + 1) r x h
      exact ⟨by omega, t, List.mem_cons_of_mem _ ht, e⟩

/-- In the numbering of a vector ordered high to low in which every pair carries the key of
its entry, an entry with a greater key gets a smaller rank. -/
theorem assignRanks_by_key (key : CMasternode → Int) (S : List (Int × CMasternode))
    (hsorted : S.Pairwise fun a b => b.1 ≤ a.1) (hkey : ∀ s ∈ S, s.1 = key s.2) :
    ∀ (k r1 r2 : Int) (e d : CMasternode), (r1, e) ∈ assignRanks S k →
      (r2, d) ∈ assignRanks S k → key d < key e → r1 < r2 := by
  induction S with
  | nil => intro k r1 r2 e d h1; simp [assignRanks] at h1
  | cons s rest ih =>
    intro k r1 r2 e d h1 h2 hlt
    rw [List.pairwise_cons] at hsorted
    have hk := fun t ht => hkey t (List.mem_cons_of_mem _ ht)
    unfold assignRanks at h1 h2
    rcases List.mem_cons.1 h1 with a1 | a1 <;> rcases List.mem_cons.1 h2 with a2 | a2
    · cases a1; cases a2
      omega
    · cases a1
      exact (assignRanks_mem rest (k + 1) r2 d a2).1
    · cases a2
      exfalso
      obtain ⟨_, t, ht, e1⟩ := assignRanks_mem rest (k + 1) r1 e a1
      have h3 := hsorted.1 t ht
      have h4 := hk t ht
      have h5 := hkey s (List.mem_cons_self _ _)
      rw [e1] at h4
      omega
    · exact ih hsorted.2 hk (k + 1) r1 r2 e d a1 a2 hlt

theorem ranksScore_mem (env : Env) (h minProtocol : Int) (T : List CMasternode)
    (s : Int × CMasternode) (hs : s ∈ T.filterMap (ranksScore env h minProtocol)) :
    s.2 ∈ T ∧ minProtocol ≤ s.2.protocolVersion ∧
    (s.2.IsEnabled = true → s.1 = env.GetCompact (env.CalculateScore s.2 1 h)) ∧
    (s.2.IsEnabled = false → s.1 = 9999) := by
  obtain ⟨mn, hmn, hc⟩ := List.mem_filterMap.1 hs
  unfold ranksScore at hc
  by_cases hp : mn.protocolVersion < minProtocol
  · rw [if_pos hp] at hc
    cases hc
  · rw [if_neg hp] at hc
    cases hd : mn.IsEnabled
    · rw [hd] at hc
      simp only [Bool.not_false, if_true, Option.some.injEq] at hc
      subst hc
      exact ⟨hmn, not_lt.1 hp, fun h1 => (by rw [hd] at h1; cases h1), fun _ => rfl⟩
    · rw [hd] at hc
      simp only [Bool.not_true, Bool.false_eq_true, if_false, Option.some.injEq] at hc
      subst hc
      exact ⟨hmn, not_lt.1 hp, fun _ => rfl, fun h1 => (by rw [hd] at h1; cases h1)⟩

theorem ranksScore_snd (env : Env) (h minProtocol : Int) (T : List CMasternode) :
    (T.filterMap (ranksScore env h minProtocol)).map Prod.snd =
      T.filter fun mn => decide (minProtocol ≤ mn.protocolVersion) := by
  induction T with
  | nil => rfl
  | cons mn rest ih =>
    rw [List.filterMap_cons, List.filter_cons]
    by_cases hp : mn.protocolVersion < minProtocol
    · have hn : ranksScore env h minProtocol mn = none := by simp [ranksScore, hp]
      simp only [hn, not_le.2 hp, decide_False, Bool.false_eq_true, if_false]
      exact ih
    · cases hd : mn.IsEnabled
      · have hn : ranksScore env h minProtocol mn = some (9999, mn) := by
          simp [ranksScore, hp, hd]
        simp only [hn, not_lt.1 hp, decide_True, if_true, List.map_cons, ih]
      · have hn : ranksScore env h minProtocol mn =
            some (env.GetCompact (env.CalculateScore mn 1 h), mn) := by
          simp [ranksScore, hp, hd]
        simp only [hn, not_lt.1 hp, decide_True, if_true, List.map_cons, ih]

/-- C20 (as stated, refuted): an enabled entry whose score is 0 has the compact score 0,
below the sentinel 9999 of a disabled entry: the expired entry gets rank 1 and the enabled
entry rank 2. -/
theorem GetMasternodeRanks_disabled_first :
    sampleEnvZeroScore.GetBlockHash 200 = some 200 ∧
    (GetMasternodeRanks sampleEnvZeroScore
      [sampleMN 1 MasternodeState.MASTERNODE_ENABLED 0 70000 900,
       sampleMN 2 MasternodeState.MASTERNODE_EXPIRED 0 70000 900] 200 70000).1 =
      [(1, sampleMN 2 MasternodeState.MASTERNODE_EXPIRED 0 70000 900),
       (2, sampleMN 1 MasternodeState.MASTERNODE_ENABLED 0 70000 900)] ∧
    (sampleMN 1 MasternodeState.MASTERNODE_ENABLED 0 70000 900).IsEnabled = true ∧
    (sampleMN 2 MasternodeState.MASTERNODE_EXPIRED 0 70000 900).IsEnabled = false := by
  refine ⟨by decide, by decide, by decide, by decide⟩

/-- C20 (amended): for a known block the ranks in the list returned by `GetMasternodeRanks`
are `1..n` in order, `n` being the number of ticked entries with `protocolVersion >=
minProtocol`, which are the entries listed; a disabled entry carries the sentinel score 9999,
so an enabled entry of the list has a smaller rank than every disabled one when its compact
score is above 9999, and a greater rank than every disabled one when its compact score is
below 9999. -/
theorem GetMasternodeRanks_spec (env : Env) (vM : List CMasternode) (h minProtocol : Int)
    (hash : Nat) (hb : env.GetBlockHash h = some hash) :
    (GetMasternodeRanks env vM h minProtocol).1.map Prod.fst =
      (List.range ((vM.map env.Check).filter
        fun mn => decide (minProtocol ≤ mn.protocolVersion)).length).map
        (fun (i : Nat) => (i : Int) + 1) ∧
    ((GetMasternodeRanks env vM h minProtocol).1.map Prod.snd).Perm
      ((vM.map env.Check).filter fun mn => decide (minProtocol ≤ mn.protocolVersion)) ∧
    (∀ (r1 r2 : Int) (e d : CMasternode),
      (r1, e) ∈ (GetMasternodeRanks env vM h minProtocol).1 →
      (r2, d) ∈ (GetMasternodeRanks env vM h minProtocol).1 →
      e.IsEnabled = true → d.IsEnabled = false →
      (9999 < env.GetCompact (env.CalculateScore e 1 h) → r1 < r2) ∧
      (env.GetCompact (env.CalculateScore e 1 h) < 9999 → r2 < r1)) := by
  have hout : (GetMasternodeRanks env vM h minProtocol).1 =
      assignRanks (sortHighToLow env.sortTie ((vM.map env.Check).filterMap
        (ranksScore env h minProtocol))) 0 := by
    unfold GetMasternodeRanks
    simp only [hb]
  rw [hout]
  have hperm := sortHighToLow_perm env.sortTie ((vM.map env.Check).filterMap
    (ranksScore env h minProtocol))
  refine ⟨?_, ?_, ?_⟩
  · rw [assignRanks_fst, hperm.length_eq, ← ranksScore_snd env h minProtocol,
      List.length_map]
    apply List.map_congr_left
    intro i _
    omega
  · rw [assignRanks_snd, ← ranksScore_snd env h minProtocol]
    exact hperm.map _
  · intro r1 r2 e d h1 h2 he hd
    have hkey : ∀ s ∈ sortHighToLow env.sortTie ((vM.map env.Check).filterMap
        (ranksScore env h minProtocol)),
        s.1 = (fun x : CMasternode =>
          if x.IsEnabled then env.GetCompact (env.CalculateScore x 1 h) else 9999) s.2 := by
      intro s hs
      obtain ⟨_, _, k1, k2⟩ := ranksScore_mem env h minProtocol _ s (hperm.subset hs)
      show s.1 = if s.2.IsEnabled = true then env.GetCompact (env.CalculateScore s.2 1 h)
        else 9999
      cases hen : s.2.IsEnabled
      · rw [if_neg (by simp)]
        exact k2 hen
      · rw [if_pos rfl]
        exact k1 hen
    have hby := assignRanks_by_key
      (fun x : CMasternode =>
        if x.IsEnabled then env.GetCompact (env.CalculateScore x 1 h) else 9999)
      _ (sortHighToLow_sorted env.sortTie _) hkey 0
    constructor
    · intro hgt
      exact hby r1 r2 e d h1 h2 (by simp only [he, hd, if_true, Bool.false_eq_true, if_false]; exact hgt)
    · intro hlt
      exact hby r2 r1 d e h2 h1 (by simp only [he, hd, if_true, Bool.false_eq_true, if_false]; exact hlt)

/-- Instance of `GetMasternodeRanks_spec`: with compact scores above 10000 the two enabled
entries are ranked 1 and 2, the expired entry 3. -/
theorem GetMasternodeRanks_spec_witness :
    sampleEnvBigScore.GetBlockHash 200 = some 200 ∧
    (GetMasternodeRanks sampleEnvBigScore sampleMan.vMasternodes 200 70000).1 =
      [(1, sampleMN 2000 MasternodeState.MASTERNODE_ENABLED 0 70000 900),
       (2, sampleMN 1 MasternodeState.MASTERNODE_ENABLED 0 70000 900),
       (3, sampleMN 2 MasternodeState.MASTERNODE_EXPIRED 0 70000 900)] ∧
    (9999 < sampleEnvBigScore.GetCompact (sampleEnvBigScore.CalculateScore
      (sampleMN 1 MasternodeState.MASTERNODE_ENABLED 0 70000 900) 1 200) →
      (2 : Int) < 3) ∧
    (GetMasternodeRanks sampleEnvBigScore sampleMan.vMasternodes 200 70000).1.map Prod.fst =
      (List.range ((sampleMan.vMasternodes.map sampleEnvBigScore.Check).filter
        fun mn => decide ((70000 : Int) ≤ mn.protocolVersion)).length).map
        (fun (i : Nat) => (i : Int) + 1) :=
  ⟨by decide, by decide,
    ((GetMasternodeRanks_spec sampleEnvBigScore sampleMan.vMasternodes 200 70000 200
      (by decide)).2.2 2 3 (sampleMN 1 MasternodeState.MASTERNODE_ENABLED 0 70000 900)
      (sampleMN 2 MasternodeState.MASTERNODE_EXPIRED 0 70000 900) (by decide) (by decide)
      (by decide) (by decide)).1,
    (GetMasternodeRanks_spec sampleEnvBigScore sampleMan.vMasternodes 200 70000 200
      (by decide)).1⟩

end CMasternodeMan

/-! ### The sweep and the caches of a swept entry -/

namespace CMasternodeMan

theorem sweepEntries_asked_subset (env : Env) (force : Bool) (l : List CMasternode)
    (seen : List (Nat × CMasternodeBroadcast)) (asked : List (COutPoint × Int)) :
    ∀ e ∈ (sweepEntries env force l seen asked).2.2, e ∈ asked := by
  induction l generalizing seen asked with
  | nil => intro e he; simpa [sweepEntries] using he
  | cons mn rest ih =>
    intro e he
    unfold sweepEntries at he
    split at he
    · have := ih _ _ e he
      exact (List.mem_filter.1 this).1
    · exact ih _ _ e he

theorem sweepEntries_purged (env : Env) (force : Bool) (l : List CMasternode) :
    ∀ (seen : List (Nat × CMasternodeBroadcast)) (asked : List (COutPoint × Int))
      (E : CMasternode), E ∈ l → isSwept env force E = true →
      (∀ e ∈ (sweepEntries env force l seen asked).2.1, e.2.vin ≠ E.vin) ∧
      (∀ e ∈ (sweepEntries env force l seen asked).2.2, e.1 ≠ E.vin.prevout) := by
  induction l with
  | nil => intro seen asked E hE; cases hE
  | cons mn rest ih =>
    intro seen asked E hE hsw
    unfold sweepEntries
    by_cases hmn : isSwept env force mn = true
    · simp only [hmn, if_true]
      rcases List.mem_cons.1 hE with rfl | hrest
      · constructor
        · intro e he
          have := sweepEntries_seen_subset env force rest _ _ e he
          simpa [mapEraseIf] using (List.mem_filter.1 this).2
        · intro e he
          have := sweepEntries_asked_subset env force rest _ _ e he
          simpa [mapEraseIf] using (List.mem_filter.1 this).2
      · exact ih _ _ E hrest hsw
    · simp only [hmn, Bool.false_eq_true, if_false]
      rcases List.mem_cons.1 hE with rfl | hrest
      · exact absurd hsw hmn
      · exact ih _ _ E hrest hsw

/-- C21 (as stated, refuted): the only entry, with collateral `(3, 0)`, is swept, and a seen
broadcast with the same collateral outpoint `(3, 0)` but another `scriptSig` stays in the
seen-broadcast cache. -/
theorem CheckAndRemove_keeps_other_vin :
    (sampleSweepMan.CheckAndRemove sampleEnv true).vMasternodes = [] ∧
    (sampleSweepMan.CheckAndRemove sampleEnv true).mapSeenMasternodeBroadcast =
      [(4, { sampleMNB 3 0 with vin := ⟨⟨3, 0⟩, [1], 0⟩ })] ∧
    ({ sampleMNB 3 0 with vin := ⟨⟨3, 0⟩, [1], 0⟩ } : CMasternodeBroadcast).vin.prevout =
      (sampleMN 3 MasternodeState.MASTERNODE_ENABLED 0 70000 100).vin.prevout := by
  refine ⟨by decide, by decide, by decide⟩

/-- C21 (amended): for every entry `E` swept by `CheckAndRemove` (an entry of the ticked
registry that meets the removal test), after the call `E` is not in the registry, the
seen-broadcast cache contains no broadcast whose `vin` equals the `vin` of `E` (outpoint,
`scriptSig` and sequence), and the we-asked-for-entry throttle map has no key equal to the
collateral outpoint of `E`. -/
theorem CheckAndRemove_purges_swept (env : Env) (self : CMasternodeMan)
    (forceExpiredRemoval : Bool) (E : CMasternode)
    (hE : E ∈ self.vMasternodes.map env.Check)
    (hswept : isSwept env forceExpiredRemoval E = true) :
    E ∉ (self.CheckAndRemove env forceExpiredRemoval).vMasternodes ∧
    (∀ e ∈ (self.CheckAndRemove env forceExpiredRemoval).mapSeenMasternodeBroadcast,
      e.2.vin ≠ E.vin) ∧
    (∀ e ∈ (self.CheckAndRemove env forceExpiredRemoval).mWeAskedForMasternodeListEntry,
      e.1 ≠ E.vin.prevout) := by
  obtain ⟨h1, h2⟩ := sweepEntries_purged env forceExpiredRemoval _
    self.mapSeenMasternodeBroadcast self.mWeAskedForMasternodeListEntry E hE hswept
  refine ⟨?_, ?_, ?_⟩
  · simp only [CheckAndRemove, sweepEntries_fst, Check, List.mem_filter, hswept,
      Bool.not_true, Bool.false_eq_true, and_false, not_false_eq_true]
  · intro e he
    simp only [CheckAndRemove, mapEraseIf, Check, List.mem_filter] at he
    exact h1 e he.1
  · intro e he
    simp only [CheckAndRemove, mapEraseIf, Check, List.mem_filter] at he
    exact h2 e he.1

/-- Instance of `CheckAndRemove_purges_swept`: the entry with collateral `(3, 0)` expires
at time 1000 and is swept; its broadcast and its throttle key are gone afterwards. -/
theorem CheckAndRemove_purges_swept_witness :
    sampleEnv.Check (sampleMN 3 MasternodeState.MASTERNODE_ENABLED 0 70000 100) ∈
      sampleSweepMan.vMasternodes.map sampleEnv.Check ∧
    isSwept sampleEnv true
      (sampleEnv.Check (sampleMN 3 MasternodeState.MASTERNODE_ENABLED 0 70000 100)) = true ∧
    (∀ e ∈ (sampleSweepMan.CheckAndRemove sampleEnv true).mapSeenMasternodeBroadcast,
      e.2.vin ≠
        (sampleEnv.Check (sampleMN 3 MasternodeState.MASTERNODE_ENABLED 0 70000 100)).vin) ∧
    (∀ e ∈ (sampleSweepMan.CheckAndRemove sampleEnv true).mWeAskedForMasternodeListEntry,
      e.1 ≠ (sampleEnv.Check
        (sampleMN 3 MasternodeState.MASTERNODE_ENABLED 0 70000 100)).vin.prevout) :=
  ⟨by decide, by decide,
    (CheckAndRemove_purges_swept sampleEnv sampleSweepMan true
      (sampleEnv.Check (sampleMN 3 MasternodeState.MASTERNODE_ENABLED 0 70000 100))
      (by decide) (by decide)).2⟩

end CMasternodeMan

/-! ### Targeted requests: `AskForMN` and the MNPING branch -/

namespace CMasternodeMan

theorem ProcessMessage_mnp (env : MsgEnv) (self : CMasternodeMan) (pfrom : CNode)
    (vRecv : CDataStream) (mnp : CMasternodePing)
    (hsync : env.IsBlockchainSynced = true) (hread : vRecv.asMNP = some mnp) :
    ProcessMessage env self pfrom NetMsgType.MNPING vRecv = processMNP env self pfrom mnp := by
  simp [ProcessMessage, hsync, hread, NetMsgType.MNBROADCAST, NetMsgType.MNPING]

theorem AskForMN_events (env : Env) (self : CMasternodeMan) (pnode : CNode) (vin : CTxIn) :
    (AskForMN env self pnode vin).2 = [] ∨
    (AskForMN env self pnode vin).2 = [NetEvent.PushDseg pnode.id vin] := by
  unfold AskForMN
  cases mapFind self.mWeAskedForMasternodeListEntry vin.prevout with
  | none => right; rfl
  | some t =>
    simp only
    split
    · left; rfl
    · right; rfl

/-- C22 (as stated, refuted): the ping check fails with `nDoS = 33` for a ping whose
collateral `(1, 0)` is registered; the peer is scored and a targeted `dseg` for that
collateral is sent to it all the same. -/
theorem ping_dos_still_asks :
    (sampleMsgEnvRejectPing.mnpCheckAndUpdate
      { sampleMan with
        mapSeenMasternodePing :=
          mapInsert sampleMan.mapSeenMasternodePing
            (sampleMsgEnvRejectPing.mnpHash (samplePing 1 900)) (samplePing 1 900) }
      (samplePing 1 900)).nDoS = 33 ∧
    Find sampleMan.vMasternodes (samplePing 1 900).vin =
      some (sampleMN 1 MasternodeState.MASTERNODE_ENABLED 0 70000 900) ∧
    (ProcessMessage sampleMsgEnvRejectPing sampleMan samplePeer NetMsgType.MNPING
      (sampleStreamMNP (samplePing 1 900))).2 =
      [NetEvent.Misbehaving 7 33, NetEvent.PushDseg 7 (samplePing 1 900).vin] := by
  refine ⟨by decide, by decide, by decide⟩

/-- C22 (amended): when an unseen MNPING is handled and `c` is the outcome of the ping's
`CheckAndUpdate`: on success nothing is sent; on failure with `nDoS > 0` the peer is scored
and `AskForMN` runs for the ping's collateral; on failure with `nDoS = 0` nothing is sent
when the collateral is registered, and `AskForMN` runs when it is not.  So a targeted `dseg`
goes only to the sender, only for the ping's collateral, and only if the check failed and
either `nDoS > 0` or the registry has no entry with that collateral outpoint. -/
theorem ping_dseg (env : MsgEnv) (self : CMasternodeMan) (pfrom : CNode)
    (vRecv : CDataStream) (mnp : CMasternodePing) (c : CheckOutcome)
    (hsync : env.IsBlockchainSynced = true) (hread : vRecv.asMNP = some mnp)
    (hunseen : mapCount self.mapSeenMasternodePing (env.mnpHash mnp) = false)
    (hc : env.mnpCheckAndUpdate
      { self with
        mapSeenMasternodePing :=
          mapInsert self.mapSeenMasternodePing (env.mnpHash mnp) mnp } mnp = c) :
    (c.ok = true → ProcessMessage env self pfrom NetMsgType.MNPING vRecv = (c.mnodeman, [])) ∧
    (c.ok = false → 0 < c.nDoS →
      ProcessMessage env self pfrom NetMsgType.MNPING vRecv =
        ((AskForMN env.toEnv c.mnodeman pfrom mnp.vin).1,
          NetEvent.Misbehaving pfrom.id c.nDoS ::
            (AskForMN env.toEnv c.mnodeman pfrom mnp.vin).2)) ∧
    (c.ok = false → ¬ 0 < c.nDoS → Find c.mnodeman.vMasternodes mnp.vin ≠ none →
      ProcessMessage env self pfrom NetMsgType.MNPING vRecv = (c.mnodeman, [])) ∧
    (c.ok = false → ¬ 0 < c.nDoS → Find c.mnodeman.vMasternodes mnp.vin = none →
      ProcessMessage env self pfrom NetMsgType.MNPING vRecv =
        AskForMN env.toEnv c.mnodeman pfrom mnp.vin) ∧
    (∀ id vin, NetEvent.PushDseg id vin ∈
        (ProcessMessage env self pfrom NetMsgType.MNPING vRecv).2 →
      id = pfrom.id ∧ vin = mnp.vin ∧ c.ok = false ∧
      (0 < c.nDoS ∨ Find c.mnodeman.vMasternodes mnp.vin = none)) := by
  have hpm : ProcessMessage env self pfrom NetMsgType.MNPING vRecv =
      if c.ok then (c.mnodeman, [])
      else if c.nDoS > 0 then
        ((AskForMN env.toEnv c.mnodeman pfrom mnp.vin).1,
          NetEvent.Misbehaving pfrom.id c.nDoS ::
            (AskForMN env.toEnv c.mnodeman pfrom mnp.vin).2)
      else
        match Find c.mnodeman.vMasternodes mnp.vin with
        | some _ => (c.mnodeman, [])
        | none => AskForMN env.toEnv c.mnodeman pfrom mnp.vin := by
    rw [ProcessMessage_mnp env self pfrom vRecv mnp hsync hread]
    unfold processMNP
    simp only [hunseen, Bool.false_eq_true, if_false, hc]
  rw [hpm]
  have hask := AskForMN_events env.toEnv c.mnodeman pfrom mnp.vin
  refine ⟨?_, ?_, ?_, ?_, ?_⟩
  · intro hok
    simp [hok]
  · intro hok hd
    simp [hok, hd]
  · intro hok hd hf
    obtain ⟨e, he⟩ := Option.ne_none_iff_exists'.1 hf
    simp [hok, hd, he]
  · intro hok hd hf
    simp [hok, hd, hf]
  · intro id vin hmem
    cases hok : c.ok
    · simp only [hok, Bool.false_eq_true, if_false] at hmem
      by_cases hd : c.nDoS > 0
      · simp only [hd, if_true, List.mem_cons] at hmem
        rcases hmem with h | h
        · cases h
        · rcases hask with h0 | h1
          · rw [h0] at h; cases h
          · rw [h1] at h
            simp only [List.mem_singleton, NetEvent.PushDseg.injEq] at h
            exact ⟨h.1, h.2, rfl, Or.inl hd⟩
      · simp only [hd, if_false] at hmem
        cases hf : Find c.mnodeman.vMasternodes mnp.vin with
        | some e =>
          rw [hf] at hmem
          cases hmem
        | none =>
          rw [hf] at hmem
          rcases hask with h0 | h1
          · rw [h0] at hmem; cases hmem
          · rw [h1] at hmem
            simp only [List.mem_singleton, NetEvent.PushDseg.injEq] at hmem
            exact ⟨hmem.1, hmem.2, rfl, Or.inr rfl⟩
    · simp only [hok, if_true] at hmem
      cases hmem

/-- Instance of `ping_dseg`: a rejected ping with `nDoS = 33`; the handler scores the peer
and then runs `AskForMN` on the registry that has the ping in its seen cache. -/
theorem ping_dseg_witness :
    sampleMsgEnvRejectPing.IsBlockchainSynced = true ∧
    (sampleStreamMNP (samplePing 1 900)).asMNP = some (samplePing 1 900) ∧
    mapCount sampleMan.mapSeenMasternodePing
      (sampleMsgEnvRejectPing.mnpHash (samplePing 1 900)) = false ∧
    ProcessMessage sampleMsgEnvRejectPing sampleMan samplePeer NetMsgType.MNPING
        (sampleStreamMNP (samplePing 1 900)) =
      ((AskForMN sampleMsgEnvRejectPing.toEnv
          { sampleMan with mapSeenMasternodePing := [(901, samplePing 1 900)] }
          samplePeer (samplePing 1 900).vin).1,
        NetEvent.Misbehaving 7 33 ::
          (AskForMN sampleMsgEnvRejectPing.toEnv
            { sampleMan with mapSeenMasternodePing := [(901, samplePing 1 900)] }
            samplePeer (samplePing 1 900).vin).2) :=
  ⟨rfl, rfl, by decide,
    (ping_dseg sampleMsgEnvRejectPing sampleMan samplePeer
      (sampleStreamMNP (samplePing 1 900)) (samplePing 1 900) _ rfl rfl (by decide)
      rfl).2.1 rfl (by decide)⟩

/-- C23: `AskForMN(peer, vin)` at time `GetTime()`: if the we-asked-for-entry map holds a
time `t` for `vin.prevout` with `GetTime() < t`, nothing is sent and the registry is
unchanged; otherwise exactly one `dseg(vin)` is sent to the peer, the map afterwards holds
`GetTime() + MASTERNODE_MIN_MNP_SECONDS` for `vin.prevout`, every other key reads as
before, and nothing but that map has changed. -/
theorem AskForMN_spec (env : Env) (self : CMasternodeMan) (pnode : CNode) (vin : CTxIn) :
    (∀ t, mapFind self.mWeAskedForMasternodeListEntry vin.prevout = some t →
      env.GetTime < t → AskForMN env self pnode vin = (self, [])) ∧
    ((∀ t, mapFind self.mWeAskedForMasternodeListEntry vin.prevout = some t →
        ¬ env.GetTime < t) →
      (AskForMN env self pnode vin).2 = [NetEvent.PushDseg pnode.id vin] ∧
      mapFind (AskForMN env self pnode vin).1.mWeAskedForMasternodeListEntry vin.prevout =
        some (env.GetTime + env.MASTERNODE_MIN_MNP_SECONDS) ∧
      (∀ k, k ≠ vin.prevout →
        mapFind (AskForMN env self pnode vin).1.mWeAskedForMasternodeListEntry k =
          mapFind self.mWeAskedForMasternodeListEntry k) ∧
      (AskForMN env self pnode vin).1 =
        { self with
          mWeAskedForMasternodeListEntry :=
            (AskForMN env self pnode vin).1.mWeAskedForMasternodeListEntry }) := by
  constructor
  · intro t ht hlt
    simp [AskForMN, ht, hlt]
  · intro hno
    have hask : AskForMN env self pnode vin =
        ({ self with
            mWeAskedForMasternodeListEntry :=
              mapAssign self.mWeAskedForMasternodeListEntry vin.prevout
                (env.GetTime + env.MASTERNODE_MIN_MNP_SECONDS) },
          [NetEvent.PushDseg pnode.id vin]) := by
      unfold AskForMN
      cases hf : mapFind self.mWeAskedForMasternodeListEntry vin.prevout with
      | none => rfl
      | some t => simp [hno t hf]
    rw [hask]
    exact ⟨rfl, mapFind_mapAssign_self _ _ _, fun k hk => mapFind_mapAssign_ne _ _ _ _ hk, rfl⟩

/-- Instance of `AskForMN_spec` at time 1000: the collateral `(3, 0)` is throttled until
5000 and nothing is sent; the collateral `(9, 0)` is not in the map, one `dseg` goes to
peer 7 and the map holds 1600 for it. -/
theorem AskForMN_spec_witness :
    (∀ t, mapFind sampleSweepMan.mWeAskedForMasternodeListEntry
        (⟨⟨3, 0⟩, [], 0⟩ : CTxIn).prevout = some t → sampleEnv.GetTime < t) ∧
    AskForMN sampleEnv sampleSweepMan samplePeer ⟨⟨3, 0⟩, [], 0⟩ = (sampleSweepMan, []) ∧
    (∀ t, mapFind sampleSweepMan.mWeAskedForMasternodeListEntry
        (⟨⟨9, 0⟩, [], 0⟩ : CTxIn).prevout = some t → ¬ sampleEnv.GetTime < t) ∧
    (AskForMN sampleEnv sampleSweepMan samplePeer ⟨⟨9, 0⟩, [], 0⟩).2 =
      [NetEvent.PushDseg 7 ⟨⟨9, 0⟩, [], 0⟩] ∧
    mapFind (AskForMN sampleEnv sampleSweepMan samplePeer
      ⟨⟨9, 0⟩, [], 0⟩).1.mWeAskedForMasternodeListEntry ⟨9, 0⟩ = some 1600 :=
  ⟨by decide,
    (AskForMN_spec sampleEnv sampleSweepMan samplePeer ⟨⟨3, 0⟩, [], 0⟩).1 5000 (by decide)
      (by decide),
    by decide,
    ((AskForMN_spec sampleEnv sampleSweepMan samplePeer ⟨⟨9, 0⟩, [], 0⟩).2 (by decide)).1,
    ((AskForMN_spec sampleEnv sampleSweepMan samplePeer ⟨⟨9, 0⟩, [], 0⟩).2 (by decide)).2.1⟩

end CMasternodeMan

/-! ### The stable count -/

namespace CMasternodeMan

theorem stableScan_fst (env : Env) (sporkManager : CSporkManager) (l : List CMasternode) :
    (stableScan env sporkManager l).1 =
      (l.filter fun mn =>
        decide (env.ActiveProtocol ≤ mn.protocolVersion) &&
        (!sporkManager.IsSporkActive env Spork.SPORK_8_MASTERNODE_PAYMENT_ENFORCEMENT ||
          decide (MN_WINNER_MINIMUM_AGE ≤ toInt64 (env.GetAdjustedTime - mn.sigTime))) &&
        (env.Check mn).IsEnabled).length := by
  induction l with
  | nil => rfl
  | cons mn rest ih =>
    unfold stableScan
    simp only
    rw [List.filter_cons]
    by_cases hp : mn.protocolVersion < env.ActiveProtocol
    · rw [if_pos hp, ih]
      simp [not_le.2 hp]
    · rw [if_neg hp]
      by_cases ha : (sporkManager.IsSporkActive env Spork.SPORK_8_MASTERNODE_PAYMENT_ENFORCEMENT
          && decide (toInt64 (env.GetAdjustedTime - mn.sigTime) < MN_WINNER_MINIMUM_AGE))
          = true
      · rw [if_pos ha, ih]
        simp only [Bool.and_eq_true, decide_eq_true_eq] at ha
        simp [ha.1, not_le.2 ha.2]
      · rw [if_neg ha]
        have ha2 : (!sporkManager.IsSporkActive env
            Spork.SPORK_8_MASTERNODE_PAYMENT_ENFORCEMENT ||
            decide (MN_WINNER_MINIMUM_AGE ≤ toInt64 (env.GetAdjustedTime - mn.sigTime)))
            = true := by
          cases hs : sporkManager.IsSporkActive env
            Spork.SPORK_8_MASTERNODE_PAYMENT_ENFORCEMENT
          · simp
          · simp only [hs, Bool.true_and, decide_eq_true_eq, not_lt] at ha
            simp [ha]
        cases he : (env.Check mn).IsEnabled
        · simp [not_lt.1 hp, ha2, he, ih]
        · simp [not_lt.1 hp, ha2, he, ih]

/-- C24 (as stated, refuted): an enabled entry counted by `stable_size()` and not by
`CountEnabled(ActiveProtocol())`.  First with `ActiveProtocol() = -1`, which
`CountEnabled` reads as the request for its default bound 70000, for an entry at protocol 0;
then with a tick that rewrites `protocolVersion`, which `stable_size` tests before the tick
and `CountEnabled` after it. -/
theorem stable_size_above_CountEnabled :
    (stable_size sampleEnvNoProtocol (CSporkManager.empty "")
      [sampleMN 1 MasternodeState.MASTERNODE_ENABLED 0 0 900]).1 = 1 ∧
    (CountEnabled sampleEnvNoProtocol [sampleMN 1 MasternodeState.MASTERNODE_ENABLED 0 0 900]
      sampleEnvNoProtocol.ActiveProtocol).1 = 0 ∧
    (stable_size sampleEnvDowngrade (CSporkManager.empty "")
      [sampleMN 1 MasternodeState.MASTERNODE_ENABLED 0 70000 900]).1 = 1 ∧
    (CountEnabled sampleEnvDowngrade
      [sampleMN 1 MasternodeState.MASTERNODE_ENABLED 0 70000 900]
      sampleEnvDowngrade.ActiveProtocol).1 = 0 := by
  refine ⟨by decide, by decide, by decide, by decide⟩

/-- C24 (amended): `stable_size()` equals the number of registry entries that have
`protocolVersion >= ActiveProtocol()`, have age (the `int64_t` difference of the adjusted
time and `sigTime`) at least 4000 seconds when spork 8 is active, and are enabled after
their state-machine tick; consequently `stable_size() <= CountEnabled(ActiveProtocol())`
whenever the tick leaves `protocolVersion` alone and `ActiveProtocol()` is not the value
`-1` that `CountEnabled` reads as the request for its default bound. -/
theorem stable_size_spec (env : Env) (sporkManager : CSporkManager)
    (vMasternodes : List CMasternode) :
    (stable_size env sporkManager vMasternodes).1 =
      (vMasternodes.filter fun mn =>
        decide (env.ActiveProtocol ≤ mn.protocolVersion) &&
        (!sporkManager.IsSporkActive env Spork.SPORK_8_MASTERNODE_PAYMENT_ENFORCEMENT ||
          decide (4000 ≤ toInt64 (env.GetAdjustedTime - mn.sigTime))) &&
        (env.Check mn).IsEnabled).length ∧
    ((∀ mn, (env.Check mn).protocolVersion = mn.protocolVersion) →
      env.ActiveProtocol ≠ -1 →
      (stable_size env sporkManager vMasternodes).1 ≤
        (CountEnabled env vMasternodes env.ActiveProtocol).1) := by
  have h1 := stableScan_fst env sporkManager vMasternodes
  refine ⟨h1, ?_⟩
  intro hkeep hne
  unfold stable_size
  rw [h1]
  unfold CountEnabled
  simp only [hne, if_false, List.filter_map, List.length_map]
  have hsub : List.Sublist
      (vMasternodes.filter fun mn =>
        decide (env.ActiveProtocol ≤ mn.protocolVersion) &&
        (!sporkManager.IsSporkActive env Spork.SPORK_8_MASTERNODE_PAYMENT_ENFORCEMENT ||
          decide (MN_WINNER_MINIMUM_AGE ≤ toInt64 (env.GetAdjustedTime - mn.sigTime))) &&
        (env.Check mn).IsEnabled)
      (vMasternodes.filter ((fun mn => !(decide (mn.protocolVersion < env.ActiveProtocol) ||
        !mn.IsEnabled)) ∘ env.Check)) := by
    apply List.monotone_filter_right
    intro mn hmn
    simp only [Bool.and_eq_true, decide_eq_true_eq] at hmn
    simp only [Function.comp, hkeep, Bool.not_or, Bool.not_not, Bool.and_eq_true,
      Bool.not_eq_true', decide_eq_false_iff_not, not_lt]
    exact ⟨hmn.1.1, hmn.2⟩
  exact hsub.length_le

/-- Instance of `stable_size_spec` at time 10000 with spork 8 active: of the three enabled
entries, the one announced at 9000 is too young, so the stable count is 2, below
`CountEnabled(ActiveProtocol()) = 3`. -/
theorem stable_size_spec_witness :
    (∀ mn, ((sampleEnvAt 10000).Check mn).protocolVersion = mn.protocolVersion) ∧
    (sampleEnvAt 10000).ActiveProtocol ≠ -1 ∧
    sampleSporkOn.IsSporkActive (sampleEnvAt 10000)
      Spork.SPORK_8_MASTERNODE_PAYMENT_ENFORCEMENT = true ∧
    (stable_size (sampleEnvAt 10000) sampleSporkOn sampleRegistryAges).1 = 2 ∧
    (CountEnabled (sampleEnvAt 10000) sampleRegistryAges (sampleEnvAt 10000).ActiveProtocol).1
      = 3 ∧
    (stable_size (sampleEnvAt 10000) sampleSporkOn sampleRegistryAges).1 ≤
      (CountEnabled (sampleEnvAt 10000) sampleRegistryAges
        (sampleEnvAt 10000).ActiveProtocol).1 :=
  ⟨fun mn => by simp only [sampleEnvAt]; split <;> rfl, by decide, by decide, by decide,
    by decide,
    (stable_size_spec (sampleEnvAt 10000) sampleSporkOn sampleRegistryAges).2
      (fun mn => by simp only [sampleEnvAt]; split <;> rfl) (by decide)⟩

end CMasternodeMan

/-! ### The signed string of a spork message -/

theorem digitChar_value (d : Nat) (hd : d < 10) : (Nat.digitChar d).toNat - 48 = d := by
  interval_cases d <;> rfl

theorem digitChar_ne_minus (d : Nat) (hd : d < 10) : Nat.digitChar d ≠ '-' := by
  interval_cases d <;> decide

theorem decimalValue_toDigitsCore (fuel : Nat) :
    ∀ (n : Nat) (ds : List Char), n < fuel →
      decimalValue 0 (Nat.toDigitsCore 10 fuel n ds) = decimalValue n ds := by
  induction fuel with
  | zero => intro n ds h; omega
  | succ fuel ih =>
    intro n ds h
    unfold Nat.toDigitsCore
    simp only
    have hd : n % 10 < 10 := Nat.mod_lt _ (by decide)
    by_cases h0 : n / 10 = 0
    · rw [if_pos h0]
      simp only [decimalValue, List.foldl_cons, digitChar_value _ hd]
      have : 10 * 0 + n % 10 = n := by omega
      rw [this]
    · rw [if_neg h0, ih (n / 10) _ (by omega)]
      simp only [decimalValue, List.foldl_cons, digitChar_value _ hd]
      have : 10 * (n / 10) + n % 10 = n := by omega
      rw [this]

theorem toDigitsCore_head (fuel : Nat) :
    ∀ (n : Nat) (ds : List Char),
      ∃ d tl, d < 10 ∧ Nat.toDigitsCore 10 (fuel + 1) n ds = Nat.digitChar d :: tl := by
  induction fuel with
  | zero =>
    intro n ds
    refine ⟨n % 10, ds, Nat.mod_lt _ (by decide), ?_⟩
    unfold Nat.toDigitsCore
    simp [Nat.toDigitsCore]
  | succ fuel ih =>
    intro n ds
    unfold Nat.toDigitsCore
    simp only
    by_cases h0 : n / 10 = 0
    · rw [if_pos h0]
      exact ⟨n % 10, ds, Nat.mod_lt _ (by decide), rfl⟩
    · rw [if_neg h0]
      exact ih _ _

theorem decimalValue_repr (n : Nat) : decimalValue 0 (Nat.repr n).data = n := by
  show decimalValue 0 (Nat.toDigits 10 n) = n
  unfold Nat.toDigits
  rw [decimalValue_toDigitsCore _ _ _ (Nat.lt_succ_self n)]
  rfl

theorem repr_head (n : Nat) : ∃ d tl, d < 10 ∧ (Nat.repr n).data = Nat.digitChar d :: tl :=
  toDigitsCore_head n n []

theorem readInt_toString (i : Int) : readInt (toString i).data = i := by
  cases i with
  | ofNat m =>
    show readInt (Nat.repr m).data = _
    obtain ⟨d, tl, hd, he⟩ := repr_head m
    have hv := decimalValue_repr m
    rw [he] at hv ⊢
    unfold readInt
    split
    · rename_i heq
      exact absurd (List.cons.inj heq).1 (digitChar_ne_minus d hd)
    · rw [hv]; rfl
  | negSucc m =>
    show readInt ("-" ++ Nat.repr (m + 1)).data = _
    have : ("-" ++ Nat.repr (m + 1)).data = '-' :: (Nat.repr (m + 1)).data := rfl
    rw [this]
    show -(decimalValue 0 (Nat.repr (m + 1)).data : Int) = _
    rw [decimalValue_repr]
    rfl

/-- The decimal rendering of an integer determines the integer. -/
theorem toString_int_injective (i j : Int) (h : toString i = toString j) : i = j := by
  rw [← readInt_toString i, ← readInt_toString j, h]

namespace CSporkMessage

/-- C25 (as stated, refuted): spork 10007 with value 4070908800 signed at 1500000000 and
spork 10007 with value 40709088001 signed at 500000000 have the same signed string
`"1000740709088001500000000"`, so one signature serves both. -/
theorem strMessage_collision :
    strMessage ⟨[], 10007, 4070908800, 1500000000⟩ =
      strMessage ⟨[], 10007, 40709088001, 500000000⟩ ∧
    (4070908800 : Int) ≠ 40709088001 ∧ (1500000000 : Int) ≠ 500000000 := by
  refine ⟨by decide, by decide, by decide⟩

/-- C25 (amended): the signed string `str(nSporkID) + str(nValue) + str(nTimeSigned)`
determines the content of a spork among messages whose ids have decimal renderings of one
length and whose values have decimal renderings of one length: for two such messages, equal
signed strings imply equal ids, equal values and equal signing times. -/
theorem strMessage_determines (m1 m2 : CSporkMessage)
    (hid : (toString m1.nSporkID).length = (toString m2.nSporkID).length)
    (hval : (toString m1.nValue).length = (toString m2.nValue).length)
    (h : m1.strMessage = m2.strMessage) :
    m1.nSporkID = m2.nSporkID ∧ m1.nValue = m2.nValue ∧ m1.nTimeSigned = m2.nTimeSigned := by
  unfold strMessage at h
  have hd := congrArg String.data h
  simp only [String.data_append, List.append_assoc] at hd
  obtain ⟨h1, h2⟩ := List.append_inj hd hid
  obtain ⟨h3, h4⟩ := List.append_inj h2 hval
  exact ⟨toString_int_injective _ _ (String.ext h1), toString_int_injective _ _ (String.ext h3),
    toString_int_injective _ _ (String.ext h4)⟩

/-- Instance of `strMessage_determines`: two messages for spork 10007 that differ in the
signature field only have the signed string `"1000701"` and the same content. -/
theorem strMessage_determines_witness :
    (toString (sampleSpork 10007 0 1).nSporkID).length =
      (toString ({ sampleSpork 10007 0 1 with vchSig := [] } : CSporkMessage).nSporkID).length ∧
    (sampleSpork 10007 0 1).strMessage = "1000701" ∧
    (sampleSpork 10007 0 1).strMessage =
      ({ sampleSpork 10007 0 1 with vchSig := [] } : CSporkMessage).strMessage ∧
    (sampleSpork 10007 0 1).nTimeSigned =
      ({ sampleSpork 10007 0 1 with vchSig := [] } : CSporkMessage).nTimeSigned :=
  ⟨rfl, by decide, rfl,
    (strMessage_determines (sampleSpork 10007 0 1)
      { sampleSpork 10007 0 1 with vchSig := [] } rfl rfl rfl).2.2⟩

end CSporkMessage

/-! ### Spork names and ids -/

namespace CSporkManager

/-- C26: evaluation at the failing input.  The name of spork 16 (id 10015) is
`"SPORK_16_CLIENT_COMPAT_MODE"`, and `GetSporkIDByName` maps that name to the default value
4070908800 of the spork narrowed to `int`, which is -224058496, not to the id 10015. -/
theorem spork16_name_to_id :
    GetSporkNameByID Spork.SPORK_16_CLIENT_COMPAT_MODE = "SPORK_16_CLIENT_COMPAT_MODE" ∧
    GetSporkIDByName (GetSporkNameByID Spork.SPORK_16_CLIENT_COMPAT_MODE) = -224058496 ∧
    GetSporkIDByName (GetSporkNameByID Spork.SPORK_16_CLIENT_COMPAT_MODE) ≠
      Spork.SPORK_16_CLIENT_COMPAT_MODE := by
  refine ⟨by decide, by decide, by decide⟩

/-- The rest of the round trip holds: the ids of sporks 5, 7, 8, 9, 10, 13 and 15 come back
from their names, and a name that is none of the eight spork names gives `-1`. -/
theorem spork_names_other (strName : String) :
    (∀ id ∈ [Spork.SPORK_5_MAX_VALUE, Spork.SPORK_7_MASTERNODE_SCANNING,
        Spork.SPORK_8_MASTERNODE_PAYMENT_ENFORCEMENT, Spork.SPORK_9_MASTERNODE_BUDGET_ENFORCEMENT,
        Spork.SPORK_10_MASTERNODE_PAY_UPDATED_NODES, Spork.SPORK_13_ENABLE_SUPERBLOCKS,
        Spork.SPORK_15_NEW_PROTOCOL_ENFORCEMENT_2],
      GetSporkIDByName (GetSporkNameByID id) = id) ∧
    (strName ∉ ["SPORK_5_MAX_VALUE", "SPORK_7_MASTERNODE_SCANNING",
        "SPORK_8_MASTERNODE_PAYMENT_ENFORCEMENT", "SPORK_9_MASTERNODE_BUDGET_ENFORCEMENT",
        "SPORK_10_MASTERNODE_PAY_UPDATED_NODES", "SPORK_13_ENABLE_SUPERBLOCKS",
        "SPORK_15_NEW_PROTOCOL_ENFORCEMENT_2", "SPORK_16_CLIENT_COMPAT_MODE"] →
      GetSporkIDByName strName = -1) := by
  constructor
  · decide
  · intro hn
    simp only [List.mem_cons, List.mem_singleton, List.not_mem_nil, or_false, not_or] at hn
    obtain ⟨h1, h2, h3, h4, h5, h6, h7, h8⟩ := hn
    simp [GetSporkIDByName, h1, h2, h3, h4, h5, h6, h7, h8]

end CSporkManager

/-! ### The random pick `FindRandomNotInVec` -/

namespace CMasternodeMan

/-- The walk of `FindRandomNotInVec` started with `rand` returns the eligible entry number
`rand - 1`, counted from zero in registry order (a negative number counts as zero): the
draws 0 and 1 both give the first eligible entry, and a draw `r >= 1` gives the eligible
entry number `r - 1`. -/
theorem randomWalk_eq_getElem (pv : Int) (ex : List CTxIn) (l : List CMasternode)
    (rand : Int) :
    randomWalk pv ex l rand =
      (l.filter fun mn =>
        !(decide (mn.protocolVersion < pv) || !mn.IsEnabled) && !isExcluded ex mn)[
          (rand - 1).toNat]? := by
  induction l generalizing rand with
  | nil => simp [randomWalk]
  | cons mn rest ih =>
    unfold randomWalk
    rw [List.filter_cons]
    by_cases h1 : (decide (mn.protocolVersion < pv) || !mn.IsEnabled) = true
    · rw [if_pos h1, ih]
      simp [h1]
    · rw [if_neg h1]
      have h1f : (decide (mn.protocolVersion < pv) || !mn.IsEnabled) = false := by
        simpa using h1
      by_cases h2 : isExcluded ex mn = true
      · rw [if_pos h2, ih]
        simp [h2]
      · rw [if_neg h2]
        have h2f : isExcluded ex mn = false := by simpa using h2
        rw [h1f, h2f]
        simp only [Bool.not_false, Bool.and_self, if_true]
        by_cases h3 : rand - 1 < 1
        · rw [if_pos h3]
          have : (rand - 1).toNat = 0 := by omega
          rw [this]
          simp
        · rw [if_neg h3, ih]
          have : (rand - 1).toNat = (rand - 1 - 1).toNat + 1 := by omega
          rw [this]
          simp

/-- Every entry the walk returns is in the vector, has the required protocol, is enabled and
is not excluded. -/
theorem randomWalk_eligible (pv : Int) (ex : List CTxIn) (l : List CMasternode)
    (rand : Int) (mn : CMasternode) (h : randomWalk pv ex l rand = some mn) :
    mn ∈ l ∧ pv ≤ mn.protocolVersion ∧ mn.IsEnabled = true ∧ isExcluded ex mn = false := by
  rw [randomWalk_eq_getElem] at h
  have hm := List.getElem?_mem h
  rw [List.mem_filter] at hm
  obtain ⟨hm1, hm2⟩ := hm
  simp only [Bool.not_or, Bool.not_not, Bool.and_eq_true, Bool.not_eq_true',
    decide_eq_false_iff_not, not_lt] at hm2
  exact ⟨hm1, hm2.1.1, hm2.1.2, hm2.2⟩

/-- C27: evaluation at the failing input.  The registry has two enabled entries at protocol
70000 (collaterals `(1, 0)` and `(2000, 0)`) and an expired one, and nothing is excluded, so
the draw is 0 or 1.  The entry `(2000, 0)` is eligible, and both draws return the entry
`(1, 0)`. -/
theorem FindRandomNotInVec_misses_last :
    (CountEnabled sampleEnv sampleMan.vMasternodes 70000).1 = 2 ∧
    sampleMN 2000 MasternodeState.MASTERNODE_ENABLED 0 70000 900 ∈
      (sampleMan.vMasternodes.map sampleEnv.Check).filter (fun mn =>
        mn.IsEnabled && decide (70000 ≤ mn.protocolVersion) && !isExcluded [] mn) ∧
    (FindRandomNotInVec sampleEnv sampleMan.vMasternodes [] 70000 (fun _ => 0)).1 =
      some (sampleMN 1 MasternodeState.MASTERNODE_ENABLED 0 70000 900) ∧
    (FindRandomNotInVec sampleEnv sampleMan.vMasternodes [] 70000 (fun _ => 1)).1 =
      some (sampleMN 1 MasternodeState.MASTERNODE_ENABLED 0 70000 900) := by
  refine ⟨by decide, by decide, by decide, by decide⟩

end CMasternodeMan

/-! ### `Remove` and `Find` -/

namespace CMasternodeMan

theorem eraseP_vin_none (l : List CMasternode) (vin : CTxIn)
    (hU : (l.map fun mn => mn.vin.prevout).Nodup) :
    ∀ mn ∈ l.eraseP (fun mn => decide (mn.vin = vin)), mn.vin ≠ vin := by
  induction l with
  | nil => intro mn hmn; cases hmn
  | cons a rest ih =>
    rw [List.map_cons, List.nodup_cons] at hU
    intro mn hmn
    by_cases ha : a.vin = vin
    · rw [List.eraseP_cons_of_pos (by simpa using ha)] at hmn
      intro hv
      apply hU.1
      rw [List.mem_map]
      exact ⟨mn, hmn, by rw [hv, ha]⟩
    · rw [List.eraseP_cons_of_neg (by simpa using ha)] at hmn
      rcases List.mem_cons.1 hmn with h | h
      · rw [h]; exact ha
      · exact ih hU.2 mn h

/-- C28 (as stated, refuted): in a registry with unique collaterals, `Remove` of an input
with the collateral outpoint `(1, 0)` of a registered entry and another `scriptSig` removes
nothing, and `Find` of that input still returns the entry. -/
theorem Remove_keeps_other_scriptSig :
    sampleMan.UniqueCollateral ∧
    Find (sampleMan.Remove ⟨⟨1, 0⟩, [9], 0⟩).vMasternodes ⟨⟨1, 0⟩, [9], 0⟩ =
      some (sampleMN 1 MasternodeState.MASTERNODE_ENABLED 0 70000 900) ∧
    (sampleMan.Remove ⟨⟨1, 0⟩, [9], 0⟩).vMasternodes = sampleMan.vMasternodes := by
  refine ⟨by unfold UniqueCollateral; decide, by decide, by decide⟩

/-- C28 (amended): `Remove` identifies an entry by its whole `vin` (outpoint, `scriptSig`
and sequence).  For every registry state satisfying collateral uniqueness and every input
`vin`: after `Remove(vin)` no entry has a `vin` equal to the input; `Find(vin)` returns no
entry provided every entry with the outpoint of the input carried exactly that `vin`; and
`Remove` deletes at most one entry, one whose `vin` equals the input, leaving all other
entries and their order unchanged. -/
theorem Remove_spec (self : CMasternodeMan) (vin : CTxIn) (hU : self.UniqueCollateral) :
    (∀ mn ∈ (self.Remove vin).vMasternodes, mn.vin ≠ vin) ∧
    ((∀ mn ∈ self.vMasternodes, mn.vin.prevout = vin.prevout → mn.vin = vin) →
      Find (self.Remove vin).vMasternodes vin = none) ∧
    ((self.Remove vin).vMasternodes = self.vMasternodes ∨
      ∃ l1 e l2, self.vMasternodes = l1 ++ e :: l2 ∧
        (self.Remove vin).vMasternodes = l1 ++ l2 ∧ e.vin = vin) := by
  have h1 := eraseP_vin_none self.vMasternodes vin hU
  refine ⟨h1, ?_, ?_⟩
  · intro hsame
    rw [Find_eq_none_iff]
    intro e he hp
    have hmem : e ∈ self.vMasternodes := List.mem_of_mem_eraseP he
    exact h1 e he (hsame e hmem hp)
  · by_cases hex : ∃ a ∈ self.vMasternodes, decide (a.vin = vin) = true
    · obtain ⟨a, ha, hpa⟩ := hex
      obtain ⟨e, l1, l2, _, hpe, hl, hr⟩ :=
        @List.exists_of_eraseP _ (fun mn : CMasternode => decide (mn.vin = vin)) _ _ ha hpa
      right
      exact ⟨l1, e, l2, hl, hr, by simpa using hpe⟩
    · left
      apply List.eraseP_of_forall_not
      intro a ha hpa
      exact hex ⟨a, ha, hpa⟩

/-- Instance of `Remove_spec`: removing the input of the entry with collateral `(2, 0)`
leaves the other two entries in order, and `Find` no longer returns an entry for it. -/
theorem Remove_spec_witness :
    sampleMan.UniqueCollateral ∧
    (∀ mn ∈ sampleMan.vMasternodes, mn.vin.prevout = (⟨⟨2, 0⟩, [], 0⟩ : CTxIn).prevout →
      mn.vin = ⟨⟨2, 0⟩, [], 0⟩) ∧
    (sampleMan.Remove ⟨⟨2, 0⟩, [], 0⟩).vMasternodes =
      [sampleMN 1 MasternodeState.MASTERNODE_ENABLED 0 70000 900,
       sampleMN 2000 MasternodeState.MASTERNODE_ENABLED 0 70000 900] ∧
    Find (sampleMan.Remove ⟨⟨2, 0⟩, [], 0⟩).vMasternodes ⟨⟨2, 0⟩, [], 0⟩ = none :=
  ⟨by unfold UniqueCollateral; decide, by decide, by decide,
    (Remove_spec sampleMan ⟨⟨2, 0⟩, [], 0⟩ (by unfold UniqueCollateral; decide)).2.1
      (by decide)⟩

end CMasternodeMan
